import Mathlib

/-!
# Verification of the scuffed-uno game core

Shallow embedding of the UNO-style game server core: the `Deck` model
(`src/unnamed/part_001`), the `Room` state machine (`src/unnamed/part_003`)
and the socket gateway (`src/server/socket.ts`).  JavaScript reference
semantics are modelled by keeping the seated players in `Room.players` and
addressing them by their unique `id`; `Math.random()` outcomes are modelled
by an explicit stream of naturals (`Room.rng`), and `uuid()` outcomes by a
stream of strings (`Room.uuids`).  Timed pacing (`sleep`) and socket
emission (`broadcastState`, `incrementStat`) do not mutate room state and
are dropped from the state transitions; the per-player state projection is
modelled separately as a pure function (`Room.stateFor`).

The `Card` and `Player` classes are imported by the sources but their files
are not part of the provided sources; their data layout is reconstructed
from the fields the sources use, and their methods are modelled from the
spec where needed (marked `Modelled from the spec:`).
-/

set_option maxRecDepth 40000

namespace ScuffedUno

/-- Card colors; the source uses the numbers 0..3 for real colors and a
`None` member for unassigned wild cards. -/
inductive CardColor where
  | Red
  | Yellow
  | Green
  | Blue
  | NoColor
deriving DecidableEq, Repr

/-- Models the JS coercion of a number 0..3 into a card color
(`Math.floor(Math.random() * 4)` in `startGame`). -/
def CardColor.fromNat : Nat → CardColor
  | 0 => .Red
  | 1 => .Yellow
  | 2 => .Green
  | 3 => .Blue
  | _ => .NoColor

/-- Card types, in the enum order the `generateDeck` loops rely on
(`Plus2 ≤ Reverse ≤ Skip` and `Wildcard ≤ Plus4`). -/
inductive CardType where
  | NoType
  | Plus2
  | Reverse
  | Skip
  | Wildcard
  | Plus4
deriving DecidableEq, Repr

/-- Modelled from the spec: the `Card` class file is not part of the
provided sources.  Fields follow the spec data model (§3): unique `id`,
`number`, `color`, `type`, transient `playable` flag.  The constructor
`new Card(number, color, type)` is modelled as building the record with
`playable := false`; unique ids are assigned positionally by
`Deck.generateDeck`. -/
structure Card where
  id : Nat
  number : Nat
  color : CardColor
  ctype : CardType
  playable : Bool := false
deriving DecidableEq, Repr

/-- `const colors: CardColor[] = [0, 1, 2, 3];` -/
def colors : List CardColor := [.Red, .Yellow, .Green, .Blue]

/-- One card with a not-yet-assigned id (`new Card(number, color, type)`). -/
def mkCard (number : Nat) (color : CardColor) (ctype : CardType) : Card :=
  { id := 0, number := number, color := color, ctype := ctype }

/-- `Deck.generateDeck` from `src/unnamed/part_001`, before id assignment:
for each color one 0, two of each number 1..9, two of each of
Plus2/Reverse/Skip, then two of each of Wildcard/Plus4 (the source's final
loop `for (type = Wildcard; type <= Plus4; type++)` pushes two cards per
iteration). -/
def generateDeckRaw : List Card :=
  (colors.flatMap fun color =>
    [mkCard 0 color .NoType]
      ++ ((List.range' 1 9).flatMap fun number =>
            [mkCard number color .NoType, mkCard number color .NoType])
      ++ ([CardType.Plus2, CardType.Reverse, CardType.Skip].flatMap fun t =>
            [mkCard 0 color t, mkCard 0 color t]))
    ++ ([CardType.Wildcard, CardType.Plus4].flatMap fun t =>
          [mkCard 0 CardColor.NoColor t, mkCard 0 CardColor.NoColor t])

/-- `Deck.generateDeck` with the `Card` constructor's unique ids modelled
as the position in the generated deck. -/
def generateDeck : List Card :=
  generateDeckRaw.enum.map fun ic => { ic.2 with id := ic.1 }

/-- Modelled from the spec: the `Player` class file is not part of the
provided sources.  Fields are those the sources and the spec data model
(§3) use; the socket handle is not modelled. -/
structure Player where
  id : String
  username : String := ""
  cards : List Card := []
  bot : Bool := false
  canDraw : Bool := false
  canPlay : Bool := false
  drawing : Bool := false
  hasCalledUno : Bool := false
  mustStack : Bool := false
  lastDrawnCard : Nat := 0
  roomId : String := ""
  inRoom : Bool := false
deriving DecidableEq, Repr

/-- Whether a hand card is playable against the top card, per spec §4.2:
match by color, or by number (numbered cards), or by type (action cards),
or the card is a Wildcard/Plus4 (always playable); if the player
`mustStack`, only cards of the same penalty type as the pending stack are
playable. -/
def cardPlayableAgainst (mustStack : Bool) (top c : Card) : Bool :=
  if mustStack then
    (c.ctype == CardType.Plus2 || c.ctype == CardType.Plus4) && c.ctype == top.ctype
  else
    c.ctype == CardType.Wildcard || c.ctype == CardType.Plus4 ||
    c.color == top.color ||
    (c.ctype == CardType.NoType && top.ctype == CardType.NoType && c.number == top.number) ||
    (c.ctype != CardType.NoType && c.ctype == top.ctype)

/-- Modelled from the spec: `Player.findPlayableCards(topCard)` (§4.2)
recomputes the `playable` flag of every hand card. -/
def Player.findPlayableCards (p : Player) (top : Card) : Player :=
  { p with cards := p.cards.map fun c =>
      { c with playable := cardPlayableAgainst p.mustStack top c } }

/-- Modelled from the spec: `Player.clearPlayableCards` strips the
`playable` flags from the hand (used by `nextTurn` on the outgoing
player). -/
def Player.clearPlayableCards (p : Player) : Player :=
  { p with cards := p.cards.map fun c => { c with playable := false } }

/-- Sort key for hand display: color group first, with action/wild cards
after numbered cards of the same color, then number. -/
def cardSortKey (c : Card) : Nat × Nat × Nat :=
  (match c.color with
    | .Red => 0 | .Yellow => 1 | .Green => 2 | .Blue => 3 | .NoColor => 4,
   if c.ctype == CardType.NoType then 0 else 1,
   c.number)

/-- Key comparison for `sortCards`. -/
def cardLE (a b : Card) : Bool :=
  let ka := cardSortKey a
  let kb := cardSortKey b
  ka.1 < kb.1 || (ka.1 == kb.1 &&
    (ka.2.1 < kb.2.1 || (ka.2.1 == kb.2.1 && ka.2.2 ≤ kb.2.2)))

/-- Stable insertion into a sorted hand. -/
def insertCard (c : Card) : List Card → List Card
  | [] => [c]
  | d :: ds => if cardLE d c then d :: insertCard c ds else c :: d :: ds

/-- Stable insertion sort of a hand. -/
def insertionSort : List Card → List Card
  | [] => []
  | c :: cs => insertCard c (insertionSort cs)

/-- Modelled from the spec: `Player.sortCards` (§4.2) stably orders the
hand by (color, number) with action/wild cards grouped after numbered
cards of the same color; implemented as a stable insertion sort. -/
def Player.sortCards (p : Player) : Player :=
  { p with cards := insertionSort p.cards }

/-- Per-room settings (`Settings` interface in `src/unnamed/part_003`). -/
structure Settings where
  stacking : Bool := true
  forcePlay : Bool := true
  bluffing : Bool := false
  drawToPlay : Bool := true
  publicLobby : Bool := false
  maxPlayers : Nat := 4
deriving DecidableEq, Repr

/-- The `Room` state (`src/unnamed/part_003`).  JS object references to
players (`host`, `turn`, `winner`) are modelled by the player's unique
`id`; `turn = ""` models the JS `this.turn = undefined` state.  `rng`
models the stream of `Math.random()` outcomes and `uuids` the stream of
`uuid()` outcomes; the inactivity interval handle is not modelled. -/
structure Room where
  id : String := ""
  started : Bool := false
  host : String := ""
  players : List Player := []
  deck : List Card := []
  pile : List Card := []
  turn : String := ""
  directionReversed : Bool := false
  stack : Nat := 0
  winner : Option String := none
  isRoomEmpty : Bool := false
  inactivityTimer : Nat := 0
  wildcard : Option Card := none
  settings : Settings := {}
  rng : List Nat := []
  uuids : List String := []
deriving DecidableEq, Repr

/-- Models `Math.floor(Math.random() * n)`: pop the next value from the
modelled random stream, reduced into `[0, n)`. -/
def Room.nextRand (r : Room) (n : Nat) : Nat × Room :=
  match r.rng with
  | [] => (0, r)
  | x :: rest => (if n == 0 then 0 else x % n, { r with rng := rest })

/-- Models `uuid().substr(0, 7)` / fresh bot ids: pop the next value from
the modelled uuid stream. -/
def Room.nextUuid (r : Room) : String × Room :=
  match r.uuids with
  | [] => ("", r)
  | x :: rest => (x, { r with uuids := rest })

/-- `this.players.find(p => p.id === pid)` used to resolve a player
reference by its id. -/
def findP (ps : List Player) (pid : String) : Option Player :=
  ps.find? fun p => p.id == pid

/-- In-place mutation of the player object with the given id (JS mutates
the shared object through a reference). -/
def updP (ps : List Player) (pid : String) (f : Player → Player) : List Player :=
  ps.map fun p => if p.id == pid then f p else p

/-- `Room.topCard()`: `this.pile[this.pile.length - 1]` (callers only use
it with a non-empty pile; the default is the JS `undefined` stand-in). -/
def Room.topCard (r : Room) : Card :=
  (r.pile.getLast?).getD (mkCard 0 CardColor.NoColor CardType.NoType)

/-- Mutate the player the room's `turn` reference points at
(`this.turn.xyz = ...` in the source). -/
def Room.updTurn (r : Room) (f : Player → Player) : Room :=
  { r with players := updP r.players r.turn f }

/-- `Deck.pickCard(i)`: `this.cards.splice(i, 1)` removes and returns the
card at index `i`; on an empty (or too short) deck nothing is removed and
no card is returned.  The room always calls it with the JS default index
0 (the front of the deck). -/
def pickCard (cards : List Card) (i : Nat) : Option Card × List Card :=
  (cards.get? i, cards.eraseIdx i)

/-- Swap two positions of a list (identity when out of range). -/
def swapL (l : List Card) (i j : Nat) : List Card :=
  match l.get? i, l.get? j with
  | some a, some b => (l.set i b).set j a
  | _, _ => l

/-- The Fisher-Yates loop of `Deck.shuffleDeck`: while `i ≠ 0`, pick
`randIndex = Math.floor(Math.random() * i)`, decrement `i`, and swap
positions `i` and `randIndex`.  One modelled random value is consumed per
iteration. -/
def shuffleGo : List Card → Nat → List Nat → List Card × List Nat
  | cards, 0, rng => (cards, rng)
  | cards, i + 1, rng =>
    let randIndex := match rng.head? with
      | none => 0
      | some x => x % (i + 1)
    shuffleGo (swapL cards i randIndex) i rng.tail

/-- `Deck.shuffleDeck` on the room's deck, consuming the room's modelled
random stream. -/
def Room.shuffleDeck (r : Room) : Room :=
  let res := shuffleGo r.deck r.deck.length r.rng
  { r with deck := res.1, rng := res.2 }

/-- `Room.refillDeckFromPile`: `this.pile.splice(0, this.pile.length - 1)`
moves every pile card except the top one into the deck, every
Wildcard/Plus4 in the deck has its color reset, and the deck is
reshuffled. -/
def Room.refillDeckFromPile (r : Room) : Room :=
  let moved := r.pile.dropLast
  let newPile := match r.pile.getLast? with
    | none => []
    | some c => [c]
  let deck := (r.deck ++ moved).map fun c =>
    if c.ctype == CardType.Wildcard || c.ctype == CardType.Plus4 then
      { c with color := CardColor.NoColor }
    else c
  Room.shuffleDeck { r with pile := newPile, deck := deck }

/-- The draw stage of `Room.giveCard(player)`: pop the front card of the
deck into the player's hand, and recompute the player's playable cards
if it is their turn and the game has started.  When the deck is empty the
JS code pushes `undefined` into the hand; this is modelled as giving no
card. -/
def Room.giveCardDraw (r : Room) (pid : String) : Option Card × Room :=
  match pickCard r.deck 0 with
  | (none, _) => (none, r)
  | (some c, deckRest) =>
    let r := { r with deck := deckRest }
    let r := { r with players := updP r.players pid fun p => { p with cards := p.cards ++ [c] } }
    let r := if r.turn == pid && r.started then
        { r with players := updP r.players pid fun p => p.findPlayableCards r.topCard }
      else r
    (some c, r)

/-- `Room.giveCard(player)`: refill the deck from the pile if it is
empty, then run the draw stage. -/
def Room.giveCard (r : Room) (pid : String) : Option Card × Room :=
  let r := if r.deck.length == 0 then r.refillDeckFromPile else r
  r.giveCardDraw pid

/-- `Room.addPlayer(player)`: unconditionally mark the player as in this
room and append them to the seating list (the broadcast that follows does
not mutate room state). -/
def Room.addPlayer (r : Room) (player : Player) : Room :=
  { r with players := r.players ++ [{ player with roomId := r.id, inRoom := true }] }

/-- `Room.checkForWinner()`: `players.forEach(p => p.cards.length === 0 ?
(this.winner = p) : null)` — every empty-handed player overwrites
`winner` in seating order. -/
def Room.checkForWinner (r : Room) : Room :=
  { r with winner := (r.players.foldl
      (fun w p => if p.cards.length == 0 then some p.id else w) r.winner) }

/-- `Room.clearStack()`: reset the pending stack and clear every player's
`mustStack` flag. -/
def Room.clearStack (r : Room) : Room :=
  { r with stack := 0, players := r.players.map fun p => { p with mustStack := false } }

/-- `Room.getNextPlayer(offset = 0)`: index arithmetic over the seating
list starting from the current turn player's index (`findIndex` gives -1
when the turn player is not seated), stepping `1 + offset` seats, with a
single wrap; a resulting index outside the list yields no player
(`undefined` in JS). -/
def Room.getNextPlayer (r : Room) (offset : Nat) : Option Player :=
  let idx : Int := match r.players.findIdx? (fun p => p.id == r.turn) with
    | some i => (i : Int)
    | none => -1
  let n : Int := (r.players.length : Int)
  let i : Int :=
    if r.directionReversed then
      let i := idx - (1 + (offset : Int))
      if i < 0 then n + i else i
    else
      let i := idx + (1 + (offset : Int))
      if i > n - 1 then i - n else i
  if i < 0 then none else r.players.get? i.toNat

/-- The bot name pool of `Room.createBot`. -/
def botNames : List String :=
  ["John", "James", "Alice", "Sean", "Joe", "Fred", "Bob", "Pat", "Jack",
   "Adam", "Nathaniel", "Freddie", "Baka", "Sussy"]

/-- `Room.createBot(player?)`: a fresh bot (modelled uuid id, random name)
marked as seated in this room, inheriting the hand of the replaced player
when one is given. -/
def Room.createBot (r : Room) (source : Option Player) : Player × Room :=
  let u := r.nextUuid
  let r := u.2
  let k := r.nextRand botNames.length
  let r := k.2
  let bot : Player :=
    { id := u.1
      username := "Bot " ++ ((botNames.get? k.1).getD "")
      bot := true
      inRoom := true
      roomId := r.id
      cards := (source.map fun p => p.cards).getD [] }
  (bot, r)

/-- The no-replacement branch of `Room.addBot(bot)` (used by the
gateway's add-bot intent): reject when 4 players are seated, otherwise
append the bot. -/
def Room.addBotNew (r : Room) (bot : Player) : Room :=
  if r.players.length == 4 then r
  else { r with players := r.players ++ [bot] }

/-- Modelled from the spec: the bot's wildcard color choice resolves to
the majority color in its hand (§4.2). -/
def majorityColor (cards : List Card) : CardColor :=
  (([CardColor.Red, .Yellow, .Green, .Blue].map fun col =>
      (cards.countP fun c => c.color == col, col)).foldl
    (fun best x => if x.1 > best.1 then x else best) (0, CardColor.Red)).2

/-- The calls of the recursive part of the room state machine.
`playCard`, `nextTurn`, `drawCards` (with its draw loop), the bot policy,
`removePlayer` and `startGame` recursively invoke each other (bot turns
are driven synchronously inside the same call chain), so they are
interpreted by a single fuel-indexed function `run`. -/
inductive Op where
  | drawLoop (pid : String) (amount : Int) (i : Nat) (drawnIds : List Nat)
  | drawCards (pid : String) (amount : Int)
  | playCard (pid : String) (cardIndex : Nat)
  | nextTurn (skip : Bool) (draw : Nat)
  | botPlay
  | removePlayer (pid : String) (replace : Bool)
  | startGame

/-- `drawn.findIndex(c => c.playable) !== -1`: the drawn cards are live
references into the player's hand, so playability is read off the current
hand cards with the drawn ids. -/
def hasPlayableDrawn (r : Room) (pid : String) (drawnIds : List Nat) : Bool :=
  match findP r.players pid with
  | none => false
  | some p => p.cards.any fun c => drawnIds.contains c.id && c.playable

/-- Set the color of the top pile card (`this.topCard().color = ...`). -/
def Room.setTopColor (r : Room) (col : CardColor) : Room :=
  match r.pile.getLast? with
  | none => r
  | some c => { r with pile := r.pile.dropLast ++ [{ c with color := col }] }

/-- One iteration of the `while` loop of `drawCards`, parameterized by
the recursive interpreter callback `rec` (the loop itself, and the early
`nextTurn` return of the draw-to-play rule).  The returned flag marks the
early `return` taken inside the loop body.  Pacing delays (`sleep`),
state broadcasts and the analytics counters do not mutate room state and
are dropped here and below. -/
def drawLoopF (rec : Op → Room → Room × Bool) (pid : String) (amount : Int)
    (i : Nat) (drawnIds : List Nat) (r : Room) : Room × Bool :=
  let cond := (amount == -1 && !(hasPlayableDrawn r pid drawnIds)) ||
              (amount != -1 && amount != (i : Int) && !r.isRoomEmpty)
  if !cond then (r, false)
  else
    let gc := r.giveCard pid
    match gc.1 with
    | none => (gc.2, true)
    | some c =>
      let r := gc.2
      let r := { r with players := updP r.players pid Player.sortCards }
      let r := { r with players := updP r.players pid fun q =>
          { q with lastDrawnCard := q.cards.findIdx fun d => d.id == c.id } }
      let drawnIds := drawnIds ++ [c.id]
      let i := i + 1
      if amount == -1 && !r.settings.drawToPlay then
        if !(hasPlayableDrawn r pid drawnIds) then
          let r := { r with players := updP r.players pid fun q => { q with drawing := false } }
          ((rec (.nextTurn false 0) r).1, true)
        else (r, false)
      else rec (.drawLoop pid amount i drawnIds) r

/-- The body of `Room.drawCards(player, amount = -1)`: re-entry guard,
the draw loop, and the make-last-drawn-card-only-playable
post-processing (skipped when the loop returned early). -/
def drawCardsF (rec : Op → Room → Room × Bool) (pid : String) (amount : Int)
    (r : Room) : Room × Bool :=
  match findP r.players pid with
  | none => (r, false)
  | some p =>
    if p.drawing || (!p.canDraw && amount == -1) then (r, false)
    else
      let r := if amount == -1 then
          { r with players := updP r.players pid fun q => { q with canDraw := false } }
        else r
      let r := { r with players := updP r.players pid fun q => { q with drawing := true } }
      let res := rec (.drawLoop pid amount 0 []) r
      if res.2 then res
      else
        let r := res.1
        let r := { r with players := updP r.players pid fun q =>
            { q with cards := q.cards.map fun (c : Card) => { c with playable := false } } }
        let r := { r with players := updP r.players pid fun q =>
            match q.cards.get? q.lastDrawnCard with
            | some c => { q with cards := q.cards.set q.lastDrawnCard { c with playable := true } }
            | none => q }
        -- `can-keep-card` notification: no room state change
        let r := { r with players := updP r.players pid fun q => { q with drawing := false } }
        (r, false)

/-- The body of `Room.playCard(player, cardIndex)`: precondition guard,
card removal, type-specific effects, the uno penalty, and the turn
advance. -/
def playCardF (rec : Op → Room → Room × Bool) (pid : String) (cardIndex : Nat)
    (r : Room) : Room × Bool :=
  match findP r.players pid with
  | none => (r, false)
  | some p =>
    if !p.canPlay || (p.cards.get? cardIndex).isNone || r.turn != pid ||
       !(((p.cards.get? cardIndex).map fun c => c.playable).getD false) then (r, false)
    else
      let r := { r with wildcard := none }
      match p.cards.get? cardIndex with
      | none => (r, false)
      | some card =>
        let r := { r with players := updP r.players pid fun q =>
            { q with cards := q.cards.eraseIdx cardIndex } }
        let r := { r with pile := r.pile ++ [card] }
        match r.getNextPlayer 0 with
        | none => (r, false)
        | some np =>
          let step : Room × Nat :=
            match card.ctype with
            | .Plus2 =>
              if np.cards.any fun c => c.ctype == CardType.Plus2 then
                ({ r with players := updP r.players np.id fun q => { q with mustStack := true },
                          stack := r.stack + 2 }, 0)
              else (r.clearStack, r.stack + 2)
            | .Plus4 =>
              if np.cards.any fun c => c.ctype == CardType.Plus4 then
                ({ r with players := updP r.players np.id fun q => { q with mustStack := true },
                          stack := r.stack + 4 }, 0)
              else (r.clearStack, r.stack + 4)
            | .Reverse => ({ r with directionReversed := !r.directionReversed }, 0)
            | _ => (r, 0)
          let r := step.1
          let draw := step.2
          -- punish the player for not calling uno
          let r :=
            match findP r.players pid with
            | some q =>
              if q.cards.length == 1 && !q.hasCalledUno then
                (rec (.drawCards pid 2) r).1
              else r
            | none => r
          let r := { r with players := updP r.players pid fun q => { q with hasCalledUno := false } }
          let npMustStack := ((findP r.players np.id).map fun q => q.mustStack).getD false
          if ((card.ctype == CardType.Plus2 || card.ctype == CardType.Plus4) && !npMustStack) ||
             card.ctype == CardType.Skip then
            rec (.nextTurn true draw) r
          else
            rec (.nextTurn false 0) r

/-- The body of `Room.nextTurn(skip = false, draw = 0)`: reset the
inactivity counter, strip the outgoing player, the skip/forced-draw
double advance, grant the new turn, win check, and the synchronous bot
invocation. -/
def nextTurnF (rec : Op → Room → Room × Bool) (skip : Bool) (draw : Nat)
    (r : Room) : Room × Bool :=
  let r := { r with inactivityTimer := 0 }
  let r := r.updTurn fun q => { q.clearPlayableCards with canDraw := false, canPlay := false }
  let r :=
    if skip || draw != 0 then
      let r :=
        match r.getNextPlayer 0 with
        | some np => { r with turn := np.id }
        | none => { r with turn := "" }
      let r := r.updTurn fun q => { q with canDraw := false, canPlay := false }
      if draw != 0 then (rec (.drawCards r.turn (draw : Int)) r).1 else r
    else r
  match r.getNextPlayer 0 with
  | none => ({ r with turn := "" }, false)
  | some np =>
    let r := { r with turn := np.id }
    let r := r.updTurn fun q => ({ q with canDraw := true, canPlay := true }).findPlayableCards r.topCard
    let r := r.checkForWinner
    if r.winner.isSome then (r, false)
    else
      match findP r.players r.turn with
      | some q => if q.bot then rec .botPlay r else (r, false)
      | none => (r, false)

/-- Modelled from the spec: the bot policy (§4.2) plays its first
playable card, resolving a wildcard color to the majority color in its
hand, and otherwise issues a voluntary draw. -/
def botPlayF (rec : Op → Room → Room × Bool) (r : Room) : Room × Bool :=
  match findP r.players r.turn with
  | none => (r, false)
  | some p =>
    match p.cards.findIdx? fun c => c.playable with
    | some i =>
      let r :=
        match p.cards.get? i with
        | some c =>
          if c.ctype == CardType.Wildcard || c.ctype == CardType.Plus4 then
            { r with players := updP r.players p.id fun q =>
                { q with cards := q.cards.set i { c with color := majorityColor q.cards } } }
          else r
        | none => r
      rec (.playCard p.id i) r
    | none => rec (.drawCards p.id (-1)) r

/-- The body of `Room.removePlayer(player, replace = true)`: host
reassignment, bot replacement (or plain removal), and the
kick-last-human cascade. -/
def removePlayerF (rec : Op → Room → Room × Bool) (pid : String) (replace : Bool)
    (r : Room) : Room × Bool :=
  let humans := r.players.filter fun q => !q.bot && q.id != pid
  let r :=
    if humans.length == 0 then { r with isRoomEmpty := true }
    else if r.host == pid then
      let k := r.nextRand humans.length
      { k.2 with host := (((humans.get? k.1).map fun q => q.id).getD "") }
    else r
  let r :=
    if replace && !r.isRoomEmpty then
      -- create a replacement bot inheriting the departing hand
      let cb := r.createBot (findP r.players pid)
      let bot := cb.1
      let r := cb.2
      -- `Room.addBot(bot, player)`: take over the seat; when it was the
      -- departing player's turn the bot takes the turn and acts
      match r.players.findIdx? fun q => q.id == pid with
      | none => r
      | some idx =>
        let r := { r with players := r.players.set idx bot }
        if r.turn == pid then
          (rec .botPlay { r with turn := bot.id }).1
        else r
    else { r with players := r.players.filter fun q => q.id != pid }
  -- broadcast and the clearing of the departed player's own fields: no
  -- room state change
  if humans.length == 1 && !replace && r.started then
    rec (.removePlayer r.host false) r
  else (r, false)

/-- The body of `Room.startGame()`: deck generation and shuffle, the
starting pile card with wild re-roll, the 7-card deal, the random
starting player, and the synchronous bot start. -/
def startGameF (rec : Op → Room → Room × Bool) (r : Room) : Room × Bool :=
  let r := { r with deck := generateDeck }
  let r := r.shuffleDeck
  -- place starting card on pile, re-rolling a wild color
  let pc := pickCard r.deck 0
  match pc.1 with
  | none => (r, false)
  | some c =>
    let r := { r with deck := pc.2, pile := r.pile ++ [c] }
    let r :=
      if r.topCard.ctype == CardType.Plus4 || r.topCard.ctype == CardType.Wildcard then
        let k := r.nextRand 4
        k.2.setTopColor (CardColor.fromNat k.1)
      else r
    -- give players cards
    let ids := r.players.map fun p => p.id
    let r := ids.foldl (fun (r : Room) (pid : String) =>
        let r := (List.range 7).foldl (fun (r : Room) _ => (r.giveCard pid).2) r
        { r with players := updP r.players pid Player.sortCards }) r
    -- pick player to start
    let k := r.nextRand r.players.length
    let r := k.2
    let r := { r with turn := (((r.players.get? k.1).map fun (p : Player) => p.id).getD "") }
    let r := r.updTurn fun q => ({ q with canDraw := true, canPlay := true }).findPlayableCards r.topCard
    let r := if (((findP r.players r.turn).map fun p => p.bot).getD false) then
        (rec .botPlay r).1
      else r
    -- the 1s inactivity interval is asynchronous and not modelled
    ({ r with started := true }, false)

/-- The fuel-indexed interpreter of the recursive room operations.  Each
`Op` dispatches to the body transcribed from the corresponding source
method, with the recursive callback running on one unit of fuel less. -/
def run : Nat → Op → Room → Room × Bool
  | 0, _, r => (r, true)
  | fuel + 1, op, r =>
    match op with
    | .drawLoop pid amount i drawnIds => drawLoopF (run fuel) pid amount i drawnIds r
    | .drawCards pid amount => drawCardsF (run fuel) pid amount r
    | .playCard pid cardIndex => playCardF (run fuel) pid cardIndex r
    | .nextTurn skip draw => nextTurnF (run fuel) skip draw r
    | .botPlay => botPlayF (run fuel) r
    | .removePlayer pid replace => removePlayerF (run fuel) pid replace r
    | .startGame => startGameF (run fuel) r

/-- `Room.drawCards(player, amount = -1)`. -/
def Room.drawCards (fuel : Nat) (r : Room) (pid : String) (amount : Int) : Room :=
  (run fuel (.drawCards pid amount) r).1

/-- `Room.playCard(player, cardIndex)`. -/
def Room.playCard (fuel : Nat) (r : Room) (pid : String) (cardIndex : Nat) : Room :=
  (run fuel (.playCard pid cardIndex) r).1

/-- `Room.nextTurn(skip = false, draw = 0)`. -/
def Room.nextTurn (fuel : Nat) (r : Room) (skip : Bool) (draw : Nat) : Room :=
  (run fuel (.nextTurn skip draw) r).1

/-- `Player.botPlay(room)` on the current turn player. -/
def Room.botPlay (fuel : Nat) (r : Room) : Room :=
  (run fuel .botPlay r).1

/-- `Room.removePlayer(player, replace = true)`. -/
def Room.removePlayer (fuel : Nat) (r : Room) (pid : String) (replace : Bool) : Room :=
  (run fuel (.removePlayer pid replace) r).1

/-- `Room.startGame()`. -/
def Room.startGame (fuel : Nat) (r : Room) : Room :=
  (run fuel .startGame r).1

/-- The opponent projection built by `broadcastState` for the
right/top/left seats: username, hand count, id, bot flag, uno-call
status and skip flag only. -/
structure OpponentView where
  username : String
  count : Nat
  id : String
  isBot : Bool
  calledUno : Bool
  skip : Bool
deriving DecidableEq, Repr

/-- The viewer's own projection (`you`): the `{...player}` spread (the
socket handle, which is erased to `undefined`, is not modelled) plus the
derived fields. -/
structure YouView where
  player : Player
  count : Nat
  calledUno : Bool
  skip : Bool
deriving DecidableEq, Repr

/-- The full per-player `state` payload of `broadcastState`. -/
structure StateView where
  id : String
  isHost : Bool
  host : String
  turn : String
  pile : List Card
  started : Bool
  directionReversed : Bool
  stack : Nat
  playerCount : Nat
  maxPlayers : Nat
  wildcard : Option Card
  you : YouView
  right : Option OpponentView
  top : Option OpponentView
  left : Option OpponentView
  winner : Option (String × String)
deriving DecidableEq, Repr

/-- `Room.getPlayerPosFromOffset(player, offset)`: seat `offset`
positions clockwise from the given player, with a single non-negative
wrap. -/
def Room.getPlayerPosFromOffset (r : Room) (pid : String) (offset : Nat) : Option Player :=
  let playerIndex : Int := match r.players.findIdx? (fun p => p.id == pid) with
    | some i => (i : Int)
    | none => -1
  let n : Int := (r.players.length : Int)
  let newIndex : Int := playerIndex + (offset : Int)
  let newIndex := if newIndex > n - 1 then newIndex - n else newIndex
  if newIndex < 0 then none else r.players.get? newIndex.toNat

/-- The opponent payload of `broadcastState`. -/
def opponentView (r : Room) (q : Player) : OpponentView :=
  { username := q.username
    count := q.cards.length
    id := q.id
    isBot := q.bot
    calledUno := q.hasCalledUno
    skip := !q.canPlay && r.turn == q.id }

/-- The `state` payload `broadcastState` computes for one (non-bot)
viewer, as a pure projection.  The fall-through `switch` on the player
count populates `left` only with 4 seats, `top` with 3 or 4, `right`
with 2, 3 or 4.  `broadcastState` emits this payload to every non-bot
player and performs no room mutation. -/
def Room.stateFor (r : Room) (pid : String) : Option StateView :=
  match findP r.players pid with
  | none => none
  | some player =>
    let n := r.players.length
    let left := if n == 4 then r.getPlayerPosFromOffset pid 3 else none
    let top := if n == 4 || n == 3 then r.getPlayerPosFromOffset pid 2 else none
    let right := if n == 4 || n == 3 || n == 2 then r.getPlayerPosFromOffset pid 1 else none
    some
      { id := r.id
        isHost := r.host == player.id
        host := r.host
        turn := r.turn
        pile := r.pile
        started := r.started
        directionReversed := r.directionReversed
        stack := r.stack
        playerCount := n
        maxPlayers := r.settings.maxPlayers
        wildcard := r.wildcard
        you :=
          { player := player
            count := player.cards.length
            calledUno := player.hasCalledUno
            skip := !player.canPlay && r.turn == player.id }
        right := right.map (opponentView r)
        top := top.map (opponentView r)
        left := left.map (opponentView r)
        winner := r.winner.bind fun wid =>
          (findP r.players wid).map fun w => (w.username, w.id) }

/-- The gateway's `join-room` handler (`src/server/socket.ts`): reject
codes that are not 7 characters long, missing rooms, full rooms, started
games and players already in a room; otherwise set the username and call
`addPlayer`.  `none` models the silently ignored intent (no mutation). -/
def joinRoomHandler (roomLookup : Option Room) (roomId username : String)
    (player : Player) : Option Room :=
  if roomId.length != 7 then none
  else
    match roomLookup with
    | none => none
    | some room =>
      if room.players.length == 4 || room.started then none
      else if player.inRoom then none
      else some (room.addPlayer { player with username := username })

/-! ## Generic lemmas about the embedding -/

/-- `checkForWinner`'s fold keeps the last empty-handed player in seating
order (each match overwrites `winner`). -/
theorem winner_foldl (ps : List Player) (w : Option String) :
    ps.foldl (fun w p => if p.cards.length == 0 then some p.id else w) w
      = match (ps.filter fun p => p.cards.length == 0).getLast? with
        | some q => some q.id
        | none => w := by
  induction ps using List.reverseRecOn generalizing w with
  | nil => simp
  | append_singleton t a ih =>
    rw [List.foldl_append, List.foldl_cons, List.foldl_nil, List.filter_append]
    by_cases ha : (a.cards.length == 0) = true
    · rw [if_pos ha]
      have hfa : List.filter (fun p => p.cards.length == 0) [a] = [a] := by
        simp [List.filter, ha]
      rw [hfa, List.getLast?_concat]
    · rw [if_neg ha]
      have hfa : List.filter (fun p => p.cards.length == 0) [a] = [] := by
        simp [List.filter, ha]
      rw [hfa, List.append_nil, ih]

/-! ## C1 -/

/-- C1: composition of the generated deck.  The final loop of
`Deck.generateDeck` pushes two cards per wild type, so the deck has two
Wildcards and two Plus4s and 104 cards in total — not the four of each
and 108 cards the claim (and the source's own comment `create 4 of
wildcard, plus4`) state.  The colored part matches the claim: 25 cards
per color. -/
theorem c1_generateDeck_counts :
    generateDeck.length = 104 ∧
    (generateDeck.countP fun c => c.ctype == CardType.Wildcard) = 2 ∧
    (generateDeck.countP fun c => c.ctype == CardType.Plus4) = 2 ∧
    (generateDeck.countP fun c => c.color == CardColor.Red) = 25 ∧
    (generateDeck.countP fun c => c.color == CardColor.Yellow) = 25 ∧
    (generateDeck.countP fun c => c.color == CardColor.Green) = 25 ∧
    (generateDeck.countP fun c => c.color == CardColor.Blue) = 25 ∧
    (generateDeck.countP fun c => c.color == CardColor.NoColor) = 4 := by
  decide

/-! ## C2 -/

/-- A room whose two players both have empty hands: seating order `a`
then `b`. -/
def roomC2 : Room :=
  { players := [{ id := "a" }, { id := "b" }] }

/-- C2 counterexample: with two empty hands, `checkForWinner` records the
last empty-handed player `b` as winner, not the first (`a`) as the claim
states. -/
theorem c2_counterexample :
    ((roomC2.players.find? fun p => p.cards.length == 0).map fun p => p.id) = some "a" ∧
    roomC2.checkForWinner.winner = some "b" ∧ ("a" : String) ≠ "b" := by
  decide

/-- C2 (amended): for every room in which at least one player has an
empty hand, `checkForWinner` sets the room's winner to the **last** such
player in seating order (which is the first such player only when the
empty hand is unique). -/
theorem c2_checkForWinner_last_empty (r : Room)
    (h : ∃ p ∈ r.players, p.cards = []) :
    r.checkForWinner.winner
      = ((r.players.filter fun p => p.cards.length == 0).getLast?).map fun p => p.id := by
  obtain ⟨p, hp, hcards⟩ := h
  have hmem : p ∈ r.players.filter fun q => q.cards.length == 0 :=
    List.mem_filter.mpr ⟨hp, by simp [hcards]⟩
  have hne : (r.players.filter fun q => q.cards.length == 0) ≠ [] :=
    List.ne_nil_of_mem hmem
  rw [Room.checkForWinner, winner_foldl]
  cases hl : (r.players.filter fun q => q.cards.length == 0).getLast? with
  | none => exact absurd (List.getLast?_eq_none_iff.mp hl) hne
  | some q => simp

/-- A room where only the second player `y` has an empty hand. -/
def roomC2w : Room :=
  { players := [{ id := "x", cards := [mkCard 5 CardColor.Red CardType.NoType] },
                { id := "y" }] }

/-- C2 witness: the amended theorem applied to a concrete room. -/
theorem c2_witness :
    (∃ p ∈ roomC2w.players, p.cards = []) ∧
    roomC2w.checkForWinner.winner
      = ((roomC2w.players.filter fun p => p.cards.length == 0).getLast?).map fun p => p.id :=
  ⟨by decide, c2_checkForWinner_last_empty roomC2w (by decide)⟩

/-! ## C6 -/

/-- C6: `playCard` is a no-op whenever a precondition fails — the caller
is not the turn player, `canPlay` is unset, the indexed card does not
exist, or the indexed card is not marked playable. -/
theorem c6_playCard_rejected (fuel : Nat) (r : Room) (pid : String) (idx : Nat)
    (p : Player) (hp : findP r.players pid = some p)
    (h : p.canPlay = false ∨ (p.cards.get? idx) = none ∨ r.turn ≠ pid ∨
         ((p.cards.get? idx).map fun c => c.playable) = some false) :
    Room.playCard fuel r pid idx = r := by
  cases fuel with
  | zero => rfl
  | succ fuel =>
    show (run (fuel + 1) (.playCard pid idx) r).1 = r
    rw [run, playCardF, hp]
    have hcond : (!p.canPlay || (p.cards.get? idx).isNone || r.turn != pid ||
        !(((p.cards.get? idx).map fun c => c.playable).getD false)) = true := by
      rcases h with h | h | h | h
      · simp [h]
      · simp only [List.get?_eq_getElem?] at h
        simp [List.getElem?_eq_none_iff.mp h]
      · simp [bne_iff_ne, h]
      · simp only [List.get?_eq_getElem?] at h
        simp [h]
    simp only [hcond, if_true]

/-- A player holding one playable red 5. -/
def playerC6a : Player :=
  { id := "a", canPlay := true
    cards := [{ id := 0, number := 5, color := CardColor.Red, ctype := CardType.NoType,
                playable := true }] }

/-- A room where it is not player `a`'s turn. -/
def roomC6 : Room :=
  { players := [playerC6a, { id := "b" }], turn := "b" }

/-- C6 witness: the rejection theorem applied to a concrete call made out
of turn. -/
theorem c6_witness :
    findP roomC6.players "a" = some playerC6a ∧
    Room.playCard 5 roomC6 "a" 0 = roomC6 :=
  ⟨by decide, c6_playCard_rejected 5 roomC6 "a" 0 playerC6a (by decide)
      (Or.inr (Or.inr (Or.inl (by decide))))⟩

/-! ## C10 -/

/-- C10: `addPlayer` enforces no precondition — for every room (any
seating size, started or not) it appends the player marked with the
room's id — while the gateway's join-room handler rejects full rooms and
started games before ever calling `addPlayer`. -/
theorem c10_addPlayer_unconditional :
    (∀ (r : Room) (p : Player),
        (r.addPlayer p).players = r.players ++ [{ p with roomId := r.id, inRoom := true }]) ∧
    (∀ (room : Room) (roomId username : String) (p : Player),
        room.players.length = 4 → joinRoomHandler (some room) roomId username p = none) ∧
    (∀ (room : Room) (roomId username : String) (p : Player),
        room.started = true → joinRoomHandler (some room) roomId username p = none) := by
  refine ⟨fun r p => rfl, ?_, ?_⟩
  · intro room roomId username p h
    simp [joinRoomHandler, h]
  · intro room roomId username p h
    simp [joinRoomHandler, h]

/-- A full, started room. -/
def roomC10 : Room :=
  { id := "room123"
    players := [{ id := "a" }, { id := "b" }, { id := "c" }, { id := "d" }]
    started := true }

/-- C10 witness: `addPlayer` appends a fifth player to a full, started
room, while the gateway handler rejects the same join. -/
theorem c10_witness :
    (roomC10.addPlayer { id := "e" }).players
      = roomC10.players ++ [{ ({ id := "e" } : Player) with roomId := roomC10.id, inRoom := true }] ∧
    joinRoomHandler (some roomC10) "room123" "eve" { id := "e" } = none :=
  ⟨c10_addPlayer_unconditional.1 roomC10 { id := "e" },
   c10_addPlayer_unconditional.2.1 roomC10 "room123" "eve" { id := "e" } (by decide)⟩

/-! ## C8: conservation machinery -/

/-- The multiset of card identities of a list of cards. -/
def cardIds (l : List Card) : Multiset Nat :=
  ((l.map fun c => c.id : List Nat) : Multiset Nat)

/-- The total multiset of card identities a room holds: draw deck,
discard pile, and every seated player's hand. -/
def Room.allCards (r : Room) : Multiset Nat :=
  cardIds r.deck + cardIds r.pile + ((r.players.map fun p => cardIds p.cards).sum)

theorem cardIds_append (l1 l2 : List Card) :
    cardIds (l1 ++ l2) = cardIds l1 + cardIds l2 := by
  simp [cardIds]

theorem cardIds_map_of_id_eq (f : Card → Card) (hf : ∀ c, (f c).id = c.id)
    (l : List Card) : cardIds (l.map f) = cardIds l := by
  simp [cardIds, List.map_map, Function.comp_def, hf]

/-- Setting an element exchanges it in the multiset sense. -/
theorem coe_set_add {α : Type} (l : List α) (i : Nat) (c d : α)
    (h : l.get? i = some c) :
    ((l.set i d : List α) : Multiset α) + {c} = (l : Multiset α) + {d} := by
  induction l generalizing i with
  | nil => simp at h
  | cons a t ih =>
    cases i with
    | zero =>
      simp only [List.get?] at h
      cases h
      show ((d :: t : List α) : Multiset α) + {c} = _
      rw [← Multiset.cons_coe, ← Multiset.cons_coe, ← Multiset.singleton_add,
        ← Multiset.singleton_add]
      abel
    | succ i =>
      simp only [List.get?] at h
      show ((a :: t.set i d : List α) : Multiset α) + {c} = _
      rw [← Multiset.cons_coe, ← Multiset.cons_coe, Multiset.cons_add,
        Multiset.cons_add, ih i h]

/-- Swapping two positions is a permutation. -/
theorem swapL_perm (l : List Card) (i j : Nat) : (swapL l i j).Perm l := by
  rw [swapL]
  cases hgi : l.get? i with
  | none => exact List.Perm.refl l
  | some a =>
    cases hgj : l.get? j with
    | none => exact List.Perm.refl l
    | some b =>
      have hsj : (l.set i b).get? j = some b := by
        by_cases hij : i = j
        · subst hij
          have hlen : i < l.length := by
            rw [List.get?_eq_getElem?] at hgi
            exact (List.getElem?_eq_some_iff.mp hgi).1
          rw [List.get?_eq_getElem?, List.getElem?_set_eq_of_lt b hlen]
        · rw [List.get?_eq_getElem?, List.getElem?_set_ne hij, ← List.get?_eq_getElem?, hgj]
      have c1 := coe_set_add l i a b hgi
      have c2 := coe_set_add (l.set i b) j b a hsj
      rw [c1] at c2
      have := add_right_cancel c2
      exact Multiset.coe_eq_coe.mp this

/-- The Fisher-Yates loop is a permutation of its input. -/
theorem shuffleGo_perm (i : Nat) : ∀ (cards : List Card) (rng : List Nat),
    (shuffleGo cards i rng).1.Perm cards := by
  induction i with
  | zero => intro cards rng; exact List.Perm.refl cards
  | succ i ih =>
    intro cards rng
    rw [shuffleGo]
    exact (ih _ _).trans (swapL_perm ..)

theorem cardIds_shuffleGo (i : Nat) (cards : List Card) (rng : List Nat) :
    cardIds (shuffleGo cards i rng).1 = cardIds cards := by
  have := (shuffleGo_perm i cards rng).map fun c => c.id
  exact Multiset.coe_eq_coe.mpr this

theorem mem_shuffleGo {c : Card} {i : Nat} {cards : List Card} {rng : List Nat} :
    c ∈ (shuffleGo cards i rng).1 ↔ c ∈ cards :=
  (shuffleGo_perm i cards rng).mem_iff

/-- The piece-wise description of `refillDeckFromPile` used below. -/
theorem refill_deck_pile (r : Room) :
    r.refillDeckFromPile.deck
        = (shuffleGo ((r.deck ++ r.pile.dropLast).map fun c =>
            if c.ctype == CardType.Wildcard || c.ctype == CardType.Plus4 then
              { c with color := CardColor.NoColor }
            else c) (((r.deck ++ r.pile.dropLast).map fun c =>
            if c.ctype == CardType.Wildcard || c.ctype == CardType.Plus4 then
              { c with color := CardColor.NoColor }
            else c).length) r.rng).1 ∧
    r.refillDeckFromPile.pile = (match r.pile.getLast? with
        | none => ([] : List Card)
        | some c => [c]) ∧
    r.refillDeckFromPile.players = r.players := by
  rw [Room.refillDeckFromPile, Room.shuffleDeck]
  exact ⟨rfl, rfl, rfl⟩

/-- Conservation of card identities by the refill. -/
theorem refill_conserves (r : Room) :
    cardIds r.refillDeckFromPile.deck + cardIds r.refillDeckFromPile.pile
      = cardIds r.deck + cardIds r.pile := by
  obtain ⟨hd, hp, _⟩ := refill_deck_pile r
  rw [hd, hp, cardIds_shuffleGo, cardIds_map_of_id_eq _ (fun c => by split <;> rfl),
    cardIds_append]
  cases hlast : r.pile.getLast? with
  | none =>
    rw [List.getLast?_eq_none_iff.mp hlast]
    simp [cardIds]
  | some c =>
    have : r.pile.dropLast ++ [c] = r.pile := List.dropLast_append_getLast? c hlast
    calc cardIds r.deck + cardIds r.pile.dropLast + cardIds [c]
        = cardIds r.deck + cardIds (r.pile.dropLast ++ [c]) := by
          rw [cardIds_append]; abel
      _ = cardIds r.deck + cardIds r.pile := by rw [this]

/-! ### updP / findP algebra -/

theorem updP_eq_of_not_mem (ps : List Player) (pid : String) (f : Player → Player)
    (h : pid ∉ ps.map Player.id) : updP ps pid f = ps := by
  induction ps with
  | nil => rfl
  | cons b t ih =>
    simp only [List.map_cons, List.mem_cons, not_or] at h
    have hb : (b.id == pid) = false := by
      simp [beq_eq_false_iff_ne, Ne.symm h.1]
    show List.map _ (b :: t) = b :: t
    rw [List.map_cons, hb]
    simp only [Bool.false_eq_true, if_false]
    rw [show List.map (fun p => if (p.id == pid) = true then f p else p) t = updP t pid f from rfl,
      ih h.2]

theorem findP_updP (ps : List Player) (pid : String) (f : Player → Player)
    (hf : ∀ p, (f p).id = p.id) :
    findP (updP ps pid f) pid = (findP ps pid).map f := by
  induction ps with
  | nil => rfl
  | cons b t ih =>
    show List.find? _ (List.map _ (b :: t)) = (List.find? _ (b :: t)).map f
    rw [List.map_cons]
    by_cases hb : (b.id == pid) = true
    · rw [if_pos hb, List.find?_cons, List.find?_cons]
      simp only [hf, hb]
      rfl
    · simp only [Bool.not_eq_true] at hb
      rw [if_neg (by simp [hb]), List.find?_cons, List.find?_cons]
      simp only [hb]
      exact ih

theorem ids_updP (ps : List Player) (pid : String) (f : Player → Player)
    (hf : ∀ p, (f p).id = p.id) :
    (updP ps pid f).map Player.id = ps.map Player.id := by
  induction ps with
  | nil => rfl
  | cons b t ih =>
    show List.map _ (List.map _ (b :: t)) = _
    rw [List.map_cons, List.map_cons, List.map_cons]
    rw [show List.map Player.id (List.map (fun p => if (p.id == pid) = true then f p else p) t)
        = (updP t pid f).map Player.id from rfl, ih]
    by_cases hb : (b.id == pid) = true
    · rw [if_pos hb, hf]
    · rw [if_neg hb]

/-- The member found by `findP`. -/
theorem findP_mem_id {ps : List Player} {pid : String} {a : Player}
    (h : findP ps pid = some a) : a ∈ ps ∧ a.id = pid := by
  refine ⟨List.mem_of_find?_eq_some h, ?_⟩
  have := List.find?_some h
  exact beq_iff_eq.mp this

/-- Updating a seated player exchanges their hand contribution in the
summed card-identity multiset (unique ids keep the update single). -/
theorem sum_cardIds_updP (ps : List Player) (pid : String) (f : Player → Player)
    (a : Player) (hnd : (ps.map Player.id).Nodup) (hfind : findP ps pid = some a) :
    ((updP ps pid f).map fun p => cardIds p.cards).sum + cardIds a.cards
      = ((ps.map fun p => cardIds p.cards).sum) + cardIds (f a).cards := by
  induction ps with
  | nil => exact absurd hfind (by simp [findP])
  | cons b t ih =>
    rw [List.map_cons] at hnd
    have hnd' := List.nodup_cons.mp hnd
    rw [findP, List.find?_cons] at hfind
    show ((List.map _ (List.map _ (b :: t))).sum) + _ = ((List.map _ (b :: t)).sum) + _
    rw [List.map_cons, List.map_cons, List.map_cons]
    by_cases hb : (b.id == pid) = true
    · rw [hb] at hfind
      cases hfind
      rw [if_pos hb]
      have hti : updP t pid f = t := by
        apply updP_eq_of_not_mem
        rw [← beq_iff_eq.mp hb]
        exact hnd'.1
      rw [show List.map (fun p => if (p.id == pid) = true then f p else p) t = updP t pid f from rfl,
        hti, List.sum_cons, List.sum_cons]
      abel
    · simp only [Bool.not_eq_true] at hb
      rw [hb] at hfind
      rw [if_neg (by simp [hb]), List.sum_cons, List.sum_cons]
      have hre := ih hnd'.2 hfind
      rw [show List.map (fun p => if (p.id == pid) = true then f p else p) t = updP t pid f from rfl]
      calc cardIds b.cards + ((updP t pid f).map fun p => cardIds p.cards).sum + cardIds a.cards
          = cardIds b.cards + (((updP t pid f).map fun p => cardIds p.cards).sum + cardIds a.cards) := by
            abel
        _ = cardIds b.cards + (((t.map fun p => cardIds p.cards).sum) + cardIds (f a).cards) := by
            rw [hre]
        _ = cardIds b.cards + ((t.map fun p => cardIds p.cards).sum) + cardIds (f a).cards := by
            abel

theorem sum_cardIds_updP_append (ps : List Player) (pid : String) (c : Card)
    (a : Player) (hnd : (ps.map Player.id).Nodup) (hfind : findP ps pid = some a) :
    ((updP ps pid fun p => { p with cards := p.cards ++ [c] }).map fun p => cardIds p.cards).sum
      = ((ps.map fun p => cardIds p.cards).sum) + {c.id} := by
  have hmain := sum_cardIds_updP ps pid (fun p => { p with cards := p.cards ++ [c] }) a hnd hfind
  rw [show cardIds ({ a with cards := a.cards ++ [c] } : Player).cards
      = cardIds a.cards + {c.id} from by
    show cardIds (a.cards ++ [c]) = _
    rw [cardIds_append]
    rfl] at hmain
  have hmain2 : ((updP ps pid fun p => { p with cards := p.cards ++ [c] }).map fun p => cardIds p.cards).sum + cardIds a.cards
      = (((ps.map fun p => cardIds p.cards).sum) + {c.id}) + cardIds a.cards := by
    rw [hmain]; abel
  exact add_right_cancel hmain2

theorem sum_cardIds_updP_preserving (ps : List Player) (pid : String)
    (f : Player → Player) (a : Player) (hnd : (ps.map Player.id).Nodup)
    (hfind : findP ps pid = some a) (hpres : cardIds (f a).cards = cardIds a.cards) :
    ((updP ps pid f).map fun p => cardIds p.cards).sum
      = (ps.map fun p => cardIds p.cards).sum := by
  have hmain := sum_cardIds_updP ps pid f a hnd hfind
  rw [hpres] at hmain
  exact add_right_cancel hmain

/-- `findPlayableCards` only toggles flags: hand identities unchanged. -/
theorem cardIds_findPlayableCards (p : Player) (top : Card) :
    cardIds (p.findPlayableCards top).cards = cardIds p.cards := by
  show cardIds (p.cards.map fun c =>
      { c with playable := cardPlayableAgainst p.mustStack top c }) = cardIds p.cards
  exact cardIds_map_of_id_eq
    (fun c => { c with playable := cardPlayableAgainst p.mustStack top c })
    (fun c => rfl) p.cards

/-- The refill leaves the total room multiset unchanged. -/
theorem refill_allCards (r : Room) :
    r.refillDeckFromPile.allCards = r.allCards := by
  rw [Room.allCards, Room.allCards, (refill_deck_pile r).2.2]
  have h := refill_conserves r
  calc cardIds r.refillDeckFromPile.deck + cardIds r.refillDeckFromPile.pile
          + ((r.players.map fun p => cardIds p.cards).sum)
      = (cardIds r.deck + cardIds r.pile) + ((r.players.map fun p => cardIds p.cards).sum) := by
        rw [h]
    _ = _ := rfl

/-- The draw stage of `giveCard` preserves the total card multiset: the
front card (if any) moves into the seated player's hand. -/
theorem giveCardDraw_allCards (s : Room) (pid : String) (a : Player)
    (hnd : (s.players.map Player.id).Nodup) (hfind : findP s.players pid = some a) :
    (s.giveCardDraw pid).2.allCards = s.allCards := by
  cases hdeck : s.deck with
  | nil =>
    simp only [Room.giveCardDraw, pickCard, hdeck]
    rfl
  | cons c rest =>
    have hsum := sum_cardIds_updP_append s.players pid c a hnd hfind
    have hfind2 : findP (updP s.players pid fun p => { p with cards := p.cards ++ [c] }) pid
        = some { a with cards := a.cards ++ [c] } := by
      rw [findP_updP s.players pid (fun p => { p with cards := p.cards ++ [c] })
        (fun p => rfl), hfind]
      rfl
    have hnd2 : ((updP s.players pid fun p => { p with cards := p.cards ++ [c] }).map Player.id).Nodup := by
      rw [ids_updP s.players pid (fun p => { p with cards := p.cards ++ [c] }) (fun p => rfl)]
      exact hnd
    have hmain : ∀ (X : List Player),
        (X.map fun p => cardIds p.cards).sum
          = ((s.players.map fun p => cardIds p.cards).sum) + {c.id} →
        (cardIds rest + cardIds s.pile + (X.map fun p => cardIds p.cards).sum)
          = s.allCards := by
      intro X hX
      rw [hX, Room.allCards, hdeck,
        show cardIds (c :: rest) = c.id ::ₘ cardIds rest from rfl,
        ← Multiset.singleton_add]
      abel
    simp only [Room.giveCardDraw, pickCard, hdeck, List.get?_cons_zero, List.eraseIdx_cons_zero]
    by_cases hcond : (s.turn == pid && s.started) = true
    · simp only [hcond, if_true]
      have hsum2 := fun (top : Card) => sum_cardIds_updP_preserving
        (updP s.players pid fun p => { p with cards := p.cards ++ [c] }) pid
        (fun p => p.findPlayableCards top)
        { a with cards := a.cards ++ [c] } hnd2 hfind2
        (cardIds_findPlayableCards _ _)
      exact hmain _ (by rw [hsum2 _, hsum])
    · simp only [hcond, if_false]
      exact hmain _ hsum

/-- `giveCard` preserves the total card multiset of the room whenever the
target player is seated (with unique ids). -/
theorem giveCard_allCards (r : Room) (pid : String) (a : Player)
    (hnd : (r.players.map Player.id).Nodup) (hfind : findP r.players pid = some a) :
    (r.giveCard pid).2.allCards = r.allCards := by
  rw [Room.giveCard]
  by_cases hd : (r.deck.length == 0) = true
  · show ((if r.deck.length == 0 then r.refillDeckFromPile else r).giveCardDraw pid).2.allCards = _
    rw [if_pos hd]
    have hps := (refill_deck_pile r).2.2
    have := giveCardDraw_allCards r.refillDeckFromPile pid a
      (by rw [hps]; exact hnd) (by rw [show findP r.refillDeckFromPile.players pid = findP r.players pid from by rw [hps]]; exact hfind)
    rw [this, refill_allCards]
  · show ((if r.deck.length == 0 then r.refillDeckFromPile else r).giveCardDraw pid).2.allCards = _
    rw [if_neg hd]
    exact giveCardDraw_allCards r pid a hnd hfind

/-- Color stripping in the refilled deck: every Wildcard/Plus4 in the
refilled deck is colorless. -/
theorem refill_strip (r : Room) :
    ∀ d ∈ r.refillDeckFromPile.deck,
      (d.ctype = CardType.Wildcard ∨ d.ctype = CardType.Plus4) →
        d.color = CardColor.NoColor := by
  intro d hd hw
  rw [(refill_deck_pile r).1, mem_shuffleGo] at hd
  obtain ⟨e, he, hde⟩ := List.mem_map.mp hd
  by_cases hwe : (e.ctype == CardType.Wildcard || e.ctype == CardType.Plus4) = true
  · rw [if_pos hwe] at hde
    rw [← hde]
  · rw [if_neg hwe] at hde
    subst hde
    exfalso
    rcases hw with h | h <;> simp [h] at hwe

/-- The draw stage hands out no card exactly when the deck is empty. -/
theorem giveCardDraw_none_iff (s : Room) (pid : String) :
    (s.giveCardDraw pid).1 = none ↔ s.deck = [] := by
  cases hdeck : s.deck with
  | nil =>
    simp [Room.giveCardDraw, pickCard, hdeck]
  | cons c rest =>
    simp [Room.giveCardDraw, pickCard, hdeck, List.get?_cons_zero, List.eraseIdx_cons_zero]

/-- The refilled deck is empty exactly when the old deck was empty and
the pile held at most one card (the top card is never recycled). -/
theorem refill_deck_empty_iff (r : Room) :
    r.refillDeckFromPile.deck = [] ↔ r.deck = [] ∧ r.pile.length ≤ 1 := by
  rw [(refill_deck_pile r).1]
  constructor
  · intro h
    have hperm := shuffleGo_perm
      (((r.deck ++ r.pile.dropLast).map fun c =>
        if c.ctype == CardType.Wildcard || c.ctype == CardType.Plus4 then
          { c with color := CardColor.NoColor }
        else c).length)
      ((r.deck ++ r.pile.dropLast).map fun c =>
        if c.ctype == CardType.Wildcard || c.ctype == CardType.Plus4 then
          { c with color := CardColor.NoColor }
        else c) r.rng
    rw [h] at hperm
    have hlen : ((r.deck ++ r.pile.dropLast).map fun c =>
        if c.ctype == CardType.Wildcard || c.ctype == CardType.Plus4 then
          { c with color := CardColor.NoColor }
        else c).length = 0 := by
      rw [← hperm.length_eq]
      rfl
    rw [List.length_map, List.length_append, List.length_dropLast] at hlen
    constructor
    · rw [← List.length_eq_zero]
      omega
    · omega
  · intro ⟨h1, h2⟩
    have hnil : (r.deck ++ r.pile.dropLast) = [] := by
      rw [h1, List.nil_append, ← List.length_eq_zero, List.length_dropLast]
      omega
    rw [hnil]
    rfl

/-- `giveCard` fails exactly when the deck is empty and the pile holds at
most its top card. -/
theorem giveCard_none_iff (r : Room) (pid : String) :
    (r.giveCard pid).1 = none ↔ r.deck = [] ∧ r.pile.length ≤ 1 := by
  rw [Room.giveCard]
  by_cases hd : (r.deck.length == 0) = true
  · show ((if r.deck.length == 0 then r.refillDeckFromPile else r).giveCardDraw pid).1 = none ↔ _
    rw [if_pos hd, giveCardDraw_none_iff, refill_deck_empty_iff]
  · show ((if r.deck.length == 0 then r.refillDeckFromPile else r).giveCardDraw pid).1 = none ↔ _
    rw [if_neg hd, giveCardDraw_none_iff]
    have : r.deck ≠ [] := by
      intro h
      rw [h] at hd
      exact hd rfl
    constructor
    · intro h; exact absurd h this
    · intro ⟨h1, _⟩; exact absurd h1 this

/-! ## C8 -/

/-- C8 (amended): card conservation of the refill and of `giveCard`, with
the corrected failure condition.  In a room with unique player ids, a
seated drawing player and a non-empty pile: the refill preserves the
deck+pile id-multiset, leaves the pile holding exactly the former top
card, strips colors from every wild card in the deck, and `giveCard`
preserves the room's total card multiset; a single-card draw fails
exactly when the deck is empty **and the pile holds at most its top
card** (not merely when deck and pile together hold fewer cards than
requested — the top pile card is never recycled). -/
theorem c8_conservation (r : Room) (pid : String) (a : Player) (c : Card)
    (hnd : (r.players.map Player.id).Nodup)
    (hfind : findP r.players pid = some a)
    (htop : r.pile.getLast? = some c) :
    (cardIds r.refillDeckFromPile.deck + cardIds r.refillDeckFromPile.pile
        = cardIds r.deck + cardIds r.pile) ∧
    r.refillDeckFromPile.pile = [c] ∧
    (∀ d ∈ r.refillDeckFromPile.deck,
        (d.ctype = CardType.Wildcard ∨ d.ctype = CardType.Plus4) →
          d.color = CardColor.NoColor) ∧
    (r.giveCard pid).2.allCards = r.allCards ∧
    ((r.giveCard pid).1 = none ↔ r.deck = [] ∧ r.pile.length ≤ 1) := by
  refine ⟨refill_conserves r, ?_, refill_strip r, giveCard_allCards r pid a hnd hfind,
    giveCard_none_iff r pid⟩
  rw [(refill_deck_pile r).2.1, htop]

/-- A room with an empty deck and a one-card pile: deck and pile
together hold exactly the one requested card, yet the draw fails. -/
def roomC8x : Room :=
  { players := [{ id := "a" }]
    deck := []
    pile := [mkCard 3 CardColor.Red CardType.NoType] }

/-- C8 counterexample: the draw fails although deck and pile together
hold one card — not fewer than the one card requested — because the top
pile card is never recycled. -/
theorem c8_counterexample :
    (roomC8x.giveCard "a").1 = none ∧
    roomC8x.deck.length + roomC8x.pile.length = 1 := by
  constructor
  · rfl
  · rfl

/-- A concrete started room for the C8 witness. -/
def roomC8w : Room :=
  { players := [{ id := "a", cards := [mkCard 1 CardColor.Red CardType.NoType] },
                { id := "b" }]
    deck := [mkCard 2 CardColor.Green CardType.NoType]
    pile := [{ mkCard 0 CardColor.Blue CardType.Skip with id := 7 },
             { mkCard 9 CardColor.Yellow CardType.NoType with id := 8 }]
    turn := "a"
    started := true }

/-- C8 witness: the amended conservation theorem applied to a concrete
room. -/
theorem c8_witness :
    (cardIds roomC8w.refillDeckFromPile.deck + cardIds roomC8w.refillDeckFromPile.pile
        = cardIds roomC8w.deck + cardIds roomC8w.pile) ∧
    roomC8w.refillDeckFromPile.pile = [{ mkCard 9 CardColor.Yellow CardType.NoType with id := 8 }] ∧
    (∀ d ∈ roomC8w.refillDeckFromPile.deck,
        (d.ctype = CardType.Wildcard ∨ d.ctype = CardType.Plus4) →
          d.color = CardColor.NoColor) ∧
    (roomC8w.giveCard "a").2.allCards = roomC8w.allCards ∧
    ((roomC8w.giveCard "a").1 = none ↔ roomC8w.deck = [] ∧ roomC8w.pile.length ≤ 1) :=
  c8_conservation roomC8w "a"
    { id := "a", cards := [mkCard 1 CardColor.Red CardType.NoType] }
    { mkCard 9 CardColor.Yellow CardType.NoType with id := 8 }
    (by decide) (by decide) (by decide)

/-! ## C7: getNextPlayer -/

/-- With unique ids, the seat scan finds exactly the seat of the given
element. -/
theorem findIdx_map_nodup (l : List Player) (i : Nat)
    (hnd : (l.map Player.id).Nodup) (hi : i < l.length) :
    l.findIdx (fun p => p.id == (l.get ⟨i, hi⟩).id) = i := by
  induction l generalizing i with
  | nil => exact absurd hi (by simp)
  | cons b t ih =>
    rw [List.map_cons, List.nodup_cons] at hnd
    cases i with
    | zero =>
      rw [List.findIdx_cons]
      simp
    | succ j =>
      have hj : j < t.length := by
        simpa using hi
      have hne : (b.id == (t.get ⟨j, hj⟩).id) = false := by
        have hmem : (t.get ⟨j, hj⟩).id ∈ t.map Player.id :=
          List.mem_map_of_mem Player.id (t.get_mem j hj)
        have hneq : b.id ≠ (t.get ⟨j, hj⟩).id := fun he => hnd.1 (he ▸ hmem)
        simp only [beq_eq_false_iff_ne, ne_eq]
        exact hneq
      rw [show ((b :: t).get ⟨j + 1, hi⟩) = t.get ⟨j, hj⟩ from rfl, List.findIdx_cons, hne]
      simp only [cond_false]
      rw [ih j hnd.2 hj]

/-- The seat scan of `getNextPlayer` as a `findIdx?` result. -/
theorem findIdx?_turn (r : Room) (i : Nat)
    (hnd : (r.players.map Player.id).Nodup) (hi : i < r.players.length)
    (hturn : (r.players.get ⟨i, hi⟩).id = r.turn) :
    r.players.findIdx? (fun p => p.id == r.turn) = some i := by
  rw [List.findIdx?_eq_some_iff_findIdx_eq]
  refine ⟨hi, ?_⟩
  rw [← hturn]
  exact findIdx_map_nodup r.players i hnd hi

/-- Advancing the turn pointer by one seat (the only way the source uses
`getNextPlayer`: `this.turn = this.getNextPlayer()`). -/
def Room.advanceTurn (r : Room) : Room :=
  match r.getNextPlayer 0 with
  | some np => { r with turn := np.id }
  | none => r

/-- `getNextPlayer()` with offset 0 steps exactly one seat — forward when
the direction is not reversed, backward when it is — wrapping modulo the
seat count. -/
theorem getNextPlayer_formula (r : Room) (i : Nat)
    (hnd : (r.players.map Player.id).Nodup) (hi : i < r.players.length)
    (hturn : (r.players.get ⟨i, hi⟩).id = r.turn) :
    r.getNextPlayer 0 = r.players.get? (if r.directionReversed
        then (i + r.players.length - 1) % r.players.length
        else (i + 1) % r.players.length) := by
  have hn : 0 < r.players.length := Nat.lt_of_le_of_lt (Nat.zero_le i) hi
  simp only [Room.getNextPlayer, findIdx?_turn r i hnd hi hturn]
  by_cases hrev : r.directionReversed
  · simp only [hrev, if_true]
    by_cases hz : i = 0
    · subst hz
      rw [if_pos (by omega : ((0 : Nat) : Int) - (1 + ((0 : Nat) : Int)) < 0)]
      rw [if_neg (by omega : ¬ ((r.players.length : Int) + (((0 : Nat) : Int) - (1 + ((0 : Nat) : Int))) < 0))]
      congr 1
      have h1 : (0 + r.players.length - 1) % r.players.length = 0 + r.players.length - 1 :=
        Nat.mod_eq_of_lt (by omega)
      rw [h1]
      omega
    · rw [if_neg (by omega : ¬ (((i : Nat) : Int) - (1 + ((0 : Nat) : Int)) < 0))]
      rw [if_neg (by omega : ¬ (((i : Nat) : Int) - (1 + ((0 : Nat) : Int)) < 0))]
      congr 1
      have h1 : (i + r.players.length - 1) % r.players.length = i - 1 := by
        have : i + r.players.length - 1 = (i - 1) + r.players.length := by omega
        rw [this, Nat.add_mod_right]
        exact Nat.mod_eq_of_lt (by omega)
      rw [h1]
      omega
  · simp only [hrev, Bool.false_eq_true, if_false]
    by_cases hlast : i + 1 = r.players.length
    · rw [if_pos (by omega : ((i : Nat) : Int) + (1 + ((0 : Nat) : Int)) > (r.players.length : Int) - 1)]
      rw [if_neg (by omega : ¬ (((i : Nat) : Int) + (1 + ((0 : Nat) : Int)) - (r.players.length : Int) < 0))]
      congr 1
      rw [hlast, Nat.mod_self]
      omega
    · rw [if_neg (by omega : ¬ (((i : Nat) : Int) + (1 + ((0 : Nat) : Int)) > (r.players.length : Int) - 1))]
      rw [if_neg (by omega : ¬ (((i : Nat) : Int) + (1 + ((0 : Nat) : Int)) < 0))]
      congr 1
      rw [Nat.mod_eq_of_lt (by omega : i + 1 < r.players.length)]
      omega

/-- One turn advance, as a record update: the turn moves to the seat
given by the one-step formula. -/
theorem advanceTurn_spec (r : Room) (i : Nat)
    (hnd : (r.players.map Player.id).Nodup) (hi : i < r.players.length)
    (hturn : (r.players.get ⟨i, hi⟩).id = r.turn) :
    ∃ (p : Player),
      r.players.get? (if r.directionReversed
          then (i + r.players.length - 1) % r.players.length
          else (i + 1) % r.players.length) = some p ∧
      r.advanceTurn = { r with turn := p.id } := by
  have hn : 0 < r.players.length := Nat.lt_of_le_of_lt (Nat.zero_le i) hi
  have hlt : (if r.directionReversed
      then (i + r.players.length - 1) % r.players.length
      else (i + 1) % r.players.length) < r.players.length := by
    split <;> exact Nat.mod_lt _ hn
  obtain ⟨p, hp⟩ : ∃ p, r.players.get? (if r.directionReversed
      then (i + r.players.length - 1) % r.players.length
      else (i + 1) % r.players.length) = some p := by
    rw [List.get?_eq_getElem?]
    exact ⟨_, List.getElem?_eq_some_iff.mpr ⟨hlt, rfl⟩⟩
  refine ⟨p, hp, ?_⟩
  rw [Room.advanceTurn, getNextPlayer_formula r i hnd hi hturn, hp]

/-- Iterating the one-seat advance `k` times lands `k` seats away (in the
current direction), modulo the seat count. -/
theorem advance_iter (r : Room) (i : Nat)
    (hnd : (r.players.map Player.id).Nodup) (hi : i < r.players.length)
    (hturn : (r.players.get ⟨i, hi⟩).id = r.turn) (k : Nat) :
    ((Room.advanceTurn)^[k] r).players = r.players ∧
    ((Room.advanceTurn)^[k] r).directionReversed = r.directionReversed ∧
    ∃ (p : Player),
      r.players.get? ((i + k * (if r.directionReversed then r.players.length - 1 else 1))
          % r.players.length) = some p ∧
      ((Room.advanceTurn)^[k] r).turn = p.id := by
  have hn : 0 < r.players.length := Nat.lt_of_le_of_lt (Nat.zero_le i) hi
  induction k with
  | zero =>
    refine ⟨rfl, rfl, r.players.get ⟨i, hi⟩, ?_, ?_⟩
    · have h0 : (i + 0 * (if r.directionReversed then r.players.length - 1 else 1))
          % r.players.length = i := by
        rw [Nat.zero_mul, Nat.add_zero]
        exact Nat.mod_eq_of_lt hi
      rw [h0, List.get?_eq_getElem?]
      exact List.getElem?_eq_some_iff.mpr ⟨hi, rfl⟩
    · exact hturn.symm
  | succ k ih =>
    obtain ⟨hps, hrev, p, hp, ht⟩ := ih
    set s := (Room.advanceTurn)^[k] r with hs
    set j := (i + k * (if r.directionReversed then r.players.length - 1 else 1))
      % r.players.length with hj
    have hjlt : j < r.players.length := Nat.mod_lt _ hn
    have hjlt' : j < s.players.length := by rw [hps]; exact hjlt
    have hsget : (s.players.get ⟨j, hjlt'⟩).id = s.turn := by
      have : s.players.get ⟨j, hjlt'⟩ = p := by
        have h1 : s.players.get? j = some p := by rw [hps]; exact hp
        rw [List.get?_eq_getElem?] at h1
        have := List.getElem?_eq_some_iff.mp h1
        rw [← this.2]
        rfl
      rw [this, ht]
    have hsnd : (s.players.map Player.id).Nodup := by rw [hps]; exact hnd
    obtain ⟨q, hq, hadv⟩ := advanceTurn_spec s j hsnd hjlt' hsget
    rw [Function.iterate_succ_apply', ← hs, hadv]
    refine ⟨hps, hrev, q, ?_, rfl⟩
    rw [hps, hrev] at hq
    rw [← hq]
    congr 1
    by_cases hr : r.directionReversed
    · simp only [hr, if_true]
      have hsub : j + r.players.length - 1 = j + (r.players.length - 1) := by omega
      rw [hsub, hj, Nat.mod_add_mod]
      congr 1
      simp only [hr, if_true]
      ring
    · simp only [hr, Bool.false_eq_true, if_false]
      rw [hj, Nat.mod_add_mod]
      congr 1
      simp only [hr, Bool.false_eq_true, if_false]
      ring

/-- C7: with the turn player seated at index `i` of the seating list (ids
unique), `getNextPlayer()` with offset 0 advances exactly one seat —
index increasing when the direction is not reversed, decreasing when it
is — wrapping modulo the seat count; and the corresponding one-seat turn
advance composed with itself `players.length` times returns the original
turn player. -/
theorem c7_getNextPlayer_cycle (r : Room) (i : Nat)
    (hnd : (r.players.map Player.id).Nodup) (hi : i < r.players.length)
    (hturn : (r.players.get ⟨i, hi⟩).id = r.turn) :
    (r.getNextPlayer 0 = r.players.get? (if r.directionReversed
        then (i + r.players.length - 1) % r.players.length
        else (i + 1) % r.players.length)) ∧
    ((Room.advanceTurn)^[r.players.length] r).turn = r.turn := by
  refine ⟨getNextPlayer_formula r i hnd hi hturn, ?_⟩
  obtain ⟨_, _, p, hp, ht⟩ := advance_iter r i hnd hi hturn r.players.length
  have hidx : (i + r.players.length * (if r.directionReversed = true
      then r.players.length - 1 else 1)) % r.players.length = i := by
    rw [Nat.add_mul_mod_self_left]
    exact Nat.mod_eq_of_lt hi
  rw [hidx] at hp
  rw [ht, ← hturn]
  rw [List.get?_eq_getElem?] at hp
  have h2 := List.getElem?_eq_some_iff.mp hp
  rw [← h2.2]
  rfl

/-- A concrete 3-player room, turn on seat 1, direction not reversed. -/
def roomC7 : Room :=
  { players := [{ id := "a" }, { id := "b" }, { id := "c" }], turn := "b" }

/-- C7 witness: the formula and the 3-step cycle on a concrete room. -/
theorem c7_witness :
    (roomC7.getNextPlayer 0 = roomC7.players.get? (if roomC7.directionReversed
        then (1 + roomC7.players.length - 1) % roomC7.players.length
        else (1 + 1) % roomC7.players.length)) ∧
    ((Room.advanceTurn)^[roomC7.players.length] roomC7).turn = roomC7.turn :=
  c7_getNextPlayer_cycle roomC7 1 (by decide) (by decide) (by decide)

/-! ## C9: the per-player projection leaks no opponent hand -/

/-- Everything about a player except the identity of their hand cards:
all scalar fields plus the hand count. -/
structure PlayerPublic where
  id : String
  username : String
  bot : Bool
  canDraw : Bool
  canPlay : Bool
  drawing : Bool
  hasCalledUno : Bool
  mustStack : Bool
  lastDrawnCard : Nat
  roomId : String
  inRoom : Bool
  handCount : Nat
deriving DecidableEq, Repr

/-- The observation of a player that forgets which cards they hold. -/
def Player.obs (p : Player) : PlayerPublic :=
  { id := p.id
    username := p.username
    bot := p.bot
    canDraw := p.canDraw
    canPlay := p.canPlay
    drawing := p.drawing
    hasCalledUno := p.hasCalledUno
    mustStack := p.mustStack
    lastDrawnCard := p.lastDrawnCard
    roomId := p.roomId
    inRoom := p.inRoom
    handCount := p.cards.length }

theorem obs_map_ids {l1 l2 : List Player}
    (h : l1.map Player.obs = l2.map Player.obs) :
    l1.map Player.id = l2.map Player.id := by
  have h1 : l1.map Player.id = (l1.map Player.obs).map PlayerPublic.id := by
    rw [List.map_map]; rfl
  have h2 : l2.map Player.id = (l2.map Player.obs).map PlayerPublic.id := by
    rw [List.map_map]; rfl
  rw [h1, h2, h]

theorem find?_congr_obs {l1 l2 : List Player} (x : String)
    (h : l1.map Player.obs = l2.map Player.obs) :
    (findP l1 x).map Player.obs = (findP l2 x).map Player.obs := by
  induction l1 generalizing l2 with
  | nil =>
    cases l2 with
    | nil => rfl
    | cons b t => exact absurd h (by simp)
  | cons a t1 ih =>
    cases l2 with
    | nil => exact absurd h (by simp)
    | cons b t2 =>
      rw [List.map_cons, List.map_cons] at h
      have hab : a.obs = b.obs := by injection h
      have ht : t1.map Player.obs = t2.map Player.obs := by injection h
      have hid : a.id = b.id := by
        have := congrArg PlayerPublic.id hab
        exact this
      rw [findP, findP, List.find?_cons, List.find?_cons, hid]
      by_cases hx : (b.id == x) = true
      · rw [hx]
        simpa using hab
      · simp only [Bool.not_eq_true] at hx
        rw [hx]
        exact ih ht

theorem findIdx?_congr_ids {l1 l2 : List Player} (x : String)
    (hids : l1.map Player.id = l2.map Player.id) :
    ∀ st, List.findIdx? (fun p => p.id == x) l1 st = List.findIdx? (fun p => p.id == x) l2 st := by
  induction l1 generalizing l2 with
  | nil =>
    cases l2 with
    | nil => intro st; rfl
    | cons b t => exact absurd hids (by simp)
  | cons a t1 ih =>
    cases l2 with
    | nil => exact absurd hids (by simp)
    | cons b t2 =>
      rw [List.map_cons, List.map_cons] at hids
      have hid : a.id = b.id := by injection hids
      have htids : t1.map Player.id = t2.map Player.id := by injection hids
      intro st
      rw [List.findIdx?_cons, List.findIdx?_cons, hid, ih htids]

theorem findIdx?_congr_obs {l1 l2 : List Player} (x : String)
    (h : l1.map Player.obs = l2.map Player.obs) :
    l1.findIdx? (fun p => p.id == x) = l2.findIdx? (fun p => p.id == x) :=
  findIdx?_congr_ids x (obs_map_ids h) 0

theorem get?_congr_obs {l1 l2 : List Player} (n : Nat)
    (h : l1.map Player.obs = l2.map Player.obs) :
    (l1.get? n).map Player.obs = (l2.get? n).map Player.obs := by
  rw [List.get?_eq_getElem?, List.get?_eq_getElem?, ← List.getElem?_map, ← List.getElem?_map, h]

/-- The opponent payload depends only on the observation and the turn. -/
theorem opponentView_congr {r1 r2 : Room} {q1 q2 : Player}
    (hobs : q1.obs = q2.obs) (hturn : r1.turn = r2.turn) :
    opponentView r1 q1 = opponentView r2 q2 := by
  have h1 : q1.username = q2.username := congrArg PlayerPublic.username hobs
  have h2 : q1.cards.length = q2.cards.length := congrArg PlayerPublic.handCount hobs
  have h3 : q1.id = q2.id := congrArg PlayerPublic.id hobs
  have h4 : q1.bot = q2.bot := congrArg PlayerPublic.bot hobs
  have h5 : q1.hasCalledUno = q2.hasCalledUno := congrArg PlayerPublic.hasCalledUno hobs
  have h6 : q1.canPlay = q2.canPlay := congrArg PlayerPublic.canPlay hobs
  rw [opponentView, opponentView, h1, h2, h3, h4, h5, h6, hturn]

theorem getPlayerPosFromOffset_congr_obs {r1 r2 : Room} (vid : String) (k : Nat)
    (hobs : r1.players.map Player.obs = r2.players.map Player.obs) :
    (r1.getPlayerPosFromOffset vid k).map Player.obs
      = (r2.getPlayerPosFromOffset vid k).map Player.obs := by
  rw [Room.getPlayerPosFromOffset, Room.getPlayerPosFromOffset,
    findIdx?_congr_obs vid hobs,
    show r1.players.length = r2.players.length from by
      have := congrArg List.length hobs
      simpa using this]
  split <;> split <;> first | rfl | exact get?_congr_obs _ hobs

theorem opponents_congr {r1 r2 : Room} (vid : String) (k : Nat)
    (hobs : r1.players.map Player.obs = r2.players.map Player.obs)
    (hturn : r1.turn = r2.turn) :
    (r1.getPlayerPosFromOffset vid k).map (opponentView r1)
      = (r2.getPlayerPosFromOffset vid k).map (opponentView r2) := by
  have h := getPlayerPosFromOffset_congr_obs vid k hobs
  cases h1 : r1.getPlayerPosFromOffset vid k with
  | none =>
    cases h2 : r2.getPlayerPosFromOffset vid k with
    | none => rfl
    | some q => rw [h1, h2] at h; exact absurd h (by simp)
  | some q1 =>
    cases h2 : r2.getPlayerPosFromOffset vid k with
    | none => rw [h1, h2] at h; exact absurd h (by simp)
    | some q2 =>
      rw [h1, h2] at h
      simp only [Option.map_some', Option.some.injEq] at h
      simp only [Option.map_some']
      rw [opponentView_congr h hturn]

theorem winnerView_congr {r1 r2 : Room} (wid : String)
    (hobs : r1.players.map Player.obs = r2.players.map Player.obs) :
    (findP r1.players wid).map (fun w => (w.username, w.id))
      = (findP r2.players wid).map (fun w => (w.username, w.id)) := by
  have h := find?_congr_obs wid hobs
  cases h1 : findP r1.players wid with
  | none =>
    cases h2 : findP r2.players wid with
    | none => rfl
    | some q => rw [h1, h2] at h; exact absurd h (by simp)
  | some q1 =>
    cases h2 : findP r2.players wid with
    | none => rw [h1, h2] at h; exact absurd h (by simp)
    | some q2 =>
      rw [h1, h2] at h
      simp only [Option.map_some', Option.some.injEq] at h
      simp only [Option.map_some']
      rw [show q1.username = q2.username from congrArg PlayerPublic.username h,
        show q1.id = q2.id from congrArg PlayerPublic.id h]

/-- C9: the projection `broadcastState` computes for a viewer exposes
opponents only through `OpponentView` (username, hand count, id, bot
flag, uno-call status, skip flag) — so two rooms that are equal except in
which cards some other players hold (same counts, same flags, same
viewer hand) produce identical views for that (non-bot) viewer. -/
theorem c9_stateFor_no_hand_leak (r1 r2 : Room) (vid : String)
    (_hbot : ((findP r1.players vid).map fun p => p.bot) = some false)
    (hid : r1.id = r2.id) (hhost : r1.host = r2.host) (hturn : r1.turn = r2.turn)
    (hpile : r1.pile = r2.pile) (hstarted : r1.started = r2.started)
    (hdir : r1.directionReversed = r2.directionReversed)
    (hstack : r1.stack = r2.stack) (hsettings : r1.settings = r2.settings)
    (hwild : r1.wildcard = r2.wildcard) (hwinner : r1.winner = r2.winner)
    (hobs : r1.players.map Player.obs = r2.players.map Player.obs)
    (hviewer : findP r1.players vid = findP r2.players vid) :
    r1.stateFor vid = r2.stateFor vid := by
  have hlen : r1.players.length = r2.players.length := by
    simpa using congrArg List.length hobs
  rw [Room.stateFor, Room.stateFor, ← hviewer]
  cases hv : findP r1.players vid with
  | none => rfl
  | some player =>
    dsimp only
    rw [Option.some.injEq, StateView.mk.injEq]
    refine ⟨hid, by rw [hhost], hhost, hturn, hpile, hstarted, hdir, hstack, hlen,
      by rw [hsettings], hwild, by rw [hturn], ?_, ?_, ?_, ?_⟩
    · rw [hlen]
      split
      · exact opponents_congr vid 1 hobs hturn
      · rfl
    · rw [hlen]
      split
      · exact opponents_congr vid 2 hobs hturn
      · rfl
    · rw [hlen]
      split
      · exact opponents_congr vid 3 hobs hturn
      · rfl
    · rw [hwinner]
      cases r2.winner with
      | none => rfl
      | some wid =>
        show (findP r1.players wid).map (fun w => (w.username, w.id))
          = (findP r2.players wid).map (fun w => (w.username, w.id))
        exact winnerView_congr wid hobs

/-- Two rooms identical except for the identity of opponent `b`'s single
hand card (same count): the viewer is `a`. -/
def roomC9a : Room :=
  { players := [{ id := "a", cards := [mkCard 1 CardColor.Red CardType.NoType] },
                { id := "b", cards := [{ mkCard 4 CardColor.Blue CardType.NoType with id := 10 }] }]
    pile := [mkCard 2 CardColor.Green CardType.NoType]
    turn := "a"
    host := "a"
    started := true }

/-- Like `roomC9a` but `b` holds a different card. -/
def roomC9b : Room :=
  { players := [{ id := "a", cards := [mkCard 1 CardColor.Red CardType.NoType] },
                { id := "b", cards := [{ mkCard 7 CardColor.Yellow CardType.Skip with id := 11 }] }]
    pile := [mkCard 2 CardColor.Green CardType.NoType]
    turn := "a"
    host := "a"
    started := true }

/-- C9 witness: the two concrete rooms produce identical views for
viewer `a`. -/
theorem c9_witness : roomC9a.stateFor "a" = roomC9b.stateFor "a" :=
  c9_stateFor_no_hand_leak roomC9a roomC9b "a" (by decide) rfl rfl rfl rfl rfl rfl
    rfl rfl rfl rfl (by decide) (by decide)

/-! ## Symbolic execution helpers for playCard / nextTurn -/

/-- `updP` is a map over the seating list. -/
theorem updP_as_map (ps : List Player) (x : String) (f : Player → Player) :
    updP ps x f = ps.map (fun q => if q.id == x then f q else q) := rfl

/-- `findP` commutes with id-preserving transformations of the seating
list. -/
theorem findP_map_idpres (ps : List Player) (g : Player → Player)
    (hg : ∀ p, (g p).id = p.id) (y : String) :
    findP (ps.map g) y = (findP ps y).map g := by
  induction ps with
  | nil => rfl
  | cons b t ih =>
    rw [List.map_cons, findP, findP, List.find?_cons, List.find?_cons, hg]
    by_cases hb : (b.id == y) = true
    · rw [hb]
      rfl
    · simp only [Bool.not_eq_true] at hb
      rw [hb]
      exact ih

/-- `getNextPlayer` commutes with id-preserving transformations of the
seating list (taken in any room with the same turn and direction). -/
theorem getNextPlayer_map (r s : Room) (g : Player → Player)
    (hg : ∀ q, (g q).id = q.id)
    (hps : s.players = r.players.map g) (ht : s.turn = r.turn)
    (hd : s.directionReversed = r.directionReversed) :
    s.getNextPlayer 0 = (r.getNextPlayer 0).map g := by
  rw [Room.getNextPlayer, Room.getNextPlayer, hps, ht, hd, List.length_map]
  have hfidx : List.findIdx? (fun p => p.id == r.turn) (r.players.map g)
      = List.findIdx? (fun p => p.id == r.turn) r.players := by
    apply findIdx?_congr_ids
    rw [List.map_map]
    exact List.map_congr_left fun a _ => hg a
  rw [hfidx]
  split_ifs <;>
    first
      | rfl
      | rw [List.get?_eq_getElem?, List.get?_eq_getElem?, List.getElem?_map]

/-- A player returned by `getNextPlayer` is seated. -/
theorem getNextPlayer_mem {r : Room} {m : Player} (h : r.getNextPlayer 0 = some m) :
    m ∈ r.players := by
  rw [Room.getNextPlayer] at h
  split at h <;> split at h <;>
    first
      | exact List.get?_mem h
      | exact absurd h (by simp)

/-- With unique ids, `findP` at a member's id finds that member. -/
theorem findP_of_mem_nodup {ps : List Player} {m : Player}
    (hnd : (ps.map Player.id).Nodup) (hm : m ∈ ps) : findP ps m.id = some m := by
  induction ps with
  | nil => exact absurd hm (by simp)
  | cons b t ih =>
    rw [List.map_cons, List.nodup_cons] at hnd
    rw [findP, List.find?_cons]
    rcases List.mem_cons.mp hm with hbm | hmt
    · rw [show (b.id == m.id) = true from by simp [hbm]]
      rw [hbm]
    · have hne : (b.id == m.id) = false := by
        have hmem : m.id ∈ t.map Player.id := List.mem_map_of_mem Player.id hmt
        have hne2 : b.id ≠ m.id := fun he => hnd.1 (he ▸ hmem)
        simp [hne2]
      rw [hne]
      exact ih hnd.2 hmt

/-- Characterization of `nextTurn(false, 0)` when the one-seat advance
lands on a non-bot player other than the current turn player: strip the
outgoing player, move the turn, grant the incoming player a freshly
computed playable set, check for a winner. -/
theorem nextTurnF_normal (rec : Op → Room → Room × Bool) (s : Room) (m : Player)
    (hnd : (s.players.map Player.id).Nodup)
    (hm : s.getNextPlayer 0 = some m) (hmt : (m.id == s.turn) = false)
    (hbot : m.bot = false) :
    nextTurnF rec false 0 s =
      (Room.checkForWinner
        { s with inactivityTimer := 0,
                 players := updP (updP s.players s.turn
                     (fun q => { q.clearPlayableCards with canDraw := false, canPlay := false }))
                   m.id (fun q => ({ q with canDraw := true, canPlay := true }).findPlayableCards s.topCard),
                 turn := m.id }, false) := by
  have hg : ∀ q : Player, ((fun q => if (q.id == s.turn) = true
      then { q.clearPlayableCards with canDraw := false, canPlay := false } else q) q).id = q.id := by
    intro q
    dsimp only
    split <;> rfl
  have hg2 : ∀ q : Player, ((fun q => if (q.id == m.id) = true
      then ({ q with canDraw := true, canPlay := true }).findPlayableCards s.topCard else q) q).id = q.id := by
    intro q
    dsimp only
    split <;> rfl
  have hm1 : Room.getNextPlayer
      { s with inactivityTimer := 0,
               players := updP s.players s.turn
                 (fun q => { q.clearPlayableCards with canDraw := false, canPlay := false }) } 0 = some m := by
    rw [getNextPlayer_map s
      { s with inactivityTimer := 0,
               players := updP s.players s.turn
                 (fun q => { q.clearPlayableCards with canDraw := false, canPlay := false }) }
      (fun q => if (q.id == s.turn) = true
        then { q.clearPlayableCards with canDraw := false, canPlay := false } else q)
      hg rfl rfl rfl, hm]
    simp only [Option.map_some', hmt, Bool.false_eq_true, if_false]
  have hfs : findP s.players m.id = some m := findP_of_mem_nodup hnd (getNextPlayer_mem hm)
  have hf1 : findP (updP s.players s.turn
      (fun q => { q.clearPlayableCards with canDraw := false, canPlay := false })) m.id = some m := by
    rw [updP_as_map, findP_map_idpres _ _ hg m.id, hfs]
    simp only [Option.map_some', hmt, Bool.false_eq_true, if_false]
  have hf2 : findP (updP (updP s.players s.turn
        (fun q => { q.clearPlayableCards with canDraw := false, canPlay := false }))
      m.id (fun q => ({ q with canDraw := true, canPlay := true }).findPlayableCards s.topCard)) m.id
      = some (({ m with canDraw := true, canPlay := true }).findPlayableCards s.topCard) := by
    rw [updP_as_map (updP s.players s.turn
        (fun q => { q.clearPlayableCards with canDraw := false, canPlay := false })),
      findP_map_idpres _ _ hg2 m.id, hf1]
    simp
  rw [nextTurnF]
  simp only [bne_self_eq_false, Bool.or_false, Bool.false_eq_true, if_false]
  rw [Room.updTurn]
  dsimp only
  rw [hm1]
  dsimp only
  rw [Room.updTurn]
  dsimp only
  simp only [Room.topCard]
  simp only [Room.topCard] at hf2
  simp only [Room.checkForWinner]
  split
  · rfl
  · rw [hf2]
    dsimp only
    have hb2 : (({ m with canDraw := true, canPlay := true } : Player).findPlayableCards
        ((s.pile.getLast?).getD (mkCard 0 CardColor.NoColor CardType.NoType))).bot = false := hbot
    rw [hb2]
    simp only [Bool.false_eq_true, if_false]

/-! ## C4 -/

/-- C4 (amended): playing a Plus2 from stack 0 when the next player holds
a Plus2 defers the obligation: no draw is delivered to the next player,
the room's stack becomes **2** (`this.stack += 2`, not 4), and the next
player's `mustStack` is set. -/
theorem c4_plus2_deferred (f : Nat) (r : Room) (pid : String) (idx : Nat)
    (p np : Player) (c : Card)
    (hnd : (r.players.map Player.id).Nodup)
    (hp : findP r.players pid = some p)
    (hturn : r.turn = pid)
    (hcanPlay : p.canPlay = true)
    (hc : p.cards.get? idx = some c)
    (hctype : c.ctype = CardType.Plus2)
    (hplayable : c.playable = true)
    (hnp : r.getNextPlayer 0 = some np)
    (hne : np.id ≠ pid)
    (hnp2 : (np.cards.any fun d => d.ctype == CardType.Plus2) = true)
    (hstack : r.stack = 0)
    (hlen : p.cards.length ≠ 2)
    (hbot : np.bot = false) :
    (Room.playCard (f + 2) r pid idx).stack = 2 ∧
    ((findP (Room.playCard (f + 2) r pid idx).players np.id).map
        fun q => (q.mustStack, q.cards.length)) = some (true, np.cards.length) := by
  have hgE : ∀ q : Player, ((fun q => if (q.id == pid) = true
      then { q with cards := q.cards.eraseIdx idx } else q) q).id = q.id := by
    intro q; dsimp only; split <;> rfl
  have hgM : ∀ q : Player, ((fun q => if (q.id == np.id) = true
      then { q with mustStack := true } else q) q).id = q.id := by
    intro q; dsimp only; split <;> rfl
  have hgU : ∀ q : Player, ((fun q => if (q.id == pid) = true
      then { q with hasCalledUno := false } else q) q).id = q.id := by
    intro q; dsimp only; split <;> rfl
  have hpid : p.id = pid := (findP_mem_id hp).2
  have hnppid : (np.id == pid) = false := by simp [hne]
  -- the seat scan is unaffected by the hand removal
  have hA : Room.getNextPlayer
      { r with wildcard := none,
               players := updP r.players pid (fun q => { q with cards := q.cards.eraseIdx idx }),
               pile := r.pile ++ [c] } 0 = some np := by
    rw [getNextPlayer_map r
      { r with wildcard := none,
               players := updP r.players pid (fun q => { q with cards := q.cards.eraseIdx idx }),
               pile := r.pile ++ [c] }
      (fun q => if (q.id == pid) = true then { q with cards := q.cards.eraseIdx idx } else q)
      hgE rfl rfl rfl, hnp]
    simp only [Option.map_some', hnppid, Bool.false_eq_true, if_false]
  -- findP computations over the three update layers
  have hfsnp : findP r.players np.id = some np := findP_of_mem_nodup hnd (getNextPlayer_mem hnp)
  have hE_np : findP (updP r.players pid (fun q => { q with cards := q.cards.eraseIdx idx })) np.id
      = some np := by
    rw [updP_as_map, findP_map_idpres _ _ hgE np.id, hfsnp]
    simp only [Option.map_some', hnppid, Bool.false_eq_true, if_false]
  have hE_p : findP (updP r.players pid (fun q => { q with cards := q.cards.eraseIdx idx })) pid
      = some { p with cards := p.cards.eraseIdx idx } := by
    rw [updP_as_map, findP_map_idpres _ _ hgE pid, hp]
    simp only [Option.map_some']
    rw [show (p.id == pid) = true from by simp [hpid]]
    rfl
  have hM_p : findP (updP (updP r.players pid (fun q => { q with cards := q.cards.eraseIdx idx }))
        np.id (fun q => { q with mustStack := true })) pid
      = some { p with cards := p.cards.eraseIdx idx } := by
    rw [updP_as_map (updP r.players pid _), findP_map_idpres _ _ hgM pid, hE_p]
    simp only [Option.map_some']
    rw [show (({ p with cards := p.cards.eraseIdx idx } : Player).id == np.id) = false from by
      show (p.id == np.id) = false
      rw [hpid]
      simp only [beq_eq_false_iff_ne, ne_eq]
      exact fun h => hne h.symm]
    rfl
  have hM_np : findP (updP (updP r.players pid (fun q => { q with cards := q.cards.eraseIdx idx }))
        np.id (fun q => { q with mustStack := true })) np.id
      = some { np with mustStack := true } := by
    rw [updP_as_map (updP r.players pid _), findP_map_idpres _ _ hgM np.id, hE_np]
    simp only [Option.map_some']
    rw [show (np.id == np.id) = true from by simp]
    rfl
  have hU_np : findP (updP (updP (updP r.players pid (fun q => { q with cards := q.cards.eraseIdx idx }))
        np.id (fun q => { q with mustStack := true })) pid (fun q => { q with hasCalledUno := false })) np.id
      = some { np with mustStack := true } := by
    rw [updP_as_map (updP (updP r.players pid _) np.id _), findP_map_idpres _ _ hgU np.id, hM_np]
    simp only [Option.map_some']
    rw [show (({ np with mustStack := true } : Player).id == pid) = false from by
      show (np.id == pid) = false
      exact hnppid]
    rfl
  have hidx : idx < p.cards.length := by
    rw [List.get?_eq_getElem?] at hc
    exact (List.getElem?_eq_some_iff.mp hc).1
  have hlen1 : ((p.cards.eraseIdx idx).length == 1) = false := by
    rw [List.length_eraseIdx, if_pos hidx]
    simp only [beq_eq_false_iff_ne, ne_eq]
    omega
  have hB : Room.getNextPlayer
      { r with wildcard := none,
               players := updP (updP r.players pid (fun q => { q with cards := q.cards.eraseIdx idx }))
                   np.id (fun q => { q with mustStack := true }),
               pile := r.pile ++ [c],
               stack := r.stack + 2 } 0 = some { np with mustStack := true } := by
    rw [getNextPlayer_map
      { r with wildcard := none,
               players := updP r.players pid (fun q => { q with cards := q.cards.eraseIdx idx }),
               pile := r.pile ++ [c] }
      { r with wildcard := none,
               players := updP (updP r.players pid (fun q => { q with cards := q.cards.eraseIdx idx }))
                   np.id (fun q => { q with mustStack := true }),
               pile := r.pile ++ [c],
               stack := r.stack + 2 }
      (fun q => if (q.id == np.id) = true then { q with mustStack := true } else q)
      hgM rfl rfl rfl, hA]
    simp only [Option.map_some']
    rw [show (np.id == np.id) = true from by simp]
    rfl
  have hm1 : Room.getNextPlayer
      { r with wildcard := none,
               players := updP (updP (updP r.players pid (fun q => { q with cards := q.cards.eraseIdx idx }))
                   np.id (fun q => { q with mustStack := true })) pid (fun q => { q with hasCalledUno := false }),
               pile := r.pile ++ [c],
               stack := r.stack + 2 } 0 = some { np with mustStack := true } := by
    rw [getNextPlayer_map
      { r with wildcard := none,
               players := updP (updP r.players pid (fun q => { q with cards := q.cards.eraseIdx idx }))
                   np.id (fun q => { q with mustStack := true }),
               pile := r.pile ++ [c],
               stack := r.stack + 2 }
      { r with wildcard := none,
               players := updP (updP (updP r.players pid (fun q => { q with cards := q.cards.eraseIdx idx }))
                   np.id (fun q => { q with mustStack := true })) pid (fun q => { q with hasCalledUno := false }),
               pile := r.pile ++ [c],
               stack := r.stack + 2 }
      (fun q => if (q.id == pid) = true then { q with hasCalledUno := false } else q)
      hgU rfl rfl rfl, hB]
    simp only [Option.map_some']
    rw [show (({ np with mustStack := true } : Player).id == pid) = false from by
      show (np.id == pid) = false
      exact hnppid]
    rfl
  have hmt1 : (np.id == r.turn) = false := by rw [hturn]; exact hnppid
  have hnd1 : ((updP (updP (updP r.players pid (fun q => { q with cards := q.cards.eraseIdx idx }))
      np.id (fun q => { q with mustStack := true })) pid (fun q => { q with hasCalledUno := false })).map
        Player.id).Nodup := by
    rw [ids_updP (updP (updP r.players pid (fun q => { q with cards := q.cards.eraseIdx idx }))
          np.id (fun q => { q with mustStack := true })) pid (fun q => { q with hasCalledUno := false })
        (fun q => rfl),
      ids_updP (updP r.players pid (fun q => { q with cards := q.cards.eraseIdx idx }))
          np.id (fun q => { q with mustStack := true }) (fun q => rfl),
      ids_updP r.players pid (fun q => { q with cards := q.cards.eraseIdx idx }) (fun q => rfl)]
    exact hnd
  have hkey := nextTurnF_normal (run f)
    { r with wildcard := none,
             players := updP (updP (updP r.players pid (fun q => { q with cards := q.cards.eraseIdx idx }))
                 np.id (fun q => { q with mustStack := true })) pid (fun q => { q with hasCalledUno := false }),
             pile := r.pile ++ [c],
             stack := r.stack + 2 }
    { np with mustStack := true } hnd1 hm1 hmt1 hbot
  have hgC : ∀ q : Player, ((fun q => if (q.id == pid) = true
      then { q.clearPlayableCards with canDraw := false, canPlay := false } else q) q).id = q.id := by
    intro q; dsimp only [Player.clearPlayableCards]; split <;> rfl
  have hgG : ∀ (top : Card) (q : Player), ((fun q => if (q.id == np.id) = true
      then ({ q with canDraw := true, canPlay := true } : Player).findPlayableCards top else q) q).id
      = q.id := by
    intro top q; dsimp only [Player.findPlayableCards]; split <;> rfl
  have hfinal : ∀ top : Card,
      findP (updP (updP (updP (updP (updP r.players pid (fun q => { q with cards := q.cards.eraseIdx idx }))
            np.id (fun q => { q with mustStack := true })) pid (fun q => { q with hasCalledUno := false }))
          pid (fun q => { q.clearPlayableCards with canDraw := false, canPlay := false }))
        np.id (fun q => ({ q with canDraw := true, canPlay := true } : Player).findPlayableCards top))
        np.id
      = some (({ np with mustStack := true, canDraw := true, canPlay := true }
          : Player).findPlayableCards top) := by
    intro top
    rw [updP_as_map, findP_map_idpres _ _ (hgG top) np.id]
    rw [updP_as_map, findP_map_idpres _ _ hgC np.id]
    rw [hU_np]
    simp only [Option.map_some']
    dsimp only
    simp only [hnppid, Bool.false_eq_true, if_false, beq_self_eq_true, if_true]
  have hfull : Room.playCard (f + 2) r pid idx = (nextTurnF (run f) false 0
      { r with wildcard := none,
               players := updP (updP (updP r.players pid (fun q => { q with cards := q.cards.eraseIdx idx }))
                   np.id (fun q => { q with mustStack := true })) pid (fun q => { q with hasCalledUno := false }),
               pile := r.pile ++ [c],
               stack := r.stack + 2 }).1 := by
    show (run (f + 1 + 1) (Op.playCard pid idx) r).1 = _
    rw [run, playCardF, hp]
    have hcond : (!p.canPlay || (p.cards.get? idx).isNone || r.turn != pid ||
        !(((p.cards.get? idx).map fun c => c.playable).getD false)) = false := by
      rw [hc, hcanPlay, hturn]
      simp [hplayable]
    simp only [hcond, Bool.false_eq_true, if_false]
    rw [hc]
    dsimp only
    rw [hA]
    dsimp only
    rw [hctype]
    dsimp only
    simp only [hnp2, if_true]
    rw [hM_p]
    dsimp only
    simp only [hlen1, Bool.false_and, Bool.false_eq_true, if_false]
    rw [hU_np]
    simp only [Option.map_some', Option.getD_some]
    simp only [show ((CardType.Plus2 == CardType.Plus2 || CardType.Plus2 == CardType.Plus4) &&
        !true || CardType.Plus2 == CardType.Skip) = false from rfl, Bool.false_eq_true, if_false]
    rfl
  refine ⟨?_, ?_⟩
  · rw [hfull, hkey]
    show r.stack + 2 = 2
    rw [hstack]
  · rw [hfull, hkey]
    dsimp only [Room.checkForWinner]
    rw [hturn]
    rw [hfinal]
    simp only [Option.map_some', Player.findPlayableCards]
    simp only [List.length_map]

/-- A Plus2 held by the current player, marked playable. -/
def cardC4 : Card :=
  { id := 10, number := 0, color := CardColor.Red, ctype := CardType.Plus2, playable := true }

/-- The turn player: a playable Plus2 plus two more cards (so the uno
penalty branch stays off). -/
def playerC4a : Player :=
  { id := "a", canPlay := true
    cards := [cardC4,
      { id := 11, number := 3, color := CardColor.Red, ctype := CardType.NoType },
      { id := 12, number := 4, color := CardColor.Red, ctype := CardType.NoType }] }

/-- The next player, holding a Plus2 of their own. -/
def playerC4b : Player :=
  { id := "b"
    cards := [{ id := 20, number := 0, color := CardColor.Green, ctype := CardType.Plus2 }] }

/-- A started two-player room, `a` to move, no pending stack. -/
def roomC4 : Room :=
  { started := true, players := [playerC4a, playerC4b], turn := "a"
    pile := [{ id := 30, number := 7, color := CardColor.Red, ctype := CardType.NoType }] }

/-- C4 counterexample: from `stack = 0`, `a` plays a Plus2 while the next
player `b` holds a Plus2 — the source runs `this.stack += 2`, so the
stack becomes 2, not 4 as the claim states. -/
theorem c4_counterexample :
    (Room.playCard 5 roomC4 "a" 0).stack = 2 ∧ (Room.playCard 5 roomC4 "a" 0).stack ≠ 4 := by
  decide

/-- C4 witness: the deferred-stacking theorem applied to the concrete
room, every hypothesis discharged by computation. -/
theorem c4_witness :
    (Room.playCard (3 + 2) roomC4 "a" 0).stack = 2 ∧
    ((findP (Room.playCard (3 + 2) roomC4 "a" 0).players playerC4b.id).map
        fun q => (q.mustStack, q.cards.length)) = some (true, playerC4b.cards.length) :=
  c4_plus2_deferred 3 roomC4 "a" 0 playerC4a playerC4b cardC4
    (by decide) (by decide) rfl rfl rfl rfl rfl rfl (by decide) (by decide) rfl (by decide) rfl

/-! ## C5 -/

/-- Inserting a card grows the hand by one. -/
theorem length_insertCard (c : Card) (l : List Card) :
    (insertCard c l).length = l.length + 1 := by
  induction l with
  | nil => rfl
  | cons d ds ih =>
    rw [insertCard]
    split
    · simp only [List.length_cons, ih]
    · simp only [List.length_cons]

/-- The hand sort keeps the hand size. -/
theorem length_insertionSort (l : List Card) :
    (insertionSort l).length = l.length := by
  induction l with
  | nil => rfl
  | cons d ds ih =>
    rw [insertionSort, length_insertCard, ih, List.length_cons]

/-- Shape of the seating-list transformation performed while delivering
`k` cards to player `pid`: identity away from the receiver; ids,
`mustStack` and bot flags preserved everywhere; the receiver's hand grows
by exactly `k` cards. -/
def drawMapOK (pid : String) (k : Nat) (g : Player → Player) : Prop :=
  (∀ q, (g q).id = q.id) ∧
  (∀ q, (g q).mustStack = q.mustStack) ∧
  (∀ q, (g q).bot = q.bot) ∧
  (∀ q, (g q).cards.length = q.cards.length + (if (q.id == pid) = true then k else 0)) ∧
  (∀ q, (q.id == pid) = false → g q = q)

theorem drawMapOK_comp {pid : String} {k1 k2 : Nat} {g1 g2 : Player → Player}
    (h1 : drawMapOK pid k1 g1) (h2 : drawMapOK pid k2 g2) :
    drawMapOK pid (k1 + k2) (fun q => g2 (g1 q)) := by
  obtain ⟨i1, m1, b1, l1, o1⟩ := h1
  obtain ⟨i2, m2, b2, l2, o2⟩ := h2
  refine ⟨fun q => (i2 _).trans (i1 q), fun q => (m2 _).trans (m1 q),
    fun q => (b2 _).trans (b1 q), fun q => ?_, fun q hq => ?_⟩
  · have h := l2 (g1 q)
    rw [i1 q] at h
    rw [h, l1 q]
    by_cases hcq : (q.id == pid) = true
    · simp only [hcq, if_true]
      omega
    · simp only [Bool.not_eq_true] at hcq
      simp only [hcq, Bool.false_eq_true, if_false]
  · show g2 (g1 q) = q
    rw [o1 q hq, o2 q hq]

theorem drawMapOK_id (pid : String) : drawMapOK pid 0 (fun q => q) := by
  refine ⟨fun q => rfl, fun q => rfl, fun q => rfl, fun q => ?_, fun q hq => rfl⟩
  simp

/-- A single in-place update of the receiving player is a delivery map
when the update preserves id, `mustStack` and bot and grows the hand by
`k`. -/
theorem drawMapOK_updP (pid : String) (k : Nat) (f : Player → Player)
    (hid : ∀ q, (f q).id = q.id) (hms : ∀ q, (f q).mustStack = q.mustStack)
    (hbot : ∀ q, (f q).bot = q.bot) (hlen : ∀ q, (f q).cards.length = q.cards.length + k) :
    drawMapOK pid k (fun q => if (q.id == pid) = true then f q else q) := by
  refine ⟨fun q => ?_, fun q => ?_, fun q => ?_, fun q => ?_, fun q hq => ?_⟩
  · dsimp only
    split
    · exact hid q
    · rfl
  · dsimp only
    split
    · exact hms q
    · rfl
  · dsimp only
    split
    · exact hbot q
    · rfl
  · dsimp only
    by_cases hcq : (q.id == pid) = true
    · simp only [hcq, if_true]
      exact hlen q
    · simp only [Bool.not_eq_true] at hcq
      simp only [hcq, Bool.false_eq_true, if_false]
      omega
  · simp only [hq, Bool.false_eq_true, if_false]

/-- The draw loop of `drawCards` with a positive requested amount: the
remaining `k` iterations move the first `k` deck cards into the receiving
player's hand (sorting and re-flagging the hand along the way), touching
nothing else in the room. -/
theorem drawLoop_maps (k : Nat) :
    ∀ (fuel : Nat) (s : Room) (pid : String) (i : Nat) (dids : List Nat) (amount : Nat),
      i + k = amount → k + 1 ≤ fuel → s.isRoomEmpty = false → k ≤ s.deck.length →
      ∃ g : Player → Player, drawMapOK pid k g ∧
        run fuel (.drawLoop pid (amount : Int) i dids) s
          = ({ s with players := s.players.map g, deck := s.deck.drop k }, false) := by
  induction k with
  | zero =>
    intro fuel s pid i dids amount hamount hfuel hempty hdeck
    obtain ⟨n, rfl⟩ : ∃ n, fuel = n + 1 := ⟨fuel - 1, by omega⟩
    refine ⟨fun q => q, drawMapOK_id pid, ?_⟩
    rw [run, drawLoopF]
    have hc1 : (((amount : Nat) : Int) == -1) = false := by
      simp only [beq_eq_false_iff_ne, ne_eq]
      omega
    have hc2 : (((amount : Nat) : Int) != ((i : Nat) : Int)) = false := by
      simp only [bne_eq_false_iff_eq]
      omega
    simp only [hc1, hc2, Bool.false_and, Bool.and_false, Bool.false_or, Bool.not_false,
      List.map_id', List.drop_zero, if_true]
  | succ k ih =>
    intro fuel s pid i dids amount hamount hfuel hempty hdeck
    obtain ⟨n, rfl⟩ : ∃ n, fuel = n + 1 := ⟨fuel - 1, by omega⟩
    cases hdk : s.deck with
    | nil =>
      rw [hdk] at hdeck
      simp at hdeck
    | cons c rest =>
      rw [run, drawLoopF]
      have hc1 : (((amount : Nat) : Int) == -1) = false := by
        simp only [beq_eq_false_iff_ne, ne_eq]
        omega
      have hc1' : (((amount : Nat) : Int) != -1) = true := by
        simp only [bne_iff_ne, ne_eq]
        omega
      have hc2 : (((amount : Nat) : Int) != ((i : Nat) : Int)) = true := by
        simp only [bne_iff_ne, ne_eq]
        omega
      have hdz : (((c :: rest : List Card)).length == 0) = false := by simp
      simp only [hc1, hc1', hc2, hempty, Bool.false_and, Bool.true_and, Bool.and_true,
        Bool.not_false, Bool.false_or, Bool.not_true, Bool.false_eq_true, if_false]
      simp only [Room.giveCard, Room.giveCardDraw, pickCard, hdk, hdz, Bool.false_eq_true,
        if_false, List.get?_cons_zero, List.eraseIdx_cons_zero, List.drop_succ_cons]
      have hL1 : drawMapOK pid 1
          (fun q => if (q.id == pid) = true then { q with cards := q.cards ++ [c] } else q) :=
        drawMapOK_updP pid 1 (fun q => { q with cards := q.cards ++ [c] })
          (fun q => rfl) (fun q => rfl) (fun q => rfl) (fun q => by simp)
      have hL3 : drawMapOK pid 0
          (fun q => if (q.id == pid) = true then Player.sortCards q else q) :=
        drawMapOK_updP pid 0 Player.sortCards
          (fun q => rfl) (fun q => rfl) (fun q => rfl)
          (fun q => by simp [Player.sortCards, length_insertionSort])
      have hL4 : drawMapOK pid 0
          (fun q => if (q.id == pid) = true
            then { q with lastDrawnCard := q.cards.findIdx fun d => d.id == c.id } else q) :=
        drawMapOK_updP pid 0
          (fun q => { q with lastDrawnCard := q.cards.findIdx fun d => d.id == c.id })
          (fun q => rfl) (fun q => rfl) (fun q => rfl) (fun q => by simp)
      by_cases hts : (s.turn == pid && s.started) = true
      · simp only [hts, if_true]
        obtain ⟨g', hok', hrun'⟩ := ih n
          { s with deck := rest,
                   players := updP (updP (updP (updP s.players pid
                         (fun p => { p with cards := p.cards ++ [c] }))
                       pid (fun p => p.findPlayableCards (Room.topCard { s with
                           players := updP s.players pid (fun p => { p with cards := p.cards ++ [c] }),
                           deck := rest })))
                     pid Player.sortCards)
                     pid (fun q => { q with lastDrawnCard := q.cards.findIdx fun d => d.id == c.id }) }
          pid (i + 1) (dids ++ [c.id]) amount (by omega) (by omega) hempty
          (by rw [hdk, List.length_cons] at hdeck
              show k ≤ rest.length
              omega)
        rw [hrun']
        have hL2 : drawMapOK pid 0
            (fun q => if (q.id == pid) = true
              then q.findPlayableCards (Room.topCard { s with
                  players := List.map (fun q => if (q.id == pid) = true
                    then { q with cards := q.cards ++ [c] } else q) s.players,
                  deck := rest }) else q) :=
          drawMapOK_updP pid 0
            (fun q => q.findPlayableCards (Room.topCard { s with
                players := List.map (fun q => if (q.id == pid) = true
                  then { q with cards := q.cards ++ [c] } else q) s.players,
                deck := rest }))
            (fun q => rfl) (fun q => rfl) (fun q => rfl)
            (fun q => by simp [Player.findPlayableCards])
        have hokG := drawMapOK_comp (drawMapOK_comp (drawMapOK_comp (drawMapOK_comp hL1 hL2) hL3) hL4) hok'
        rw [show 1 + 0 + 0 + 0 + k = k + 1 from by omega] at hokG
        refine ⟨_, hokG, ?_⟩
        dsimp only
        rw [updP_as_map, updP_as_map, updP_as_map, updP_as_map,
          List.map_map, List.map_map, List.map_map, List.map_map]
        simp only [Function.comp_def]
        rw [hempty]
      · simp only [Bool.not_eq_true] at hts
        simp only [hts, Bool.false_eq_true, if_false]
        obtain ⟨g', hok', hrun'⟩ := ih n
          { s with deck := rest,
                   players := updP (updP (updP s.players pid
                         (fun p => { p with cards := p.cards ++ [c] }))
                     pid Player.sortCards)
                     pid (fun q => { q with lastDrawnCard := q.cards.findIdx fun d => d.id == c.id }) }
          pid (i + 1) (dids ++ [c.id]) amount (by omega) (by omega) hempty
          (by rw [hdk, List.length_cons] at hdeck
              show k ≤ rest.length
              omega)
        rw [hrun']
        have hokG := drawMapOK_comp (drawMapOK_comp (drawMapOK_comp hL1 hL3) hL4) hok'
        rw [show 1 + 0 + 0 + k = k + 1 from by omega] at hokG
        refine ⟨_, hokG, ?_⟩
        dsimp only
        rw [updP_as_map, updP_as_map, updP_as_map,
          List.map_map, List.map_map, List.map_map]
        simp only [Function.comp_def]
        rw [hempty]

/-- `Room.drawCards(player, amount)` with a positive concrete amount and
a deck that is large enough: the first `k` deck cards move into the
player's hand, the drawing flag round-trips, nothing else changes. -/
theorem drawCards_deliver (k : Nat) (fuel : Nat) (s : Room) (pid : String) (v : Player)
    (hfuel : k + 2 ≤ fuel) (hempty : s.isRoomEmpty = false)
    (hdeck : k ≤ s.deck.length) (hv : findP s.players pid = some v)
    (hdrawing : v.drawing = false) :
    ∃ g : Player → Player, drawMapOK pid k g ∧
      run fuel (.drawCards pid (k : Int)) s
        = ({ s with players := s.players.map g, deck := s.deck.drop k }, false) := by
  obtain ⟨n, rfl⟩ : ∃ n, fuel = n + 1 := ⟨fuel - 1, by omega⟩
  rw [run, drawCardsF, hv]
  have hc1 : (((k : Nat) : Int) == -1) = false := by
    simp only [beq_eq_false_iff_ne, ne_eq]
    omega
  simp only [hdrawing, hc1, Bool.and_false, Bool.false_or, Bool.false_eq_true, if_false]
  obtain ⟨g', hok', hrun'⟩ := drawLoop_maps k n
    { s with players := updP s.players pid (fun q => { q with drawing := true }) }
    pid 0 [] k (by omega) (by omega) hempty hdeck
  rw [hrun']
  simp only [Bool.false_eq_true, if_false]
  have hdrawT : drawMapOK pid 0
      (fun q => if (q.id == pid) = true then { q with drawing := true } else q) :=
    drawMapOK_updP pid 0 (fun q => { q with drawing := true })
      (fun q => rfl) (fun q => rfl) (fun q => rfl) (fun q => by simp)
  have hstrip : drawMapOK pid 0
      (fun q => if (q.id == pid) = true
        then { q with cards := q.cards.map fun (c : Card) => { c with playable := false } } else q) :=
    drawMapOK_updP pid 0
      (fun q => { q with cards := q.cards.map fun (c : Card) => { c with playable := false } })
      (fun q => rfl) (fun q => rfl) (fun q => rfl) (fun q => by simp)
  have hlast2 : drawMapOK pid 0
      (fun q => if (q.id == pid) = true
        then (match q.cards.get? q.lastDrawnCard with
          | some c => { q with cards := q.cards.set q.lastDrawnCard { c with playable := true } }
          | none => q) else q) :=
    drawMapOK_updP pid 0
      (fun q => match q.cards.get? q.lastDrawnCard with
        | some c => { q with cards := q.cards.set q.lastDrawnCard { c with playable := true } }
        | none => q)
      (fun q => by cases hgq : q.cards.get? q.lastDrawnCard <;> simp only [hgq])
      (fun q => by cases hgq : q.cards.get? q.lastDrawnCard <;> simp only [hgq])
      (fun q => by cases hgq : q.cards.get? q.lastDrawnCard <;> simp only [hgq])
      (fun q => by
        cases hgq : q.cards.get? q.lastDrawnCard <;>
          simp only [hgq, List.length_set, Nat.add_zero])
  have hdrawF : drawMapOK pid 0
      (fun q => if (q.id == pid) = true then { q with drawing := false } else q) :=
    drawMapOK_updP pid 0 (fun q => { q with drawing := false })
      (fun q => rfl) (fun q => rfl) (fun q => rfl) (fun q => by simp)
  have hokG := drawMapOK_comp (drawMapOK_comp (drawMapOK_comp (drawMapOK_comp hdrawT hok') hstrip) hlast2) hdrawF
  rw [show 0 + k + 0 + 0 + 0 = k from by omega] at hokG
  refine ⟨_, hokG, ?_⟩
  dsimp only
  rw [updP_as_map, updP_as_map, updP_as_map, updP_as_map,
    List.map_map, List.map_map, List.map_map, List.map_map]
  simp only [Function.comp_def]

/-- A room with every hand non-empty and no recorded winner stays
winnerless after the win check. -/
theorem checkForWinner_none (r : Room) (hw : r.winner = none)
    (h : ∀ q ∈ r.players, q.cards.length ≠ 0) : r.checkForWinner.winner = none := by
  show (r.players.foldl (fun w p => if p.cards.length == 0 then some p.id else w) r.winner) = none
  rw [winner_foldl, hw]
  have hfil : (r.players.filter fun p => p.cards.length == 0) = [] := by
    rw [List.filter_eq_nil_iff]
    intro a ha
    simp [h a ha]
  rw [hfil]
  rfl

/-- `Room.nextTurn(skip = true, draw = k)` on a room whose victim (the
seat after the turn player) is not the turn player: the victim is named
turn, handed `k` deck cards, then skipped — the turn lands on the seat
after the victim — and, all hands being non-empty, no winner is declared
and a non-bot new turn player ends the call. -/
theorem nextTurnF_skip_draw (fuel : Nat) (k : Nat) (s : Room) (np m2 : Player)
    (hk : k ≠ 0) (hfuel : k + 3 ≤ fuel)
    (hnd : (s.players.map Player.id).Nodup)
    (hnp : s.getNextPlayer 0 = some np)
    (hnpt : (np.id == s.turn) = false)
    (hdrawing : np.drawing = false)
    (hempty : s.isRoomEmpty = false)
    (hdeck : k ≤ s.deck.length)
    (hm2 : Room.getNextPlayer { s with turn := np.id } 0 = some m2)
    (hm2bot : m2.bot = false)
    (hwin : s.winner = none)
    (hhands : ∀ q ∈ s.players, q.cards.length ≠ 0) :
    ∃ g : Player → Player,
      ((∀ q, (g q).id = q.id) ∧
       (∀ q, (g q).mustStack = q.mustStack) ∧
       (∀ q, (g q).cards.length = q.cards.length + (if (q.id == np.id) = true then k else 0))) ∧
      run fuel (.nextTurn true k) s
        = ({ s with inactivityTimer := 0, turn := m2.id,
                    players := s.players.map g, deck := s.deck.drop k, winner := none }, false) := by
  obtain ⟨n, rfl⟩ : ∃ n, fuel = n + 1 := ⟨fuel - 1, by omega⟩
  have hgCl : ∀ q : Player, ((fun q => if (q.id == s.turn) = true
      then { id := q.clearPlayableCards.id, username := q.clearPlayableCards.username, cards := q.clearPlayableCards.cards, bot := q.clearPlayableCards.bot, canDraw := false, canPlay := false, drawing := q.clearPlayableCards.drawing, hasCalledUno := q.clearPlayableCards.hasCalledUno, mustStack := q.clearPlayableCards.mustStack, lastDrawnCard := q.clearPlayableCards.lastDrawnCard, roomId := q.clearPlayableCards.roomId, inRoom := q.clearPlayableCards.inRoom } else q) q).id = q.id := by
    intro q
    dsimp only
    split <;> rfl
  have hgVd : ∀ q : Player, ((fun q => if (q.id == np.id) = true
      then { q with canDraw := false, canPlay := false } else q) q).id = q.id := by
    intro q
    dsimp only
    split <;> rfl
  have hA : Room.getNextPlayer
      { s with inactivityTimer := 0,
               players := updP s.players s.turn
                 (fun q => { id := q.clearPlayableCards.id, username := q.clearPlayableCards.username, cards := q.clearPlayableCards.cards, bot := q.clearPlayableCards.bot, canDraw := false, canPlay := false, drawing := q.clearPlayableCards.drawing, hasCalledUno := q.clearPlayableCards.hasCalledUno, mustStack := q.clearPlayableCards.mustStack, lastDrawnCard := q.clearPlayableCards.lastDrawnCard, roomId := q.clearPlayableCards.roomId, inRoom := q.clearPlayableCards.inRoom }) } 0
      = some np := by
    rw [getNextPlayer_map s
      { s with inactivityTimer := 0,
               players := updP s.players s.turn
                 (fun q => { id := q.clearPlayableCards.id, username := q.clearPlayableCards.username, cards := q.clearPlayableCards.cards, bot := q.clearPlayableCards.bot, canDraw := false, canPlay := false, drawing := q.clearPlayableCards.drawing, hasCalledUno := q.clearPlayableCards.hasCalledUno, mustStack := q.clearPlayableCards.mustStack, lastDrawnCard := q.clearPlayableCards.lastDrawnCard, roomId := q.clearPlayableCards.roomId, inRoom := q.clearPlayableCards.inRoom }) }
      (fun q => if (q.id == s.turn) = true
        then { id := q.clearPlayableCards.id, username := q.clearPlayableCards.username, cards := q.clearPlayableCards.cards, bot := q.clearPlayableCards.bot, canDraw := false, canPlay := false, drawing := q.clearPlayableCards.drawing, hasCalledUno := q.clearPlayableCards.hasCalledUno, mustStack := q.clearPlayableCards.mustStack, lastDrawnCard := q.clearPlayableCards.lastDrawnCard, roomId := q.clearPlayableCards.roomId, inRoom := q.clearPlayableCards.inRoom } else q)
      hgCl rfl rfl rfl, hnp]
    simp only [Option.map_some', hnpt, Bool.false_eq_true, if_false]
  have hfnp : findP s.players np.id = some np := findP_of_mem_nodup hnd (getNextPlayer_mem hnp)
  have hfCl : findP (updP s.players s.turn
      (fun q => { id := q.clearPlayableCards.id, username := q.clearPlayableCards.username, cards := q.clearPlayableCards.cards, bot := q.clearPlayableCards.bot, canDraw := false, canPlay := false, drawing := q.clearPlayableCards.drawing, hasCalledUno := q.clearPlayableCards.hasCalledUno, mustStack := q.clearPlayableCards.mustStack, lastDrawnCard := q.clearPlayableCards.lastDrawnCard, roomId := q.clearPlayableCards.roomId, inRoom := q.clearPlayableCards.inRoom })) np.id
      = some np := by
    rw [updP_as_map, findP_map_idpres _ _ hgCl np.id, hfnp]
    simp only [Option.map_some', hnpt, Bool.false_eq_true, if_false]
  have hfVd : findP (updP (updP s.players s.turn
      (fun q => { id := q.clearPlayableCards.id, username := q.clearPlayableCards.username, cards := q.clearPlayableCards.cards, bot := q.clearPlayableCards.bot, canDraw := false, canPlay := false, drawing := q.clearPlayableCards.drawing, hasCalledUno := q.clearPlayableCards.hasCalledUno, mustStack := q.clearPlayableCards.mustStack, lastDrawnCard := q.clearPlayableCards.lastDrawnCard, roomId := q.clearPlayableCards.roomId, inRoom := q.clearPlayableCards.inRoom })) np.id
      (fun q => { q with canDraw := false, canPlay := false })) np.id
      = some { np with canDraw := false, canPlay := false } := by
    rw [updP_as_map (updP s.players s.turn _), findP_map_idpres _ _ hgVd np.id, hfCl]
    simp only [Option.map_some']
    rw [show (np.id == np.id) = true from by simp]
    rfl
  have hkb : ((k : Nat) != 0) = true := by
    simp only [bne_iff_ne, ne_eq]
    exact hk
  rw [run, nextTurnF]
  simp only [Bool.true_or, if_true]
  dsimp only [Room.updTurn]
  rw [hA]
  dsimp only
  simp only [hkb, if_true]
  obtain ⟨G, hGok, hGrun⟩ := drawCards_deliver k n
    { s with inactivityTimer := 0, turn := np.id,
             players := updP (updP s.players s.turn
                 (fun q => { id := q.clearPlayableCards.id, username := q.clearPlayableCards.username, cards := q.clearPlayableCards.cards, bot := q.clearPlayableCards.bot, canDraw := false, canPlay := false, drawing := q.clearPlayableCards.drawing, hasCalledUno := q.clearPlayableCards.hasCalledUno, mustStack := q.clearPlayableCards.mustStack, lastDrawnCard := q.clearPlayableCards.lastDrawnCard, roomId := q.clearPlayableCards.roomId, inRoom := q.clearPlayableCards.inRoom })) np.id
               (fun q => { q with canDraw := false, canPlay := false }) }
    np.id { np with canDraw := false, canPlay := false }
    (by omega) hempty hdeck hfVd hdrawing
  rw [hGrun]
  dsimp only
  have hidBIG : ∀ q : Player, (G ((fun q => if (q.id == np.id) = true
      then { q with canDraw := false, canPlay := false } else q)
      ((fun q => if (q.id == s.turn) = true then { id := q.clearPlayableCards.id, username := q.clearPlayableCards.username, cards := q.clearPlayableCards.cards, bot := q.clearPlayableCards.bot, canDraw := false, canPlay := false, drawing := q.clearPlayableCards.drawing, hasCalledUno := q.clearPlayableCards.hasCalledUno, mustStack := q.clearPlayableCards.mustStack, lastDrawnCard := q.clearPlayableCards.lastDrawnCard, roomId := q.clearPlayableCards.roomId, inRoom := q.clearPlayableCards.inRoom } else q) q))).id = q.id :=
    fun q => (hGok.1 _).trans ((hgVd _).trans (hgCl q))
  have hB2 : Room.getNextPlayer
      { s with inactivityTimer := 0, turn := np.id,
               players := (updP (updP s.players s.turn (fun q => { id := q.clearPlayableCards.id, username := q.clearPlayableCards.username, cards := q.clearPlayableCards.cards, bot := q.clearPlayableCards.bot, canDraw := false, canPlay := false, drawing := q.clearPlayableCards.drawing, hasCalledUno := q.clearPlayableCards.hasCalledUno, mustStack := q.clearPlayableCards.mustStack, lastDrawnCard := q.clearPlayableCards.lastDrawnCard, roomId := q.clearPlayableCards.roomId, inRoom := q.clearPlayableCards.inRoom })) np.id
                 (fun q => { q with canDraw := false, canPlay := false })).map G,
               deck := s.deck.drop k } 0
      = some (G ((fun q => if (q.id == np.id) = true
          then { q with canDraw := false, canPlay := false } else q)
          ((fun q => if (q.id == s.turn) = true then { id := q.clearPlayableCards.id, username := q.clearPlayableCards.username, cards := q.clearPlayableCards.cards, bot := q.clearPlayableCards.bot, canDraw := false, canPlay := false, drawing := q.clearPlayableCards.drawing, hasCalledUno := q.clearPlayableCards.hasCalledUno, mustStack := q.clearPlayableCards.mustStack, lastDrawnCard := q.clearPlayableCards.lastDrawnCard, roomId := q.clearPlayableCards.roomId, inRoom := q.clearPlayableCards.inRoom } else q) m2))) := by
    rw [getNextPlayer_map { s with turn := np.id }
      { s with inactivityTimer := 0, turn := np.id,
               players := (updP (updP s.players s.turn (fun q => { id := q.clearPlayableCards.id, username := q.clearPlayableCards.username, cards := q.clearPlayableCards.cards, bot := q.clearPlayableCards.bot, canDraw := false, canPlay := false, drawing := q.clearPlayableCards.drawing, hasCalledUno := q.clearPlayableCards.hasCalledUno, mustStack := q.clearPlayableCards.mustStack, lastDrawnCard := q.clearPlayableCards.lastDrawnCard, roomId := q.clearPlayableCards.roomId, inRoom := q.clearPlayableCards.inRoom })) np.id
                 (fun q => { q with canDraw := false, canPlay := false })).map G,
               deck := s.deck.drop k }
      (fun q => G ((fun q => if (q.id == np.id) = true
          then { q with canDraw := false, canPlay := false } else q)
          ((fun q => if (q.id == s.turn) = true then { id := q.clearPlayableCards.id, username := q.clearPlayableCards.username, cards := q.clearPlayableCards.cards, bot := q.clearPlayableCards.bot, canDraw := false, canPlay := false, drawing := q.clearPlayableCards.drawing, hasCalledUno := q.clearPlayableCards.hasCalledUno, mustStack := q.clearPlayableCards.mustStack, lastDrawnCard := q.clearPlayableCards.lastDrawnCard, roomId := q.clearPlayableCards.roomId, inRoom := q.clearPlayableCards.inRoom } else q) q)))
      hidBIG
      (by rw [updP_as_map (updP s.players s.turn _), updP_as_map s.players,
            List.map_map, List.map_map]; rfl)
      rfl rfl, hm2]
    simp only [Option.map_some']
  rw [hB2]
  dsimp only
  simp only [hidBIG]
  rw [updP_as_map, updP_as_map, updP_as_map, List.map_map, List.map_map, List.map_map]
  dsimp only [Room.checkForWinner]
  have hclms : ∀ q : Player, ((fun q => if (q.id == s.turn) = true then { id := q.clearPlayableCards.id, username := q.clearPlayableCards.username, cards := q.clearPlayableCards.cards, bot := q.clearPlayableCards.bot, canDraw := false, canPlay := false, drawing := q.clearPlayableCards.drawing, hasCalledUno := q.clearPlayableCards.hasCalledUno, mustStack := q.clearPlayableCards.mustStack, lastDrawnCard := q.clearPlayableCards.lastDrawnCard, roomId := q.clearPlayableCards.roomId, inRoom := q.clearPlayableCards.inRoom } else q) q).mustStack = q.mustStack := by
    intro q
    dsimp only
    split <;> rfl
  have hvdms : ∀ q : Player, ((fun q => if (q.id == np.id) = true then { q with canDraw := false, canPlay := false } else q) q).mustStack = q.mustStack := by
    intro q
    dsimp only
    split <;> rfl
  have hgrms : ∀ q : Player, ((fun q => if (q.id == m2.id) = true then ({ q with canDraw := true, canPlay := true } : Player).findPlayableCards (Room.topCard { s with inactivityTimer := 0, turn := m2.id, deck := s.deck.drop k, players := List.map G (List.map (fun q => if (q.id == np.id) = true then { q with canDraw := false, canPlay := false } else q) (List.map (fun q => if (q.id == s.turn) = true then { id := q.clearPlayableCards.id, username := q.clearPlayableCards.username, cards := q.clearPlayableCards.cards, bot := q.clearPlayableCards.bot, canDraw := false, canPlay := false, drawing := q.clearPlayableCards.drawing, hasCalledUno := q.clearPlayableCards.hasCalledUno, mustStack := q.clearPlayableCards.mustStack, lastDrawnCard := q.clearPlayableCards.lastDrawnCard, roomId := q.clearPlayableCards.roomId, inRoom := q.clearPlayableCards.inRoom } else q) s.players)) }) else q) q).mustStack = q.mustStack := by
    intro q
    dsimp only
    split <;> rfl
  have hclbot : ∀ q : Player, ((fun q => if (q.id == s.turn) = true then { id := q.clearPlayableCards.id, username := q.clearPlayableCards.username, cards := q.clearPlayableCards.cards, bot := q.clearPlayableCards.bot, canDraw := false, canPlay := false, drawing := q.clearPlayableCards.drawing, hasCalledUno := q.clearPlayableCards.hasCalledUno, mustStack := q.clearPlayableCards.mustStack, lastDrawnCard := q.clearPlayableCards.lastDrawnCard, roomId := q.clearPlayableCards.roomId, inRoom := q.clearPlayableCards.inRoom } else q) q).bot = q.bot := by
    intro q
    dsimp only
    split <;> rfl
  have hvdbot : ∀ q : Player, ((fun q => if (q.id == np.id) = true then { q with canDraw := false, canPlay := false } else q) q).bot = q.bot := by
    intro q
    dsimp only
    split <;> rfl
  have hgrbot : ∀ q : Player, ((fun q => if (q.id == m2.id) = true then ({ q with canDraw := true, canPlay := true } : Player).findPlayableCards (Room.topCard { s with inactivityTimer := 0, turn := m2.id, deck := s.deck.drop k, players := List.map G (List.map (fun q => if (q.id == np.id) = true then { q with canDraw := false, canPlay := false } else q) (List.map (fun q => if (q.id == s.turn) = true then { id := q.clearPlayableCards.id, username := q.clearPlayableCards.username, cards := q.clearPlayableCards.cards, bot := q.clearPlayableCards.bot, canDraw := false, canPlay := false, drawing := q.clearPlayableCards.drawing, hasCalledUno := q.clearPlayableCards.hasCalledUno, mustStack := q.clearPlayableCards.mustStack, lastDrawnCard := q.clearPlayableCards.lastDrawnCard, roomId := q.clearPlayableCards.roomId, inRoom := q.clearPlayableCards.inRoom } else q) s.players)) }) else q) q).bot = q.bot := by
    intro q
    dsimp only
    split <;> rfl
  have hgrid : ∀ q : Player, ((fun q => if (q.id == m2.id) = true then ({ q with canDraw := true, canPlay := true } : Player).findPlayableCards (Room.topCard { s with inactivityTimer := 0, turn := m2.id, deck := s.deck.drop k, players := List.map G (List.map (fun q => if (q.id == np.id) = true then { q with canDraw := false, canPlay := false } else q) (List.map (fun q => if (q.id == s.turn) = true then { id := q.clearPlayableCards.id, username := q.clearPlayableCards.username, cards := q.clearPlayableCards.cards, bot := q.clearPlayableCards.bot, canDraw := false, canPlay := false, drawing := q.clearPlayableCards.drawing, hasCalledUno := q.clearPlayableCards.hasCalledUno, mustStack := q.clearPlayableCards.mustStack, lastDrawnCard := q.clearPlayableCards.lastDrawnCard, roomId := q.clearPlayableCards.roomId, inRoom := q.clearPlayableCards.inRoom } else q) s.players)) }) else q) q).id = q.id := by
    intro q
    dsimp only
    split <;> rfl
  have hcllen : ∀ q : Player, ((fun q => if (q.id == s.turn) = true then { id := q.clearPlayableCards.id, username := q.clearPlayableCards.username, cards := q.clearPlayableCards.cards, bot := q.clearPlayableCards.bot, canDraw := false, canPlay := false, drawing := q.clearPlayableCards.drawing, hasCalledUno := q.clearPlayableCards.hasCalledUno, mustStack := q.clearPlayableCards.mustStack, lastDrawnCard := q.clearPlayableCards.lastDrawnCard, roomId := q.clearPlayableCards.roomId, inRoom := q.clearPlayableCards.inRoom } else q) q).cards.length = q.cards.length := by
    intro q
    dsimp only
    split
    · show q.clearPlayableCards.cards.length = q.cards.length
      simp [Player.clearPlayableCards]
    · rfl
  have hvdlen : ∀ q : Player, ((fun q => if (q.id == np.id) = true then { q with canDraw := false, canPlay := false } else q) q).cards.length = q.cards.length := by
    intro q
    dsimp only
    split <;> rfl
  have hgrlen : ∀ q : Player, ((fun q => if (q.id == m2.id) = true then ({ q with canDraw := true, canPlay := true } : Player).findPlayableCards (Room.topCard { s with inactivityTimer := 0, turn := m2.id, deck := s.deck.drop k, players := List.map G (List.map (fun q => if (q.id == np.id) = true then { q with canDraw := false, canPlay := false } else q) (List.map (fun q => if (q.id == s.turn) = true then { id := q.clearPlayableCards.id, username := q.clearPlayableCards.username, cards := q.clearPlayableCards.cards, bot := q.clearPlayableCards.bot, canDraw := false, canPlay := false, drawing := q.clearPlayableCards.drawing, hasCalledUno := q.clearPlayableCards.hasCalledUno, mustStack := q.clearPlayableCards.mustStack, lastDrawnCard := q.clearPlayableCards.lastDrawnCard, roomId := q.clearPlayableCards.roomId, inRoom := q.clearPlayableCards.inRoom } else q) s.players)) }) else q) q).cards.length = q.cards.length := by
    intro q
    dsimp only
    split
    · show (({ q with canDraw := true, canPlay := true } : Player).findPlayableCards
          (Room.topCard { s with inactivityTimer := 0, turn := m2.id, deck := s.deck.drop k, players := List.map G (List.map (fun q => if (q.id == np.id) = true then { q with canDraw := false, canPlay := false } else q) (List.map (fun q => if (q.id == s.turn) = true then { id := q.clearPlayableCards.id, username := q.clearPlayableCards.username, cards := q.clearPlayableCards.cards, bot := q.clearPlayableCards.bot, canDraw := false, canPlay := false, drawing := q.clearPlayableCards.drawing, hasCalledUno := q.clearPlayableCards.hasCalledUno, mustStack := q.clearPlayableCards.mustStack, lastDrawnCard := q.clearPlayableCards.lastDrawnCard, roomId := q.clearPlayableCards.roomId, inRoom := q.clearPlayableCards.inRoom } else q) s.players)) })).cards.length = q.cards.length
      simp [Player.findPlayableCards]
    · rfl
  have hFULLid : ∀ q : Player, (((((fun q => if (q.id == m2.id) = true then ({ q with canDraw := true, canPlay := true } : Player).findPlayableCards (Room.topCard { s with inactivityTimer := 0, turn := m2.id, deck := s.deck.drop k, players := List.map G (List.map (fun q => if (q.id == np.id) = true then { q with canDraw := false, canPlay := false } else q) (List.map (fun q => if (q.id == s.turn) = true then { id := q.clearPlayableCards.id, username := q.clearPlayableCards.username, cards := q.clearPlayableCards.cards, bot := q.clearPlayableCards.bot, canDraw := false, canPlay := false, drawing := q.clearPlayableCards.drawing, hasCalledUno := q.clearPlayableCards.hasCalledUno, mustStack := q.clearPlayableCards.mustStack, lastDrawnCard := q.clearPlayableCards.lastDrawnCard, roomId := q.clearPlayableCards.roomId, inRoom := q.clearPlayableCards.inRoom } else q) s.players)) }) else q) ∘ G) ∘ (fun q => if (q.id == np.id) = true then { q with canDraw := false, canPlay := false } else q)) ∘ (fun q => if (q.id == s.turn) = true then { id := q.clearPlayableCards.id, username := q.clearPlayableCards.username, cards := q.clearPlayableCards.cards, bot := q.clearPlayableCards.bot, canDraw := false, canPlay := false, drawing := q.clearPlayableCards.drawing, hasCalledUno := q.clearPlayableCards.hasCalledUno, mustStack := q.clearPlayableCards.mustStack, lastDrawnCard := q.clearPlayableCards.lastDrawnCard, roomId := q.clearPlayableCards.roomId, inRoom := q.clearPlayableCards.inRoom } else q)) q).id = q.id :=
    fun q => (hgrid _).trans ((hGok.1 _).trans ((hgVd _).trans (hgCl q)))
  have hFULLms : ∀ q : Player, (((((fun q => if (q.id == m2.id) = true then ({ q with canDraw := true, canPlay := true } : Player).findPlayableCards (Room.topCard { s with inactivityTimer := 0, turn := m2.id, deck := s.deck.drop k, players := List.map G (List.map (fun q => if (q.id == np.id) = true then { q with canDraw := false, canPlay := false } else q) (List.map (fun q => if (q.id == s.turn) = true then { id := q.clearPlayableCards.id, username := q.clearPlayableCards.username, cards := q.clearPlayableCards.cards, bot := q.clearPlayableCards.bot, canDraw := false, canPlay := false, drawing := q.clearPlayableCards.drawing, hasCalledUno := q.clearPlayableCards.hasCalledUno, mustStack := q.clearPlayableCards.mustStack, lastDrawnCard := q.clearPlayableCards.lastDrawnCard, roomId := q.clearPlayableCards.roomId, inRoom := q.clearPlayableCards.inRoom } else q) s.players)) }) else q) ∘ G) ∘ (fun q => if (q.id == np.id) = true then { q with canDraw := false, canPlay := false } else q)) ∘ (fun q => if (q.id == s.turn) = true then { id := q.clearPlayableCards.id, username := q.clearPlayableCards.username, cards := q.clearPlayableCards.cards, bot := q.clearPlayableCards.bot, canDraw := false, canPlay := false, drawing := q.clearPlayableCards.drawing, hasCalledUno := q.clearPlayableCards.hasCalledUno, mustStack := q.clearPlayableCards.mustStack, lastDrawnCard := q.clearPlayableCards.lastDrawnCard, roomId := q.clearPlayableCards.roomId, inRoom := q.clearPlayableCards.inRoom } else q)) q).mustStack = q.mustStack :=
    fun q => (hgrms _).trans ((hGok.2.1 _).trans ((hvdms _).trans (hclms q)))
  have hFULLlen : ∀ q : Player, (((((fun q => if (q.id == m2.id) = true then ({ q with canDraw := true, canPlay := true } : Player).findPlayableCards (Room.topCard { s with inactivityTimer := 0, turn := m2.id, deck := s.deck.drop k, players := List.map G (List.map (fun q => if (q.id == np.id) = true then { q with canDraw := false, canPlay := false } else q) (List.map (fun q => if (q.id == s.turn) = true then { id := q.clearPlayableCards.id, username := q.clearPlayableCards.username, cards := q.clearPlayableCards.cards, bot := q.clearPlayableCards.bot, canDraw := false, canPlay := false, drawing := q.clearPlayableCards.drawing, hasCalledUno := q.clearPlayableCards.hasCalledUno, mustStack := q.clearPlayableCards.mustStack, lastDrawnCard := q.clearPlayableCards.lastDrawnCard, roomId := q.clearPlayableCards.roomId, inRoom := q.clearPlayableCards.inRoom } else q) s.players)) }) else q) ∘ G) ∘ (fun q => if (q.id == np.id) = true then { q with canDraw := false, canPlay := false } else q)) ∘ (fun q => if (q.id == s.turn) = true then { id := q.clearPlayableCards.id, username := q.clearPlayableCards.username, cards := q.clearPlayableCards.cards, bot := q.clearPlayableCards.bot, canDraw := false, canPlay := false, drawing := q.clearPlayableCards.drawing, hasCalledUno := q.clearPlayableCards.hasCalledUno, mustStack := q.clearPlayableCards.mustStack, lastDrawnCard := q.clearPlayableCards.lastDrawnCard, roomId := q.clearPlayableCards.roomId, inRoom := q.clearPlayableCards.inRoom } else q)) q).cards.length
      = q.cards.length + (if (q.id == np.id) = true then k else 0) := by
    intro q
    show ((fun q => if (q.id == m2.id) = true then ({ q with canDraw := true, canPlay := true } : Player).findPlayableCards (Room.topCard { s with inactivityTimer := 0, turn := m2.id, deck := s.deck.drop k, players := List.map G (List.map (fun q => if (q.id == np.id) = true then { q with canDraw := false, canPlay := false } else q) (List.map (fun q => if (q.id == s.turn) = true then { id := q.clearPlayableCards.id, username := q.clearPlayableCards.username, cards := q.clearPlayableCards.cards, bot := q.clearPlayableCards.bot, canDraw := false, canPlay := false, drawing := q.clearPlayableCards.drawing, hasCalledUno := q.clearPlayableCards.hasCalledUno, mustStack := q.clearPlayableCards.mustStack, lastDrawnCard := q.clearPlayableCards.lastDrawnCard, roomId := q.clearPlayableCards.roomId, inRoom := q.clearPlayableCards.inRoom } else q) s.players)) }) else q) (G ((fun q => if (q.id == np.id) = true then { q with canDraw := false, canPlay := false } else q) ((fun q => if (q.id == s.turn) = true then { id := q.clearPlayableCards.id, username := q.clearPlayableCards.username, cards := q.clearPlayableCards.cards, bot := q.clearPlayableCards.bot, canDraw := false, canPlay := false, drawing := q.clearPlayableCards.drawing, hasCalledUno := q.clearPlayableCards.hasCalledUno, mustStack := q.clearPlayableCards.mustStack, lastDrawnCard := q.clearPlayableCards.lastDrawnCard, roomId := q.clearPlayableCards.roomId, inRoom := q.clearPlayableCards.inRoom } else q) q)))).cards.length = _
    rw [hgrlen]
    have h := hGok.2.2.2.1 ((fun q => if (q.id == np.id) = true then { q with canDraw := false, canPlay := false } else q) ((fun q => if (q.id == s.turn) = true then { id := q.clearPlayableCards.id, username := q.clearPlayableCards.username, cards := q.clearPlayableCards.cards, bot := q.clearPlayableCards.bot, canDraw := false, canPlay := false, drawing := q.clearPlayableCards.drawing, hasCalledUno := q.clearPlayableCards.hasCalledUno, mustStack := q.clearPlayableCards.mustStack, lastDrawnCard := q.clearPlayableCards.lastDrawnCard, roomId := q.clearPlayableCards.roomId, inRoom := q.clearPlayableCards.inRoom } else q) q))
    rw [show ((fun q => if (q.id == np.id) = true then { q with canDraw := false, canPlay := false } else q) ((fun q => if (q.id == s.turn) = true then { id := q.clearPlayableCards.id, username := q.clearPlayableCards.username, cards := q.clearPlayableCards.cards, bot := q.clearPlayableCards.bot, canDraw := false, canPlay := false, drawing := q.clearPlayableCards.drawing, hasCalledUno := q.clearPlayableCards.hasCalledUno, mustStack := q.clearPlayableCards.mustStack, lastDrawnCard := q.clearPlayableCards.lastDrawnCard, roomId := q.clearPlayableCards.roomId, inRoom := q.clearPlayableCards.inRoom } else q) q)).id = q.id from (hgVd _).trans (hgCl q)] at h
    rw [h, hvdlen, hcllen]
  have hbFIN : (((((fun q => if (q.id == m2.id) = true then ({ q with canDraw := true, canPlay := true } : Player).findPlayableCards (Room.topCard { s with inactivityTimer := 0, turn := m2.id, deck := s.deck.drop k, players := List.map G (List.map (fun q => if (q.id == np.id) = true then { q with canDraw := false, canPlay := false } else q) (List.map (fun q => if (q.id == s.turn) = true then { id := q.clearPlayableCards.id, username := q.clearPlayableCards.username, cards := q.clearPlayableCards.cards, bot := q.clearPlayableCards.bot, canDraw := false, canPlay := false, drawing := q.clearPlayableCards.drawing, hasCalledUno := q.clearPlayableCards.hasCalledUno, mustStack := q.clearPlayableCards.mustStack, lastDrawnCard := q.clearPlayableCards.lastDrawnCard, roomId := q.clearPlayableCards.roomId, inRoom := q.clearPlayableCards.inRoom } else q) s.players)) }) else q) ∘ G) ∘ (fun q => if (q.id == np.id) = true then { q with canDraw := false, canPlay := false } else q)) ∘ (fun q => if (q.id == s.turn) = true then { id := q.clearPlayableCards.id, username := q.clearPlayableCards.username, cards := q.clearPlayableCards.cards, bot := q.clearPlayableCards.bot, canDraw := false, canPlay := false, drawing := q.clearPlayableCards.drawing, hasCalledUno := q.clearPlayableCards.hasCalledUno, mustStack := q.clearPlayableCards.mustStack, lastDrawnCard := q.clearPlayableCards.lastDrawnCard, roomId := q.clearPlayableCards.roomId, inRoom := q.clearPlayableCards.inRoom } else q)) m2).bot = false := by
    show ((fun q => if (q.id == m2.id) = true then ({ q with canDraw := true, canPlay := true } : Player).findPlayableCards (Room.topCard { s with inactivityTimer := 0, turn := m2.id, deck := s.deck.drop k, players := List.map G (List.map (fun q => if (q.id == np.id) = true then { q with canDraw := false, canPlay := false } else q) (List.map (fun q => if (q.id == s.turn) = true then { id := q.clearPlayableCards.id, username := q.clearPlayableCards.username, cards := q.clearPlayableCards.cards, bot := q.clearPlayableCards.bot, canDraw := false, canPlay := false, drawing := q.clearPlayableCards.drawing, hasCalledUno := q.clearPlayableCards.hasCalledUno, mustStack := q.clearPlayableCards.mustStack, lastDrawnCard := q.clearPlayableCards.lastDrawnCard, roomId := q.clearPlayableCards.roomId, inRoom := q.clearPlayableCards.inRoom } else q) s.players)) }) else q) (G ((fun q => if (q.id == np.id) = true then { q with canDraw := false, canPlay := false } else q) ((fun q => if (q.id == s.turn) = true then { id := q.clearPlayableCards.id, username := q.clearPlayableCards.username, cards := q.clearPlayableCards.cards, bot := q.clearPlayableCards.bot, canDraw := false, canPlay := false, drawing := q.clearPlayableCards.drawing, hasCalledUno := q.clearPlayableCards.hasCalledUno, mustStack := q.clearPlayableCards.mustStack, lastDrawnCard := q.clearPlayableCards.lastDrawnCard, roomId := q.clearPlayableCards.roomId, inRoom := q.clearPlayableCards.inRoom } else q) m2)))).bot = false
    rw [hgrbot, hGok.2.2.1, hvdbot, hclbot]
    exact hm2bot
  have hm2mem : m2 ∈ s.players := @getNextPlayer_mem { s with turn := np.id } m2 hm2
  have hfm2s : findP s.players m2.id = some m2 := findP_of_mem_nodup hnd hm2mem
  have hfFIN : findP (List.map ((((fun q => if (q.id == m2.id) = true then ({ q with canDraw := true, canPlay := true } : Player).findPlayableCards (Room.topCard { s with inactivityTimer := 0, turn := m2.id, deck := s.deck.drop k, players := List.map G (List.map (fun q => if (q.id == np.id) = true then { q with canDraw := false, canPlay := false } else q) (List.map (fun q => if (q.id == s.turn) = true then { id := q.clearPlayableCards.id, username := q.clearPlayableCards.username, cards := q.clearPlayableCards.cards, bot := q.clearPlayableCards.bot, canDraw := false, canPlay := false, drawing := q.clearPlayableCards.drawing, hasCalledUno := q.clearPlayableCards.hasCalledUno, mustStack := q.clearPlayableCards.mustStack, lastDrawnCard := q.clearPlayableCards.lastDrawnCard, roomId := q.clearPlayableCards.roomId, inRoom := q.clearPlayableCards.inRoom } else q) s.players)) }) else q) ∘ G) ∘ (fun q => if (q.id == np.id) = true then { q with canDraw := false, canPlay := false } else q)) ∘ (fun q => if (q.id == s.turn) = true then { id := q.clearPlayableCards.id, username := q.clearPlayableCards.username, cards := q.clearPlayableCards.cards, bot := q.clearPlayableCards.bot, canDraw := false, canPlay := false, drawing := q.clearPlayableCards.drawing, hasCalledUno := q.clearPlayableCards.hasCalledUno, mustStack := q.clearPlayableCards.mustStack, lastDrawnCard := q.clearPlayableCards.lastDrawnCard, roomId := q.clearPlayableCards.roomId, inRoom := q.clearPlayableCards.inRoom } else q)) s.players) m2.id = some (((((fun q => if (q.id == m2.id) = true then ({ q with canDraw := true, canPlay := true } : Player).findPlayableCards (Room.topCard { s with inactivityTimer := 0, turn := m2.id, deck := s.deck.drop k, players := List.map G (List.map (fun q => if (q.id == np.id) = true then { q with canDraw := false, canPlay := false } else q) (List.map (fun q => if (q.id == s.turn) = true then { id := q.clearPlayableCards.id, username := q.clearPlayableCards.username, cards := q.clearPlayableCards.cards, bot := q.clearPlayableCards.bot, canDraw := false, canPlay := false, drawing := q.clearPlayableCards.drawing, hasCalledUno := q.clearPlayableCards.hasCalledUno, mustStack := q.clearPlayableCards.mustStack, lastDrawnCard := q.clearPlayableCards.lastDrawnCard, roomId := q.clearPlayableCards.roomId, inRoom := q.clearPlayableCards.inRoom } else q) s.players)) }) else q) ∘ G) ∘ (fun q => if (q.id == np.id) = true then { q with canDraw := false, canPlay := false } else q)) ∘ (fun q => if (q.id == s.turn) = true then { id := q.clearPlayableCards.id, username := q.clearPlayableCards.username, cards := q.clearPlayableCards.cards, bot := q.clearPlayableCards.bot, canDraw := false, canPlay := false, drawing := q.clearPlayableCards.drawing, hasCalledUno := q.clearPlayableCards.hasCalledUno, mustStack := q.clearPlayableCards.mustStack, lastDrawnCard := q.clearPlayableCards.lastDrawnCard, roomId := q.clearPlayableCards.roomId, inRoom := q.clearPlayableCards.inRoom } else q)) m2) := by
    rw [findP_map_idpres s.players ((((fun q => if (q.id == m2.id) = true then ({ q with canDraw := true, canPlay := true } : Player).findPlayableCards (Room.topCard { s with inactivityTimer := 0, turn := m2.id, deck := s.deck.drop k, players := List.map G (List.map (fun q => if (q.id == np.id) = true then { q with canDraw := false, canPlay := false } else q) (List.map (fun q => if (q.id == s.turn) = true then { id := q.clearPlayableCards.id, username := q.clearPlayableCards.username, cards := q.clearPlayableCards.cards, bot := q.clearPlayableCards.bot, canDraw := false, canPlay := false, drawing := q.clearPlayableCards.drawing, hasCalledUno := q.clearPlayableCards.hasCalledUno, mustStack := q.clearPlayableCards.mustStack, lastDrawnCard := q.clearPlayableCards.lastDrawnCard, roomId := q.clearPlayableCards.roomId, inRoom := q.clearPlayableCards.inRoom } else q) s.players)) }) else q) ∘ G) ∘ (fun q => if (q.id == np.id) = true then { q with canDraw := false, canPlay := false } else q)) ∘ (fun q => if (q.id == s.turn) = true then { id := q.clearPlayableCards.id, username := q.clearPlayableCards.username, cards := q.clearPlayableCards.cards, bot := q.clearPlayableCards.bot, canDraw := false, canPlay := false, drawing := q.clearPlayableCards.drawing, hasCalledUno := q.clearPlayableCards.hasCalledUno, mustStack := q.clearPlayableCards.mustStack, lastDrawnCard := q.clearPlayableCards.lastDrawnCard, roomId := q.clearPlayableCards.roomId, inRoom := q.clearPlayableCards.inRoom } else q)) hFULLid m2.id, hfm2s]
    rfl
  have hwFold : List.foldl (fun w p => if p.cards.length == 0 then some p.id else w) s.winner
      (List.map ((((fun q => if (q.id == m2.id) = true then ({ q with canDraw := true, canPlay := true } : Player).findPlayableCards (Room.topCard { s with inactivityTimer := 0, turn := m2.id, deck := s.deck.drop k, players := List.map G (List.map (fun q => if (q.id == np.id) = true then { q with canDraw := false, canPlay := false } else q) (List.map (fun q => if (q.id == s.turn) = true then { id := q.clearPlayableCards.id, username := q.clearPlayableCards.username, cards := q.clearPlayableCards.cards, bot := q.clearPlayableCards.bot, canDraw := false, canPlay := false, drawing := q.clearPlayableCards.drawing, hasCalledUno := q.clearPlayableCards.hasCalledUno, mustStack := q.clearPlayableCards.mustStack, lastDrawnCard := q.clearPlayableCards.lastDrawnCard, roomId := q.clearPlayableCards.roomId, inRoom := q.clearPlayableCards.inRoom } else q) s.players)) }) else q) ∘ G) ∘ (fun q => if (q.id == np.id) = true then { q with canDraw := false, canPlay := false } else q)) ∘ (fun q => if (q.id == s.turn) = true then { id := q.clearPlayableCards.id, username := q.clearPlayableCards.username, cards := q.clearPlayableCards.cards, bot := q.clearPlayableCards.bot, canDraw := false, canPlay := false, drawing := q.clearPlayableCards.drawing, hasCalledUno := q.clearPlayableCards.hasCalledUno, mustStack := q.clearPlayableCards.mustStack, lastDrawnCard := q.clearPlayableCards.lastDrawnCard, roomId := q.clearPlayableCards.roomId, inRoom := q.clearPlayableCards.inRoom } else q)) s.players) = none := by
    rw [winner_foldl]
    have hfil : ((List.map ((((fun q => if (q.id == m2.id) = true then ({ q with canDraw := true, canPlay := true } : Player).findPlayableCards (Room.topCard { s with inactivityTimer := 0, turn := m2.id, deck := s.deck.drop k, players := List.map G (List.map (fun q => if (q.id == np.id) = true then { q with canDraw := false, canPlay := false } else q) (List.map (fun q => if (q.id == s.turn) = true then { id := q.clearPlayableCards.id, username := q.clearPlayableCards.username, cards := q.clearPlayableCards.cards, bot := q.clearPlayableCards.bot, canDraw := false, canPlay := false, drawing := q.clearPlayableCards.drawing, hasCalledUno := q.clearPlayableCards.hasCalledUno, mustStack := q.clearPlayableCards.mustStack, lastDrawnCard := q.clearPlayableCards.lastDrawnCard, roomId := q.clearPlayableCards.roomId, inRoom := q.clearPlayableCards.inRoom } else q) s.players)) }) else q) ∘ G) ∘ (fun q => if (q.id == np.id) = true then { q with canDraw := false, canPlay := false } else q)) ∘ (fun q => if (q.id == s.turn) = true then { id := q.clearPlayableCards.id, username := q.clearPlayableCards.username, cards := q.clearPlayableCards.cards, bot := q.clearPlayableCards.bot, canDraw := false, canPlay := false, drawing := q.clearPlayableCards.drawing, hasCalledUno := q.clearPlayableCards.hasCalledUno, mustStack := q.clearPlayableCards.mustStack, lastDrawnCard := q.clearPlayableCards.lastDrawnCard, roomId := q.clearPlayableCards.roomId, inRoom := q.clearPlayableCards.inRoom } else q)) s.players).filter fun p => p.cards.length == 0) = [] := by
      rw [List.filter_eq_nil_iff]
      intro a ha
      obtain ⟨x, hx, rfl⟩ := List.mem_map.mp ha
      have hx0 := hhands x hx
      by_cases hxi : (x.id == np.id) = true
      · simp only [hFULLlen x, hxi, if_true]
        simp only [beq_iff_eq]
        omega
      · simp only [Bool.not_eq_true] at hxi
        simp only [hFULLlen x, hxi, Bool.false_eq_true, if_false]
        simp only [beq_iff_eq]
        omega
    rw [hfil]
    exact hwin
  rw [hwFold]
  simp only [Option.isSome_none, Bool.false_eq_true, if_false]
  rw [hfFIN]
  dsimp only
  rw [hbFIN]
  simp only [Bool.false_eq_true, if_false]
  exact ⟨((((fun q => if (q.id == m2.id) = true then ({ q with canDraw := true, canPlay := true } : Player).findPlayableCards (Room.topCard { s with inactivityTimer := 0, turn := m2.id, deck := s.deck.drop k, players := List.map G (List.map (fun q => if (q.id == np.id) = true then { q with canDraw := false, canPlay := false } else q) (List.map (fun q => if (q.id == s.turn) = true then { id := q.clearPlayableCards.id, username := q.clearPlayableCards.username, cards := q.clearPlayableCards.cards, bot := q.clearPlayableCards.bot, canDraw := false, canPlay := false, drawing := q.clearPlayableCards.drawing, hasCalledUno := q.clearPlayableCards.hasCalledUno, mustStack := q.clearPlayableCards.mustStack, lastDrawnCard := q.clearPlayableCards.lastDrawnCard, roomId := q.clearPlayableCards.roomId, inRoom := q.clearPlayableCards.inRoom } else q) s.players)) }) else q) ∘ G) ∘ (fun q => if (q.id == np.id) = true then { q with canDraw := false, canPlay := false } else q)) ∘ (fun q => if (q.id == s.turn) = true then { id := q.clearPlayableCards.id, username := q.clearPlayableCards.username, cards := q.clearPlayableCards.cards, bot := q.clearPlayableCards.bot, canDraw := false, canPlay := false, drawing := q.clearPlayableCards.drawing, hasCalledUno := q.clearPlayableCards.hasCalledUno, mustStack := q.clearPlayableCards.mustStack, lastDrawnCard := q.clearPlayableCards.lastDrawnCard, roomId := q.clearPlayableCards.roomId, inRoom := q.clearPlayableCards.inRoom } else q)), ⟨hFULLid, hFULLms, hFULLlen⟩, rfl⟩

/-- C5: playing a Plus2 whose victim (the next seat) holds no Plus2
delivers the penalty immediately: the victim's hand grows by exactly
`stack + 2` cards, the turn skips the victim (the seat after them acts
next), the stack resets to 0 and every seated player's `mustStack` is
cleared. -/
theorem c5_plus2_delivered (f : Nat) (r : Room) (pid : String) (idx : Nat)
    (p np m2 : Player) (c : Card)
    (hnd : (r.players.map Player.id).Nodup)
    (hp : findP r.players pid = some p)
    (hturn : r.turn = pid)
    (hcanPlay : p.canPlay = true)
    (hc : p.cards.get? idx = some c)
    (hctype : c.ctype = CardType.Plus2)
    (hplayable : c.playable = true)
    (hnp : r.getNextPlayer 0 = some np)
    (hne : np.id ≠ pid)
    (hnp2 : (np.cards.any fun d => d.ctype == CardType.Plus2) = false)
    (hdrawing : np.drawing = false)
    (hm2 : Room.getNextPlayer { r with turn := np.id } 0 = some m2)
    (hm2bot : m2.bot = false)
    (hwin : r.winner = none)
    (hdeck : r.stack + 2 ≤ r.deck.length)
    (hempty : r.isRoomEmpty = false)
    (hplen : 3 ≤ p.cards.length)
    (hhands : ∀ q ∈ r.players, q.cards.length ≠ 0) :
    (Room.playCard (f + r.stack + 9) r pid idx).stack = 0 ∧
    (Room.playCard (f + r.stack + 9) r pid idx).turn = m2.id ∧
    ((findP (Room.playCard (f + r.stack + 9) r pid idx).players np.id).map
        fun q => (q.cards.length, q.mustStack)) = some (np.cards.length + (r.stack + 2), false) ∧
    (∀ q ∈ (Room.playCard (f + r.stack + 9) r pid idx).players, q.mustStack = false) := by
  have hpid : p.id = pid := (findP_mem_id hp).2
  have hnppid : (np.id == pid) = false := by simp [hne]
  have hgE : ∀ q : Player, ((fun q => if (q.id == pid) = true
      then { q with cards := q.cards.eraseIdx idx } else q) q).id = q.id := by
    intro q
    dsimp only
    split <;> rfl
  have hgU : ∀ q : Player, ((fun q => if (q.id == pid) = true
      then { q with hasCalledUno := false } else q) q).id = q.id := by
    intro q
    dsimp only
    split <;> rfl
  have hgMs : ∀ q : Player, ((fun (x : Player) => { x with mustStack := false }) q).id = q.id :=
    fun q => rfl
  have hidx : idx < p.cards.length := by
    rw [List.get?_eq_getElem?] at hc
    exact (List.getElem?_eq_some_iff.mp hc).1
  have hA : Room.getNextPlayer
      { r with wildcard := none,
               players := updP r.players pid (fun q => { q with cards := q.cards.eraseIdx idx }),
               pile := r.pile ++ [c] } 0 = some np := by
    rw [getNextPlayer_map r
      { r with wildcard := none,
               players := updP r.players pid (fun q => { q with cards := q.cards.eraseIdx idx }),
               pile := r.pile ++ [c] }
      (fun q => if (q.id == pid) = true then { q with cards := q.cards.eraseIdx idx } else q)
      hgE rfl rfl rfl, hnp]
    simp only [Option.map_some', hnppid, Bool.false_eq_true, if_false]
  have hfsnp : findP r.players np.id = some np := findP_of_mem_nodup hnd (getNextPlayer_mem hnp)
  have hE_p : findP (updP r.players pid (fun q => { q with cards := q.cards.eraseIdx idx })) pid
      = some { p with cards := p.cards.eraseIdx idx } := by
    rw [updP_as_map, findP_map_idpres _ _ hgE pid, hp]
    simp only [Option.map_some']
    rw [show (p.id == pid) = true from by simp [hpid]]
    rfl
  have hE_np : findP (updP r.players pid (fun q => { q with cards := q.cards.eraseIdx idx })) np.id
      = some np := by
    rw [updP_as_map, findP_map_idpres _ _ hgE np.id, hfsnp]
    simp only [Option.map_some', hnppid, Bool.false_eq_true, if_false]
  have hMS_p : findP ((updP r.players pid (fun q => { q with cards := q.cards.eraseIdx idx })).map
        (fun (x : Player) => { x with mustStack := false })) pid
      = some { p with cards := p.cards.eraseIdx idx, mustStack := false } := by
    rw [findP_map_idpres _ _ hgMs pid, hE_p]
    rfl
  have hMS_np : findP ((updP r.players pid (fun q => { q with cards := q.cards.eraseIdx idx })).map
        (fun (x : Player) => { x with mustStack := false })) np.id
      = some { np with mustStack := false } := by
    rw [findP_map_idpres _ _ hgMs np.id, hE_np]
    rfl
  have hRC_np : findP (updP ((updP r.players pid (fun q => { q with cards := q.cards.eraseIdx idx })).map
        (fun (x : Player) => { x with mustStack := false })) pid (fun q => { q with hasCalledUno := false })) np.id
      = some { np with mustStack := false } := by
    rw [updP_as_map (List.map _ _), findP_map_idpres _ _ hgU np.id, hMS_np]
    simp only [Option.map_some']
    rw [show (({ np with mustStack := false } : Player).id == pid) = false from by
      show (np.id == pid) = false
      exact hnppid]
    rfl
  have hlen1 : ((p.cards.eraseIdx idx).length == 1) = false := by
    rw [List.length_eraseIdx, if_pos hidx]
    simp only [beq_eq_false_iff_ne, ne_eq]
    omega
  have hRCpl : updP ((updP r.players pid (fun q => { q with cards := q.cards.eraseIdx idx })).map (fun (x : Player) => { x with mustStack := false })) pid (fun q => { q with hasCalledUno := false }) = r.players.map (fun (q : Player) => (fun (q : Player) => if (q.id == pid) = true then { q with hasCalledUno := false } else q) ((fun (x : Player) => { x with mustStack := false }) ((fun (q : Player) => if (q.id == pid) = true then { q with cards := q.cards.eraseIdx idx } else q) q))) := by
    rw [updP_as_map (List.map _ _), updP_as_map r.players, List.map_map, List.map_map]
    rfl
  have hg3id : ∀ q : Player, ((fun (q : Player) => (fun (q : Player) => if (q.id == pid) = true then { q with hasCalledUno := false } else q) ((fun (x : Player) => { x with mustStack := false }) ((fun (q : Player) => if (q.id == pid) = true then { q with cards := q.cards.eraseIdx idx } else q) q))) q).id = q.id :=
    fun q => (hgU _).trans ((hgMs _).trans (hgE q))
  have hg3ms : ∀ q : Player, ((fun (q : Player) => (fun (q : Player) => if (q.id == pid) = true then { q with hasCalledUno := false } else q) ((fun (x : Player) => { x with mustStack := false }) ((fun (q : Player) => if (q.id == pid) = true then { q with cards := q.cards.eraseIdx idx } else q) q))) q).mustStack = false := by
    intro q
    dsimp only
    split <;> rfl
  have hg3bot : ∀ q : Player, ((fun (q : Player) => (fun (q : Player) => if (q.id == pid) = true then { q with hasCalledUno := false } else q) ((fun (x : Player) => { x with mustStack := false }) ((fun (q : Player) => if (q.id == pid) = true then { q with cards := q.cards.eraseIdx idx } else q) q))) q).bot = q.bot := by
    intro q
    by_cases hq : (q.id == pid) = true
    · simp [hq]
    · simp only [Bool.not_eq_true] at hq
      simp [hq]
  have hg3drawing : ∀ q : Player, ((fun (q : Player) => (fun (q : Player) => if (q.id == pid) = true then { q with hasCalledUno := false } else q) ((fun (x : Player) => { x with mustStack := false }) ((fun (q : Player) => if (q.id == pid) = true then { q with cards := q.cards.eraseIdx idx } else q) q))) q).drawing = q.drawing := by
    intro q
    by_cases hq : (q.id == pid) = true
    · simp [hq]
    · simp only [Bool.not_eq_true] at hq
      simp [hq]
  have hndRC : ((updP ((updP r.players pid (fun q => { q with cards := q.cards.eraseIdx idx })).map (fun (x : Player) => { x with mustStack := false })) pid (fun q => { q with hasCalledUno := false })).map Player.id).Nodup := by
    rw [hRCpl, List.map_map, show (Player.id ∘ (fun (q : Player) => (fun (q : Player) => if (q.id == pid) = true then { q with hasCalledUno := false } else q) ((fun (x : Player) => { x with mustStack := false }) ((fun (q : Player) => if (q.id == pid) = true then { q with cards := q.cards.eraseIdx idx } else q) q)))) = Player.id from funext hg3id]
    exact hnd
  have hnpRC : Room.getNextPlayer
      { r with wildcard := none, pile := r.pile ++ [c], stack := 0, players := updP ((updP r.players pid (fun q => { q with cards := q.cards.eraseIdx idx })).map (fun (x : Player) => { x with mustStack := false })) pid (fun q => { q with hasCalledUno := false }) } 0
      = some { np with mustStack := false } := by
    rw [getNextPlayer_map r
      { r with wildcard := none, pile := r.pile ++ [c], stack := 0, players := updP ((updP r.players pid (fun q => { q with cards := q.cards.eraseIdx idx })).map (fun (x : Player) => { x with mustStack := false })) pid (fun q => { q with hasCalledUno := false }) }
      (fun (q : Player) => (fun (q : Player) => if (q.id == pid) = true then { q with hasCalledUno := false } else q) ((fun (x : Player) => { x with mustStack := false }) ((fun (q : Player) => if (q.id == pid) = true then { q with cards := q.cards.eraseIdx idx } else q) q))) hg3id hRCpl rfl rfl, hnp]
    simp only [Option.map_some', hnppid, Bool.false_eq_true, if_false]
  have hm2RC : Room.getNextPlayer
      { r with wildcard := none, pile := r.pile ++ [c], stack := 0, players := updP ((updP r.players pid (fun q => { q with cards := q.cards.eraseIdx idx })).map (fun (x : Player) => { x with mustStack := false })) pid (fun q => { q with hasCalledUno := false }),
               turn := np.id } 0 = some ((fun (q : Player) => (fun (q : Player) => if (q.id == pid) = true then { q with hasCalledUno := false } else q) ((fun (x : Player) => { x with mustStack := false }) ((fun (q : Player) => if (q.id == pid) = true then { q with cards := q.cards.eraseIdx idx } else q) q))) m2) := by
    rw [getNextPlayer_map { r with turn := np.id }
      { r with wildcard := none, pile := r.pile ++ [c], stack := 0, players := updP ((updP r.players pid (fun q => { q with cards := q.cards.eraseIdx idx })).map (fun (x : Player) => { x with mustStack := false })) pid (fun q => { q with hasCalledUno := false }),
               turn := np.id }
      (fun (q : Player) => (fun (q : Player) => if (q.id == pid) = true then { q with hasCalledUno := false } else q) ((fun (x : Player) => { x with mustStack := false }) ((fun (q : Player) => if (q.id == pid) = true then { q with cards := q.cards.eraseIdx idx } else q) q))) hg3id hRCpl rfl rfl, hm2]
    rfl
  have hhandsRC : ∀ q ∈ r.players.map (fun (q : Player) => (fun (q : Player) => if (q.id == pid) = true then { q with hasCalledUno := false } else q) ((fun (x : Player) => { x with mustStack := false }) ((fun (q : Player) => if (q.id == pid) = true then { q with cards := q.cards.eraseIdx idx } else q) q))), q.cards.length ≠ 0 := by
    intro q hq
    obtain ⟨x, hx, rfl⟩ := List.mem_map.mp hq
    by_cases hxp : (x.id == pid) = true
    · have hxeq : x = p := by
        have h1 := findP_of_mem_nodup hnd hx
        rw [beq_iff_eq] at hxp
        rw [hxp] at h1
        exact (Option.some_inj.mp (hp.symm.trans h1)).symm
      subst hxeq
      show ((fun (q : Player) => (fun (q : Player) => if (q.id == pid) = true then { q with hasCalledUno := false } else q) ((fun (x : Player) => { x with mustStack := false }) ((fun (q : Player) => if (q.id == pid) = true then { q with cards := q.cards.eraseIdx idx } else q) q))) x).cards.length ≠ 0
      have hxp2 : (x.id == pid) = true := hxp
      simp only [hxp2, if_true]
      rw [List.length_eraseIdx, if_pos hidx]
      omega
    · simp only [Bool.not_eq_true] at hxp
      show ((fun (q : Player) => (fun (q : Player) => if (q.id == pid) = true then { q with hasCalledUno := false } else q) ((fun (x : Player) => { x with mustStack := false }) ((fun (q : Player) => if (q.id == pid) = true then { q with cards := q.cards.eraseIdx idx } else q) q))) x).cards.length ≠ 0
      simp only [hxp, Bool.false_eq_true, if_false]
      exact hhands x hx
  obtain ⟨g, ⟨hgid, hgms, hglen⟩, hrunEq⟩ := nextTurnF_skip_draw (f + r.stack + 8) (r.stack + 2)
    { r with wildcard := none, pile := r.pile ++ [c], stack := 0, players := updP ((updP r.players pid (fun q => { q with cards := q.cards.eraseIdx idx })).map (fun (x : Player) => { x with mustStack := false })) pid (fun q => { q with hasCalledUno := false }) }
    { np with mustStack := false } ((fun (q : Player) => (fun (q : Player) => if (q.id == pid) = true then { q with hasCalledUno := false } else q) ((fun (x : Player) => { x with mustStack := false }) ((fun (q : Player) => if (q.id == pid) = true then { q with cards := q.cards.eraseIdx idx } else q) q))) m2)
    (by omega) (by omega) hndRC hnpRC
    (show (np.id == r.turn) = false from by rw [hturn]; exact hnppid)
    hdrawing hempty hdeck hm2RC ((hg3bot m2).trans hm2bot) hwin
    (fun q hq => hhandsRC q (by rw [← hRCpl]; exact hq))
  have hfull : Room.playCard (f + r.stack + 9) r pid idx
      = (run (f + r.stack + 8) (.nextTurn true (r.stack + 2))
          { r with wildcard := none, pile := r.pile ++ [c], stack := 0, players := updP ((updP r.players pid (fun q => { q with cards := q.cards.eraseIdx idx })).map (fun (x : Player) => { x with mustStack := false })) pid (fun q => { q with hasCalledUno := false }) }).1 := by
    show (run ((f + r.stack + 8) + 1) (Op.playCard pid idx) r).1 = _
    rw [run, playCardF, hp]
    have hcond : (!p.canPlay || (p.cards.get? idx).isNone || r.turn != pid ||
        !(((p.cards.get? idx).map fun c => c.playable).getD false)) = false := by
      rw [hc, hcanPlay, hturn]
      simp [hplayable]
    simp only [hcond, Bool.false_eq_true, if_false]
    rw [hc]
    dsimp only
    rw [hA]
    dsimp only
    rw [hctype]
    dsimp only
    simp only [hnp2, Bool.false_eq_true, if_false]
    dsimp only [Room.clearStack]
    rw [hMS_p]
    dsimp only
    simp only [hlen1, Bool.false_and, Bool.false_eq_true, if_false]
    rw [hRC_np]
    simp only [Option.map_some', Option.getD_some]
    simp only [show ((CardType.Plus2 == CardType.Plus2 || CardType.Plus2 == CardType.Plus4) &&
        !false || CardType.Plus2 == CardType.Skip) = true from rfl, if_true]
  refine ⟨?_, ?_, ?_, ?_⟩
  · rw [hfull, hrunEq]
  · rw [hfull, hrunEq]
    exact hg3id m2
  · rw [hfull, hrunEq]
    show ((findP ((updP ((updP r.players pid (fun q => { q with cards := q.cards.eraseIdx idx })).map (fun (x : Player) => { x with mustStack := false })) pid (fun q => { q with hasCalledUno := false })).map g) np.id).map fun q => (q.cards.length, q.mustStack)) = _
    rw [findP_map_idpres _ _ hgid np.id, hRC_np]
    simp only [Option.map_some']
    rw [hglen, hgms]
    rw [show (({ np with mustStack := false } : Player).id == np.id) = true from by
      show (np.id == np.id) = true
      simp]
    simp only [if_true]
  · rw [hfull, hrunEq]
    intro q hq
    rw [show ((updP ((updP r.players pid (fun q => { q with cards := q.cards.eraseIdx idx })).map (fun (x : Player) => { x with mustStack := false })) pid (fun q => { q with hasCalledUno := false })).map g) = ((r.players.map (fun (q : Player) => (fun (q : Player) => if (q.id == pid) = true then { q with hasCalledUno := false } else q) ((fun (x : Player) => { x with mustStack := false }) ((fun (q : Player) => if (q.id == pid) = true then { q with cards := q.cards.eraseIdx idx } else q) q)))).map g) from by rw [hRCpl]] at hq
    obtain ⟨y, hy, rfl⟩ := List.mem_map.mp hq
    obtain ⟨x, hx, rfl⟩ := List.mem_map.mp hy
    rw [hgms]
    exact hg3ms x

/-- The Plus2 played in the C5 witness. -/
def cardC5 : Card :=
  { id := 10, number := 0, color := CardColor.Red, ctype := CardType.Plus2, playable := true }

/-- The C5 turn player: a playable Plus2 plus two spare cards. -/
def playerC5a : Player :=
  { id := "a", canPlay := true
    cards := [cardC5,
      { id := 11, number := 3, color := CardColor.Red, ctype := CardType.NoType },
      { id := 12, number := 4, color := CardColor.Red, ctype := CardType.NoType }] }

/-- The C5 victim: one card, no Plus2. -/
def playerC5b : Player :=
  { id := "b", cards := [{ id := 20, number := 5, color := CardColor.Green, ctype := CardType.NoType }] }

/-- A started two-player room with two deck cards to deliver. -/
def roomC5 : Room :=
  { started := true, players := [playerC5a, playerC5b], turn := "a"
    pile := [{ id := 30, number := 7, color := CardColor.Red, ctype := CardType.NoType }]
    deck := [{ id := 40, number := 1, color := CardColor.Blue, ctype := CardType.NoType },
             { id := 41, number := 2, color := CardColor.Blue, ctype := CardType.NoType }] }

/-- C5 witness: the delivery theorem applied to the concrete room — the
victim (`b`) draws the 2 cards, the turn wraps past them back to `a`, the
stack resets and no `mustStack` flag survives. -/
theorem c5_witness :
    (Room.playCard (0 + roomC5.stack + 9) roomC5 "a" 0).stack = 0 ∧
    (Room.playCard (0 + roomC5.stack + 9) roomC5 "a" 0).turn = playerC5a.id ∧
    ((findP (Room.playCard (0 + roomC5.stack + 9) roomC5 "a" 0).players playerC5b.id).map
        fun q => (q.cards.length, q.mustStack))
      = some (playerC5b.cards.length + (roomC5.stack + 2), false) ∧
    (∀ q ∈ (Room.playCard (0 + roomC5.stack + 9) roomC5 "a" 0).players, q.mustStack = false) :=
  c5_plus2_delivered 0 roomC5 "a" 0 playerC5a playerC5b playerC5a cardC5
    (by decide) (by decide) rfl rfl rfl rfl rfl rfl (by decide) (by decide) rfl rfl rfl rfl
    (by decide) rfl (by decide) (by decide)

/-! ## C3 -/

/-- The C3 invariant: seated ids are unique and exactly one seated player
is referenced by the turn pointer. -/
def turnInv (r : Room) : Prop :=
  (r.players.map Player.id).Nodup ∧
  ((r.players.map Player.id).countP fun y => y == r.turn) = 1

/-- The operations of the game loop proper: everything except
`removePlayer` (which is driven by the gateway, not by game flow, and
which the game operations never invoke). -/
def gameOp : Op → Prop
  | .removePlayer _ _ => False
  | _ => True

/-- In a duplicate-free id list, a present id is counted exactly once. -/
theorem countP_ids_one {ids : List String} {x : String} (hnd : ids.Nodup) (hx : x ∈ ids) :
    (ids.countP fun y => y == x) = 1 := by
  induction ids with
  | nil => cases hx
  | cons b t ih =>
    rw [List.nodup_cons] at hnd
    rw [List.countP_cons]
    by_cases hbx : b = x
    · subst hbx
      have h0 : (t.countP fun y => y == b) = 0 := by
        rw [List.countP_eq_zero]
        intro a ha
        simp only [beq_iff_eq]
        exact fun h => hnd.1 (h ▸ ha)
      simp [h0]
    · have hxt : x ∈ t := by
        rcases List.mem_cons.mp hx with h | h
        · exact absurd h.symm hbx
        · exact h
      rw [ih hnd.2 hxt]
      have hb : (b == x) = false := by simp [hbx]
      simp [hb]

/-- The invariant only depends on the seated ids and the turn pointer. -/
theorem turnInv_of_ids {r s : Room} (hids : s.players.map Player.id = r.players.map Player.id)
    (ht : s.turn = r.turn) (h : turnInv r) : turnInv s := by
  show (s.players.map Player.id).Nodup ∧ _
  rw [hids, ht]
  exact h

/-- Naming a seated player as turn restores the invariant. -/
theorem turnInv_set_turn {r s : Room} (m : Player)
    (hids : s.players.map Player.id = r.players.map Player.id)
    (ht : s.turn = m.id) (hm : m ∈ r.players) (h : turnInv r) : turnInv s := by
  refine ⟨by rw [hids]; exact h.1, ?_⟩
  rw [hids, ht]
  exact countP_ids_one h.1 (List.mem_map.mpr ⟨m, hm, rfl⟩)

theorem ids_map_of_idpres (ps : List Player) (g : Player → Player)
    (hg : ∀ q, (g q).id = q.id) :
    (ps.map g).map Player.id = ps.map Player.id := by
  rw [List.map_map]
  exact List.map_congr_left fun a _ => hg a

/-- The draw stage of `giveCard` never changes seating ids or the turn. -/
theorem turnInv_giveCardDraw (r : Room) (pid : String) (h : turnInv r) :
    turnInv (r.giveCardDraw pid).2 := by
  rw [Room.giveCardDraw, pickCard]
  cases hga : r.deck.get? 0 with
  | none => exact h
  | some c =>
    dsimp only
    split
    · refine @turnInv_of_ids r _ ?_ rfl h
      show ((updP (updP r.players pid _) pid _).map Player.id) = _
      rw [ids_updP, ids_updP]
      all_goals exact fun q => rfl
    · refine @turnInv_of_ids r _ ?_ rfl h
      show ((updP r.players pid _).map Player.id) = _
      rw [ids_updP]
      all_goals exact fun q => rfl

/-- `giveCard` (with its lazy refill) never changes seating ids or the
turn. -/
theorem turnInv_giveCard (r : Room) (pid : String) (h : turnInv r) :
    turnInv (r.giveCard pid).2 := by
  rw [Room.giveCard]
  split
  · exact turnInv_giveCardDraw _ _ (turnInv_of_ids rfl rfl h)
  · exact turnInv_giveCardDraw _ _ h

/-- Hand sorting keeps the player's id. -/
theorem sortCards_id (p : Player) : (Player.sortCards p).id = p.id := rfl

/-- Recomputing playable flags keeps the player's id. -/
theorem findPlayableCards_id (p : Player) (top : Card) :
    (Player.findPlayableCards p top).id = p.id := rfl

/-- Clearing playable flags keeps the player's id. -/
theorem clearPlayableCards_id (p : Player) :
    (Player.clearPlayableCards p).id = p.id := rfl

/-- Shuffling touches only the deck and the random stream. -/
theorem shuffleDeck_players (r : Room) : (Room.shuffleDeck r).players = r.players := rfl

theorem shuffleDeck_turn (r : Room) : (Room.shuffleDeck r).turn = r.turn := rfl

/-- Consuming a random value touches only the random stream. -/
theorem nextRand_players (r : Room) (n : Nat) : (r.nextRand n).2.players = r.players := by
  rw [Room.nextRand]
  cases r.rng <;> rfl

theorem nextRand_turn (r : Room) (n : Nat) : (r.nextRand n).2.turn = r.turn := by
  rw [Room.nextRand]
  cases r.rng <;> rfl

/-- The modelled `Math.floor(Math.random() * n)` lands in `[0, n)`. -/
theorem nextRand_lt (r : Room) (n : Nat) (hn : 0 < n) : (r.nextRand n).1 < n := by
  rw [Room.nextRand]
  cases r.rng with
  | nil => exact hn
  | cons x t =>
    have h0 : (n == 0) = false := by simp; omega
    rw [h0]
    exact Nat.mod_lt _ hn

/-- Recoloring the top pile card touches only the pile. -/
theorem setTopColor_players (r : Room) (col : CardColor) :
    (r.setTopColor col).players = r.players := by
  rw [Room.setTopColor]
  cases r.pile.getLast? <;> rfl

theorem setTopColor_turn (r : Room) (col : CardColor) :
    (r.setTopColor col).turn = r.turn := by
  rw [Room.setTopColor]
  cases r.pile.getLast? <;> rfl

/-- Mutating the turn player's fields leaves the seating list's shape and
the turn pointer alone. -/
theorem updTurn_players (r : Room) (f : Player → Player) :
    (r.updTurn f).players = updP r.players r.turn f := rfl

theorem updTurn_turn (r : Room) (f : Player → Player) : (r.updTurn f).turn = r.turn := rfl

/-- The win check records a winner and nothing else. -/
theorem checkForWinner_players (r : Room) : (Room.checkForWinner r).players = r.players := rfl

theorem checkForWinner_turn (r : Room) : (Room.checkForWinner r).turn = r.turn := rfl

/-- Clearing the stack flags keeps ids and the turn. -/
theorem clearStack_ids (r : Room) :
    ((Room.clearStack r).players.map Player.id) = r.players.map Player.id := by
  rw [Room.clearStack]
  exact ids_map_of_idpres _ _ fun q => rfl

theorem clearStack_turn (r : Room) : (Room.clearStack r).turn = r.turn := rfl

/-- The invariant forces a non-empty seating list. -/
theorem turnInv_players_pos (r : Room) (h : turnInv r) : 0 < r.players.length := by
  rcases hps : r.players with _ | ⟨p, t⟩
  · exact absurd h.2 (by rw [hps]; simp)
  · simp [hps]

/-- A turn-invariant step preserved pointwise is preserved by a fold. -/
theorem turnInv_foldl {α : Type} (f : Room → α → Room) (l : List α)
    (hf : ∀ s a, turnInv s → turnInv (f s a)) :
    ∀ r : Room, turnInv r → turnInv (l.foldl f r) := by
  induction l with
  | nil => exact fun r h => h
  | cons a t ih => exact fun r h => ih (f r a) (hf r a h)

/-- With the invariant, the one-seat scan always finds a player. -/
theorem getNextPlayer_isSome_of_turnInv (r : Room) (h : turnInv r) :
    ∃ m, r.getNextPlayer 0 = some m := by
  obtain ⟨hnd, hcnt⟩ := h
  have hmem : r.turn ∈ r.players.map Player.id := by
    by_contra hno
    have h0 : ((r.players.map Player.id).countP fun y => y == r.turn) = 0 := by
      rw [List.countP_eq_zero]
      intro a ha
      simp only [beq_iff_eq]
      exact fun hEq => hno (hEq ▸ ha)
    omega
  obtain ⟨q, hq, hqid⟩ := List.mem_map.mp hmem
  obtain ⟨i, hilt, hgeti⟩ := List.mem_iff_getElem.mp hq
  have hturn : (r.players.get ⟨i, hilt⟩).id = r.turn := by
    rw [List.get_eq_getElem, hgeti, hqid]
  have hn : 0 < r.players.length := Nat.lt_of_le_of_lt (Nat.zero_le i) hilt
  rw [getNextPlayer_formula r i hnd hilt hturn, List.get?_eq_getElem?]
  exact ⟨_, List.getElem?_eq_some_iff.mpr ⟨by split <;> exact Nat.mod_lt _ hn, rfl⟩⟩

/-- Under the invariant the one-seat scan cannot come up empty. -/
theorem getNextPlayer_none_absurd {r : Room} (hn : r.getNextPlayer 0 = none)
    (h : turnInv r) : False := by
  obtain ⟨m, hm⟩ := getNextPlayer_isSome_of_turnInv r h
  rw [hn] at hm
  exact Option.noConfusion hm

/-- One iteration of the draw loop preserves the turn invariant,
assuming the recursive calls do. -/
theorem turnInv_drawLoopF (rec : Op → Room → Room × Bool)
    (hrec : ∀ op s, gameOp op → turnInv s → turnInv (rec op s).1)
    (pid : String) (amount : Int) (i : Nat) (dids : List Nat) (r : Room)
    (h : turnInv r) : turnInv (drawLoopF rec pid amount i dids r).1 := by
  rw [drawLoopF]
  dsimp only
  split
  · exact h
  · split
    · exact turnInv_giveCard r pid h
    · split
      · split
        · refine hrec _ _ trivial ?_
          refine turnInv_of_ids ?_ ?_ (turnInv_giveCard r pid h)
          · simp [ids_updP, sortCards_id]
          · rfl
        · refine turnInv_of_ids ?_ ?_ (turnInv_giveCard r pid h)
          · simp [ids_updP, sortCards_id]
          · rfl
      · refine hrec _ _ trivial ?_
        refine turnInv_of_ids ?_ ?_ (turnInv_giveCard r pid h)
        · simp [ids_updP, sortCards_id]
        · rfl

/-- The body of `drawCards` preserves the turn invariant, assuming the
recursive calls do. -/
theorem turnInv_drawCardsF (rec : Op → Room → Room × Bool)
    (hrec : ∀ op s, gameOp op → turnInv s → turnInv (rec op s).1)
    (pid : String) (amount : Int) (r : Room)
    (h : turnInv r) : turnInv (drawCardsF rec pid amount r).1 := by
  rw [drawCardsF]
  dsimp only
  split
  · exact h
  · split
    · exact h
    · split
      · split
        · refine hrec _ _ ?_ ?_
          · trivial
          · refine turnInv_of_ids ?_ ?_ h
            · simp [ids_updP]
            · rfl
        · apply turnInv_of_ids
          · rw [ids_updP, ids_updP, ids_updP]
            · exact fun q => rfl
            · intro q
              cases q.cards.get? q.lastDrawnCard <;> rfl
            · exact fun q => rfl
          · rfl
          · refine hrec _ _ ?_ ?_
            · trivial
            · refine turnInv_of_ids ?_ ?_ h
              · simp [ids_updP]
              · rfl
      · split
        · refine hrec _ _ ?_ ?_
          · trivial
          · refine turnInv_of_ids ?_ ?_ h
            · simp [ids_updP]
            · rfl
        · apply turnInv_of_ids
          · rw [ids_updP, ids_updP, ids_updP]
            · exact fun q => rfl
            · intro q
              cases q.cards.get? q.lastDrawnCard <;> rfl
            · exact fun q => rfl
          · rfl
          · refine hrec _ _ ?_ ?_
            · trivial
            · refine turnInv_of_ids ?_ ?_ h
              · simp [ids_updP]
              · rfl

/-- The suffix of `playCard` (uno penalty, uno-flag reset, turn advance)
preserves the turn invariant over any base room, assuming the recursive
calls do. -/
theorem turnInv_playTail (rec : Op → Room → Room × Bool)
    (hrec : ∀ op s, gameOp op → turnInv s → turnInv (rec op s).1)
    (pid : String) (card : Card) (np : Player) (r4 : Room) (draw : Nat)
    (h4 : turnInv r4) :
    turnInv ((
      let r :=
        match findP r4.players pid with
        | some q =>
          if q.cards.length == 1 && !q.hasCalledUno then
            (rec (.drawCards pid 2) r4).1
          else r4
        | none => r4
      let r := { r with players := updP r.players pid fun q => { q with hasCalledUno := false } }
      let npMustStack := ((findP r.players np.id).map fun q => q.mustStack).getD false
      if ((card.ctype == CardType.Plus2 || card.ctype == CardType.Plus4) && !npMustStack) ||
         card.ctype == CardType.Skip then
        rec (.nextTurn true draw) r
      else
        rec (.nextTurn false 0) r : Room × Bool)).1 := by
  dsimp only
  split
  · refine hrec _ _ ?_ ?_
    · trivial
    · split
      · split
        · apply turnInv_of_ids
          · rw [ids_updP]
            exact fun q => rfl
          · rfl
          · refine hrec _ _ ?_ ?_
            · trivial
            · exact h4
        · refine turnInv_of_ids ?_ ?_ h4
          · simp [ids_updP]
          · rfl
      · refine turnInv_of_ids ?_ ?_ h4
        · simp [ids_updP]
        · rfl
  · refine hrec _ _ ?_ ?_
    · trivial
    · split
      · split
        · apply turnInv_of_ids
          · rw [ids_updP]
            exact fun q => rfl
          · rfl
          · refine hrec _ _ ?_ ?_
            · trivial
            · exact h4
        · refine turnInv_of_ids ?_ ?_ h4
          · simp [ids_updP]
          · rfl
      · refine turnInv_of_ids ?_ ?_ h4
        · simp [ids_updP]
        · rfl

/-- The body of `playCard` preserves the turn invariant, assuming the
recursive calls do. -/
theorem turnInv_playCardF (rec : Op → Room → Room × Bool)
    (hrec : ∀ op s, gameOp op → turnInv s → turnInv (rec op s).1)
    (pid : String) (cardIndex : Nat) (r : Room)
    (h : turnInv r) : turnInv (playCardF rec pid cardIndex r).1 := by
  rw [playCardF]
  dsimp only
  split
  · exact h
  · split
    · exact h
    · split
      · refine turnInv_of_ids ?_ ?_ h
        · simp
        · rfl
      · split
        · refine turnInv_of_ids ?_ ?_ h
          · simp [ids_updP]
          · rfl
        · refine turnInv_playTail rec hrec pid _ _ _ _ ?_
          split
          · split
            · refine turnInv_of_ids ?_ ?_ h
              · simp [ids_updP]
              · rfl
            · refine turnInv_of_ids ?_ ?_ h
              · simp [clearStack_ids, ids_updP]
              · rfl
          · split
            · refine turnInv_of_ids ?_ ?_ h
              · simp [ids_updP]
              · rfl
            · refine turnInv_of_ids ?_ ?_ h
              · simp [clearStack_ids, ids_updP]
              · rfl
          · refine turnInv_of_ids ?_ ?_ h
            · simp [ids_updP]
            · rfl
          · refine turnInv_of_ids ?_ ?_ h
            · simp [ids_updP]
            · rfl

/-- The suffix of `nextTurn` (grant the turn to the next seat, win check,
synchronous bot move) preserves the turn invariant over any base room,
assuming the recursive calls do. -/
theorem turnInv_nextTail (rec : Op → Room → Room × Bool)
    (hrec : ∀ op s, gameOp op → turnInv s → turnInv (rec op s).1)
    (s : Room) (h : turnInv s) :
    turnInv ((match s.getNextPlayer 0 with
      | none => ({ s with turn := "" }, false)
      | some np =>
        let r := { s with turn := np.id }
        let r := r.updTurn fun q => ({ q with canDraw := true, canPlay := true }).findPlayableCards r.topCard
        let r := r.checkForWinner
        if r.winner.isSome then (r, false)
        else
          match findP r.players r.turn with
          | some q => if q.bot then rec .botPlay r else (r, false)
          | none => (r, false) : Room × Bool)).1 := by
  cases hnp : s.getNextPlayer 0 with
  | none => exact (getNextPlayer_none_absurd hnp h).elim
  | some np =>
    dsimp only
    split
    · refine turnInv_set_turn np ?_ ?_ (getNextPlayer_mem hnp) h
      · simp [checkForWinner_players, updTurn_players, ids_updP, findPlayableCards_id]
      · rfl
    · split
      · split
        · refine hrec _ _ ?_ ?_
          · trivial
          · refine turnInv_set_turn np ?_ ?_ (getNextPlayer_mem hnp) h
            · simp [checkForWinner_players, updTurn_players, ids_updP, findPlayableCards_id]
            · rfl
        · refine turnInv_set_turn np ?_ ?_ (getNextPlayer_mem hnp) h
          · simp [checkForWinner_players, updTurn_players, ids_updP, findPlayableCards_id]
          · rfl
      · refine turnInv_set_turn np ?_ ?_ (getNextPlayer_mem hnp) h
        · simp [checkForWinner_players, updTurn_players, ids_updP, findPlayableCards_id]
        · rfl

/-- The body of `nextTurn` preserves the turn invariant, assuming the
recursive calls do. -/
theorem turnInv_nextTurnF (rec : Op → Room → Room × Bool)
    (hrec : ∀ op s, gameOp op → turnInv s → turnInv (rec op s).1)
    (skip : Bool) (draw : Nat) (r : Room)
    (h : turnInv r) : turnInv (nextTurnF rec skip draw r).1 := by
  rw [nextTurnF]
  dsimp only
  refine turnInv_nextTail rec hrec _ ?_
  split
  · split
    · refine hrec _ _ ?_ ?_
      · trivial
      · split
        · rename_i np1 heq1
          refine turnInv_set_turn np1 ?_ ?_ (getNextPlayer_mem heq1) ?_
          · simp [updTurn_players, ids_updP, clearPlayableCards_id]
          · rfl
          · refine turnInv_of_ids ?_ ?_ h
            · simp [updTurn_players, ids_updP, clearPlayableCards_id]
            · rfl
        · rename_i heq1
          refine (getNextPlayer_none_absurd heq1 (turnInv_of_ids ?_ ?_ h)).elim
          · simp [updTurn_players, ids_updP, clearPlayableCards_id]
          · rfl
    · split
      · rename_i np1 heq1
        refine turnInv_set_turn np1 ?_ ?_ (getNextPlayer_mem heq1) ?_
        · simp [updTurn_players, ids_updP, clearPlayableCards_id]
        · rfl
        · refine turnInv_of_ids ?_ ?_ h
          · simp [updTurn_players, ids_updP, clearPlayableCards_id]
          · rfl
      · rename_i heq1
        refine (getNextPlayer_none_absurd heq1 (turnInv_of_ids ?_ ?_ h)).elim
        · simp [updTurn_players, ids_updP, clearPlayableCards_id]
        · rfl
  · refine turnInv_of_ids ?_ ?_ h
    · simp [updTurn_players, ids_updP, clearPlayableCards_id]
    · rfl

/-- The bot policy preserves the turn invariant, assuming the recursive
calls do. -/
theorem turnInv_botPlayF (rec : Op → Room → Room × Bool)
    (hrec : ∀ op s, gameOp op → turnInv s → turnInv (rec op s).1)
    (r : Room) (h : turnInv r) : turnInv (botPlayF rec r).1 := by
  rw [botPlayF]
  dsimp only
  split
  · exact h
  · split
    · refine hrec _ _ ?_ ?_
      · trivial
      · split
        · split
          · refine turnInv_of_ids ?_ ?_ h
            · simp [ids_updP]
            · rfl
          · exact h
        · exact h
    · refine hrec _ _ ?_ ?_
      · trivial
      · exact h

/-- The suffix of `startGame` (random starting player, playable-card
computation, synchronous bot start) preserves the turn invariant over any
base room, assuming the recursive calls do. -/
theorem turnInv_startTail (rec : Op → Room → Room × Bool)
    (hrec : ∀ op s, gameOp op → turnInv s → turnInv (rec op s).1)
    (s : Room) (h : turnInv s) :
    turnInv ((
      let k := s.nextRand s.players.length
      let r := k.2
      let r := { r with turn := (((r.players.get? k.1).map fun (p : Player) => p.id).getD "") }
      let r := r.updTurn fun q => ({ q with canDraw := true, canPlay := true }).findPlayableCards r.topCard
      let r := if (((findP r.players r.turn).map fun p => p.bot).getD false) then
          (rec .botPlay r).1
        else r
      ({ r with started := true }, false) : Room × Bool)).1 := by
  have hlt : (s.nextRand s.players.length).1 < (s.nextRand s.players.length).2.players.length := by
    rw [nextRand_players]
    exact nextRand_lt s _ (turnInv_players_pos s h)
  obtain ⟨m, hget⟩ : ∃ m, (s.nextRand s.players.length).2.players.get?
      (s.nextRand s.players.length).1 = some m :=
    ⟨_, List.get?_eq_get hlt⟩
  have h6 : turnInv (s.nextRand s.players.length).2 := by
    refine turnInv_of_ids ?_ (nextRand_turn s _) h
    rw [nextRand_players]
  dsimp only
  split
  · apply turnInv_of_ids
    · rfl
    · rfl
    · refine hrec _ _ ?_ ?_
      · trivial
      · have hget2 := hget
        rw [List.get?_eq_getElem?] at hget2
        refine turnInv_set_turn m ?_ ?_ (List.get?_mem hget) h6
        · simp [updTurn_players, ids_updP, findPlayableCards_id]
        · simp [updTurn_turn, hget2]
  · have hget2 := hget
    rw [List.get?_eq_getElem?] at hget2
    refine turnInv_set_turn m ?_ ?_ (List.get?_mem hget) h6
    · simp [updTurn_players, ids_updP, findPlayableCards_id]
    · simp [updTurn_turn, hget2]

set_option maxHeartbeats 1000000 in
/-- The body of `startGame` preserves the turn invariant, assuming the
recursive calls do. -/
theorem turnInv_startGameF (rec : Op → Room → Room × Bool)
    (hrec : ∀ op s, gameOp op → turnInv s → turnInv (rec op s).1)
    (r : Room) (h : turnInv r) : turnInv (startGameF rec r).1 := by
  delta startGameF
  dsimp only
  generalize (pickCard (Room.shuffleDeck { r with deck := generateDeck }).deck 0).1 = pc1
  cases pc1 with
  | none =>
    refine turnInv_of_ids ?_ ?_ h
    · rw [shuffleDeck_players]
    · rw [shuffleDeck_turn]
  | some c =>
    refine turnInv_startTail rec hrec _ ?_
    refine turnInv_foldl _ _ ?_ _ ?_
    · intro s2 a hs2
      refine turnInv_of_ids ?_ ?_
        (turnInv_foldl (fun (t : Room) (x : Nat) => (t.giveCard a).2) (List.range 7)
          (fun t b ht => turnInv_giveCard t a ht) s2 hs2)
      · simp [ids_updP, sortCards_id]
      · dsimp only
    · split
      · refine turnInv_of_ids ?_ ?_ h
        · simp [setTopColor_players, nextRand_players, shuffleDeck_players]
        · simp [setTopColor_turn, nextRand_turn, shuffleDeck_turn]
      · refine turnInv_of_ids ?_ ?_ h
        · rw [shuffleDeck_players]
        · rw [shuffleDeck_turn]

/-- The interpreted game operations preserve the invariant: with good
recursion behaviour at every fuel level, every game op keeps ids unique
and the turn pointer on exactly one seated player. -/
theorem turnInv_run : ∀ (fuel : Nat) (op : Op) (r : Room),
    gameOp op → turnInv r → turnInv (run fuel op r).1 := by
  intro fuel
  induction fuel with
  | zero => exact fun op r _ h => h
  | succ f ih =>
    intro op r hop h
    cases op with
    | drawLoop pid amount i dids =>
      exact turnInv_drawLoopF (run f) ih pid amount i dids r h
    | drawCards pid amount => exact turnInv_drawCardsF (run f) ih pid amount r h
    | playCard pid cardIndex => exact turnInv_playCardF (run f) ih pid cardIndex r h
    | nextTurn skip draw => exact turnInv_nextTurnF (run f) ih skip draw r h
    | botPlay => exact turnInv_botPlayF (run f) ih r h
    | removePlayer pid replace => exact hop.elim
    | startGame => exact turnInv_startGameF (run f) ih r h

/-- Joining a fresh player (id not seated, not named by the turn pointer)
preserves the invariant. -/
theorem turnInv_addPlayer (r : Room) (p : Player)
    (hfresh : p.id ∉ r.players.map Player.id) (hturn : p.id ≠ r.turn)
    (h : turnInv r) : turnInv (r.addPlayer p) := by
  obtain ⟨hnd, hcnt⟩ := h
  rw [Room.addPlayer]
  constructor
  · rw [List.map_append]
    rw [List.nodup_append]
    refine ⟨hnd, by simp, ?_⟩
    intro a ha hb
    simp only [List.map_cons, List.map_nil, List.mem_cons, List.not_mem_nil, or_false] at hb
    exact hfresh (hb ▸ ha)
  · rw [List.map_append, List.countP_append]
    show _ + (List.countP _ [p.id]) = 1
    rw [List.countP_cons]
    simp only [List.countP_nil, Nat.zero_add]
    have hne : (p.id == r.turn) = false := by simp [hturn]
    rw [hne]
    exact hcnt

/-- Kicking the current-turn player without replacement (at least two
other humans seated, host not the leaver) leaves the turn pointer naming
nobody: the seating list is filtered but `turn` is never reassigned. -/
theorem removePlayer_breaks_turn (f : Nat) (r : Room) (pid : String)
    (ht : r.turn = pid) (hhost : (r.host == pid) = false)
    (hhum : 2 ≤ (r.players.filter fun q => !q.bot && q.id != pid).length) :
    ((Room.removePlayer (f + 1) r pid false).players.map Player.id).countP
      (fun y => y == (Room.removePlayer (f + 1) r pid false).turn) = 0 := by
  rw [Room.removePlayer, run, removePlayerF]
  have h0 : ((r.players.filter fun q => !q.bot && q.id != pid).length == 0) = false := by
    simp only [beq_eq_false_iff_ne, ne_eq]
    omega
  have h1 : ((r.players.filter fun q => !q.bot && q.id != pid).length == 1) = false := by
    simp only [beq_eq_false_iff_ne, ne_eq]
    omega
  simp only [h0, hhost, h1, Bool.false_and, Bool.false_eq_true, if_false]
  rw [List.countP_eq_zero]
  intro a ha
  simp only [List.mem_map] at ha
  obtain ⟨q, hq, hqa⟩ := ha
  rw [List.mem_filter] at hq
  have hne : (q.id != pid) = true := by
    cases hb : (q.id != pid) <;> simp [hb] at hq ⊢
  simp only [bne_iff_ne, ne_eq] at hne
  simp only [beq_iff_eq]
  rw [← hqa, ht]
  exact hne

instance (r : Room) : Decidable (turnInv r) :=
  inferInstanceAs (Decidable ((r.players.map Player.id).Nodup ∧
    ((r.players.map Player.id).countP fun y => y == r.turn) = 1))

/-- C3: the turn invariant (unique seated ids, the turn pointer naming
exactly one seated player) is preserved by the game operations
(startGame, playCard, drawCards, nextTurn, and the internal draw loop and
bot moves) and by addPlayer for a fresh id; but — against the claim — it
is NOT preserved by removePlayer without replacement: kicking the
current-turn player filters them out of the seating list while the turn
pointer still names them, so it then counts zero seated players. -/
theorem c3_turn_unique (fuel : Nat) (op : Op) (r : Room) (p : Player) (f : Nat)
    (s : Room) (pid : String) :
    (gameOp op → turnInv r → turnInv (run fuel op r).1) ∧
    (turnInv r → p.id ∉ r.players.map Player.id → p.id ≠ r.turn → turnInv (r.addPlayer p)) ∧
    (s.turn = pid → (s.host == pid) = false →
      2 ≤ (s.players.filter fun q => !q.bot && q.id != pid).length →
      ((Room.removePlayer (f + 1) s pid false).players.map Player.id).countP
        (fun y => y == (Room.removePlayer (f + 1) s pid false).turn) = 0) :=
  ⟨fun hop h => turnInv_run fuel op r hop h,
   fun h hf ht => turnInv_addPlayer r p hf ht h,
   fun ht hh hm => removePlayer_breaks_turn f s pid ht hh hm⟩

/-- Three seated humans for the C3 scenario. -/
def playerC3a : Player := { id := "a", username := "pa", inRoom := true }

def playerC3b : Player := { id := "b", username := "pb", inRoom := true }

def playerC3c : Player := { id := "c", username := "pc", inRoom := true }

/-- A fresh player joining the C3 room. -/
def playerC3d : Player := { id := "d", username := "pd" }

/-- A started three-player room, `a` to move, hosted by `b`. -/
def roomC3 : Room :=
  { id := "R3", started := true, host := "b",
    players := [playerC3a, playerC3b, playerC3c], turn := "a" }

/-- C3 counterexample: the room satisfies the invariant, but kicking the
turn player `a` without replacement leaves a room that violates it (the
turn pointer names nobody seated). -/
theorem c3_counterexample :
    turnInv roomC3 ∧ ¬ turnInv (Room.removePlayer 1 roomC3 "a" false) := by
  constructor
  · decide
  · decide

/-- C3 witness: the preservation and violation theorem applied to the
concrete three-player room — a nextTurn step and a fresh join keep the
invariant, while kicking the turn player without replacement drops the
seated count of the turn id to zero. -/
theorem c3_witness :
    turnInv (run 3 (.nextTurn false 0) roomC3).1 ∧
    turnInv (roomC3.addPlayer playerC3d) ∧
    ((Room.removePlayer 1 roomC3 "a" false).players.map Player.id).countP
      (fun y => y == (Room.removePlayer 1 roomC3 "a" false).turn) = 0 :=
  have h := c3_turn_unique 3 (.nextTurn false 0) roomC3 playerC3d 0 roomC3 "a"
  ⟨h.1 True.intro (by decide), h.2.1 (by decide) (by decide) (by decide),
   h.2.2 rfl (by decide) (by decide)⟩

end ScuffedUno
